import Mathlib

/-!
The module loader of boot2 (`branches/cparm/i386/boot2/modules.c`).

A shallow embedding of the module system of the boot loader: the hook registry,
the symbol table and resolver, the symbol importer, the rebase and bind
interpreters, the Mach-O parser and the load orchestrator.

Conventions of the embedding.

* The machine is a 32-bit i386: `UInt32`, `unsigned int` and pointers are natural
  numbers reduced modulo `2^32` wherever the C arithmetic can wrap.
* Memory is flat and unprotected, a function from addresses to bytes. An image
  is the bytes found at its load base.
* A module name is a `char*`, embedded as the pointer: the Module Registry keeps
  the pointers it is given and the string is read from memory wherever the C code
  reads it. A `char*` that designates a symbol or a hook is embedded as the byte
  string it points to at the time of the call. The linked lists the C code
  allocates with `malloc` (hooks, callbacks, symbols, modules) are embedded as
  Lean lists, head first, and are taken to be disjoint from image memory.
* `malloc` is an oracle: the world carries the results of the coming calls.
* A call with no defined result is `none`: a call that does not return (a loop
  that never exits, a call through a null pointer) or one that overruns a
  fixed-size buffer. Loops that the C code does not bound take a fuel argument.
-/

namespace Modules

set_option autoImplicit false

/-! ## Names, status codes, constants -/

/-- A C string, as the list of its bytes without the terminating NUL. -/
abbrev CStr := List Nat

/-- Modelled from the spec: the result kinds of §6 and §7, under the names
`modules.c` uses; `efi.h`, which defines them (with `EFI_SUCCESS` as 0), is not
under src/. -/
inductive EFI_STATUS where
  | EFI_SUCCESS
  | EFI_LOAD_ERROR
  | EFI_OUT_OF_RESOURCES
  | EFI_NOT_FOUND
  | EFI_NOT_STARTED
  | EFI_ALREADY_STARTED
  deriving DecidableEq, Repr

open EFI_STATUS

/-- The "not found" address `0xFFFFFFFF`. -/
def SENTINEL : Nat := 0xFFFFFFFF

/-- The bytes of `"start"`, the reserved entry-point name. -/
def START_NAME : CStr := [115, 116, 97, 114, 116]

/-- The bytes of `".dylib"`. -/
def DYLIB_SUFFIX : CStr := [46, 100, 121, 108, 105, 98]

/-- The bytes of `"/Extra/modules/"`. -/
def MODULES_DIR : CStr := [47, 69, 120, 116, 114, 97, 47, 109, 111, 100, 117, 108, 101, 115, 47]

/-- The bytes of `"__TEXT"`. -/
def SEG_TEXT : CStr := [95, 95, 84, 69, 88, 84]

/-- The bytes of `"__text"`. -/
def SECT_TEXT : CStr := [95, 95, 116, 101, 120, 116]

/-! ## Flat memory -/

/-- Flat byte memory of the 32-bit machine. -/
abbrev Mem := Nat → Nat

/-- The byte at address `a` (addresses wrap at `2^32`). -/
def read8 (m : Mem) (a : Nat) : Nat := m (a % 4294967296) % 256

/-- Store the byte `v` at address `a`. -/
def write8 (m : Mem) (a v : Nat) : Mem :=
  fun x => if x = a % 4294967296 then v % 256 else m x

/-- The little-endian 32-bit word at address `a`. -/
def read32 (m : Mem) (a : Nat) : Nat :=
  read8 m a + 256 * read8 m (a + 1) + 65536 * read8 m (a + 2) + 16777216 * read8 m (a + 3)

/-- Store the 32-bit word `v` (reduced modulo `2^32`) at address `a`, little-endian. -/
def write32 (m : Mem) (a v : Nat) : Mem :=
  write8 (write8 (write8 (write8 m a v) (a + 1) (v / 256)) (a + 2) (v / 65536)) (a + 3)
    (v / 16777216)

/-- Copy the bytes `bs` to memory starting at address `a`. -/
def writeBytes (m : Mem) (a : Nat) : List Nat → Mem
  | [] => m
  | b :: bs => writeBytes (write8 m a b) (a + 1) bs

/-- The C string found at address `a`: the bytes up to the first NUL. The fuel
bounds the scan; `strAt` gives it the size of the address space. -/
def cstr (m : Mem) : Nat → Nat → CStr
  | _, 0 => []
  | a, fuel + 1 => if read8 m a = 0 then [] else read8 m a :: cstr m (a + 1) fuel

/-- The C string a `char*` with value `a` points to. -/
def strAt (m : Mem) (a : Nat) : CStr := cstr m a 4294967296

/-- The test `strcmp(p, lit) == 0` for a pointer `p` with value `a`: the bytes at
`a` are those of `lit` followed by a NUL. -/
def str_eq (m : Mem) (a : Nat) : CStr → Bool
  | [] => read8 m a == 0
  | c :: cs => read8 m a == c && str_eq m (a + 1) cs

/-! ## The globals of `modules.c` and their environment -/

/-- A `moduleHook_t` node: the hook name and its `callbackList_t`, head first.
A callback is the address of its function. -/
structure moduleHook_t where
  name : CStr
  callbacks : List Nat
  deriving DecidableEq

/-- A `symbolList_t` node. -/
structure symbolList_t where
  symbol : CStr
  addr : Nat
  deriving DecidableEq

/-- What the storage provider holds for a path: the size `file_size` reports and
the bytes `read` delivers. -/
structure File where
  size : Nat
  data : List Nat
  deriving DecidableEq

/-- The file-scope state of `modules.c` (`textAddress`, `textSection`,
`moduleCallbacks`, `loadedModules`, `moduleSymbols`, `lookup_symbol`), the memory,
and the collaborators. `loadedModules` holds the `module` pointer of each entry,
`provider` is what the function `lookup_symbol` points to computes, `heap` the
results of the coming `malloc` calls (0 is NULL), `files` the storage provider,
and `started` the record of the entry points invoked, oldest first: the name
`load_module` was called with, as the string it was at that moment, and the
address called. -/
structure World where
  mem : Mem
  textAddress : Nat
  textSection : Nat
  moduleCallbacks : List moduleHook_t
  loadedModules : List Nat
  moduleSymbols : List symbolList_t
  lookup_symbol : Nat
  provider : CStr → Nat
  heap : List Nat
  files : CStr → Option File
  started : List (CStr × Nat)

/-- The call `malloc(n)`: the next result of the allocator, NULL once the oracle
is exhausted. -/
def malloc (w : World) : Nat × World :=
  match w.heap with
  | [] => (0, w)
  | p :: rest => (p, { w with heap := rest })

/-! ## Hook registry and dispatcher -/

/-- The function `get_callback`: the first hook whose name is `name`, or NULL. -/
def get_callback (name : CStr) : List moduleHook_t → Option moduleHook_t
  | [] => none
  | h :: hooks => if name = h.name then some h else get_callback name hooks

/-- The function `execute_hook`. The callbacks are opaque code: `invoke cb arg1 ..
arg6 s` is the effect of the call `callback(arg1, .., arg6)` of the function at
`cb` on whatever the callbacks act on. -/
def execute_hook {σ : Type} (hooks : List moduleHook_t) (name : CStr)
    (arg1 arg2 arg3 arg4 arg5 arg6 : Nat)
    (invoke : Nat → Nat → Nat → Nat → Nat → Nat → Nat → σ → σ) (s : σ) : EFI_STATUS × σ :=
  match get_callback name hooks with
  | some hook =>
    (EFI_SUCCESS, hook.callbacks.foldl (fun s cb => invoke cb arg1 arg2 arg3 arg4 arg5 arg6 s) s)
  | none => (EFI_NOT_FOUND, s)

/-- The update `hook->callbacks = newCallback` on the first hook named `name`. -/
def push_callback (name : CStr) (callback : Nat) : List moduleHook_t → List moduleHook_t
  | [] => []
  | h :: hooks =>
    if name = h.name then { h with callbacks := callback :: h.callbacks } :: hooks
    else h :: push_callback name callback hooks

/-- The update `hook->callbacks = NULL` on the first hook named `name`. -/
def clear_callbacks (name : CStr) : List moduleHook_t → List moduleHook_t
  | [] => []
  | h :: hooks =>
    if name = h.name then { h with callbacks := [] } :: hooks
    else h :: clear_callbacks name hooks

/-- The function `register_hook_callback`. None of its three `malloc` results is
checked. For a hook that exists, `hook->callbacks = newCallback` makes the new
node the head of the callback list, which is therefore empty when `newCallback`
is NULL. For a new hook, `newHook->callbacks` is the node of the second `malloc`
(an empty list when that is NULL) and `moduleCallbacks = newHook` makes the new
hook the head of the hook list, which is therefore empty when `newHook` is NULL. -/
def register_hook_callback (name : CStr) (callback : Nat) (w : World) : World :=
  match get_callback name w.moduleCallbacks with
  | some _ =>
    { (malloc w).2 with
      moduleCallbacks :=
        if (malloc w).1 ≠ 0 then push_callback name callback w.moduleCallbacks
        else clear_callbacks name w.moduleCallbacks }
  | none =>
    { (malloc (malloc w).2).2 with
      moduleCallbacks :=
        if (malloc w).1 ≠ 0 then
          { name := name,
            callbacks := if (malloc (malloc w).2).1 ≠ 0 then [callback] else [] } ::
            w.moduleCallbacks
        else [] }

/-- The world after the registrations `regs` (name, callback), made in order. -/
def register_all (regs : List (CStr × Nat)) (w : World) : World :=
  regs.foldl (fun w r => register_hook_callback r.1 r.2 w) w

/-! ## Symbol table and resolver -/

/-- The function `add_symbol`: the returned `long long` and the new world. -/
def add_symbol (symbol : CStr) (addr : Nat) (is64 : Bool) (w : World) : Nat × World :=
  if is64 then (0xFFFFFFFF, w)
  else
    let (new_entry, w1) := malloc w
    if new_entry ≠ 0 then
      (addr, { w1 with
        moduleSymbols := { symbol := symbol, addr := addr % 4294967296 } :: w1.moduleSymbols })
    else (0xFFFFFFFF, w1)

/-- The scan of `moduleSymbols` in `lookup_all_symbols`. -/
def lookup_list (name : CStr) : List symbolList_t → Nat
  | [] => 0xFFFFFFFF
  | e :: rest => if e.symbol = name then e.addr else lookup_list name rest

/-- The function `lookup_all_symbols`. -/
def lookup_all_symbols (w : World) (name : CStr) : Nat :=
  if w.lookup_symbol ≠ 0 ∧ w.lookup_symbol ≠ 0xFFFFFFFF ∧ w.provider name % 4294967296 ≠ 0xFFFFFFFF
  then w.provider name % 4294967296
  else lookup_list name w.moduleSymbols

/-! ## Module registry -/

/-- The function `module_loaded`: the new entry keeps the pointer it is given
(`new_entry->module = (char*)name`), not a copy of the string. -/
def module_loaded (name : Nat) (w : World) : World :=
  let (new_entry, w1) := malloc w
  if new_entry ≠ 0 then { w1 with loadedModules := name :: w1.loadedModules } else w1

/-- The scan of `loadedModules` in `is_module_loaded`, on the memory `m`. Each
pass first does `sprintf(fullname, "%s.dylib", name)` into `char fullname[128]`,
which is overrun when the name, the suffix and the NUL do not fit (no defined
result), and then compares the string the entry points to, as it is in memory
now, with `name` and with `fullname`. -/
def is_module_loaded_list (m : Mem) (name : Nat) : List Nat → Option EFI_STATUS
  | [] => some EFI_NOT_FOUND
  | entry :: rest =>
    if 128 < (strAt m name).length + DYLIB_SUFFIX.length + 1 then none
    else if strAt m entry = strAt m name ∨ strAt m entry = strAt m name ++ DYLIB_SUFFIX then
      some EFI_SUCCESS
    else is_module_loaded_list m name rest

/-- The function `is_module_loaded`. -/
def is_module_loaded (name : Nat) (w : World) : Option EFI_STATUS :=
  is_module_loaded_list w.mem name w.loadedModules

/-! ## Symbol importer -/

/-- The type of the `symbol_handler` argument of `parse_mach` and `handle_symtable`. -/
abbrev SymbolHandler := CStr → Nat → Bool → World → Nat × World

/-- The little-endian 64-bit word at address `a`. -/
def read64 (m : Mem) (a : Nat) : Nat := read32 m a + 4294967296 * read32 m (a + 4)

/-- The `while(symbolIndex < symtabCommand->nsyms)` loop of the 32-bit branch of
`handle_symtable`, over `struct nlist` entries of 12 bytes (`n_strx` at 0,
`n_value` at 8). The index grows by one per pass and stays below `nsyms < 2^32`, so
`2^32` passes always suffice. -/
def handle_symtable_loop (base symtabCommand symbolString : Nat) (symbol_handler : SymbolHandler)
    (is64 : Bool) : Nat → Nat → Nat → Nat → World → Nat × World
  | 0, _, _, module_start, w => (module_start, w)
  | fuel + 1, symbolEntry, symbolIndex, module_start, w =>
    if symbolIndex < read32 w.mem (symtabCommand + 12) then
      if read32 w.mem (symbolEntry + 8) ≠ 0 then
        if strAt w.mem (symbolString + read32 w.mem symbolEntry) = START_NAME then
          handle_symtable_loop base symtabCommand symbolString symbol_handler is64 fuel
            ((symbolEntry + 12) % 4294967296) (symbolIndex + 1)
            ((base + read32 w.mem (symbolEntry + 8)) % 4294967296) w
        else
          handle_symtable_loop base symtabCommand symbolString symbol_handler is64 fuel
            ((symbolEntry + 12) % 4294967296) (symbolIndex + 1) module_start
            (symbol_handler (strAt w.mem (symbolString + read32 w.mem symbolEntry))
              (base + read32 w.mem (symbolEntry + 8)) is64 w).2
      else
        handle_symtable_loop base symtabCommand symbolString symbol_handler is64 fuel
          ((symbolEntry + 12) % 4294967296) (symbolIndex + 1) module_start w
    else (module_start, w)

/-- The loop of the 64-bit branch of `handle_symtable`, over `struct nlist_64`
entries of 16 bytes (`n_strx` at 0, 64-bit `n_value` at 8). -/
def handle_symtable_loop64 (base symtabCommand symbolString : Nat)
    (symbol_handler : SymbolHandler) (is64 : Bool) : Nat → Nat → Nat → Nat → World → Nat × World
  | 0, _, _, module_start, w => (module_start, w)
  | fuel + 1, symbolEntry, symbolIndex, module_start, w =>
    if symbolIndex < read32 w.mem (symtabCommand + 12) then
      if strAt w.mem (symbolString + read32 w.mem symbolEntry) = START_NAME then
        handle_symtable_loop64 base symtabCommand symbolString symbol_handler is64 fuel
          ((symbolEntry + 16) % 4294967296) (symbolIndex + 1)
          ((base + read64 w.mem (symbolEntry + 8)) % 4294967296) w
      else
        handle_symtable_loop64 base symtabCommand symbolString symbol_handler is64 fuel
          ((symbolEntry + 16) % 4294967296) (symbolIndex + 1) module_start
          (symbol_handler (strAt w.mem (symbolString + read32 w.mem symbolEntry))
            ((base + read64 w.mem (symbolEntry + 8)) % 18446744073709551616) is64 w).2
    else (module_start, w)

/-- The function `handle_symtable`. `symtabCommand` is the address of a
`struct symtab_command` (`symoff` at 8, `nsyms` at 12, `stroff` at 16). -/
def handle_symtable (base symtabCommand : Nat) (symbol_handler : SymbolHandler) (is64 : Bool)
    (w : World) : Nat × World :=
  if ¬ is64 then
    handle_symtable_loop base symtabCommand
      ((base + read32 w.mem (symtabCommand + 16)) % 4294967296) symbol_handler is64 4294967296
      ((base + read32 w.mem (symtabCommand + 8)) % 4294967296) 0 0xFFFFFFFF w
  else
    handle_symtable_loop64 base symtabCommand
      ((base + read32 w.mem (symtabCommand + 16)) % 4294967296) symbol_handler is64 4294967296
      ((base + read32 w.mem (symtabCommand + 8)) % 4294967296) 0 0xFFFFFFFF w

/-! ## Rebase interpreter -/

/-- Modelled from the spec: the rebase types of §4.3; the value is that of
`<mach-o/loader.h>`, a header that is not under src/. -/
def REBASE_TYPE_POINTER : Nat := 1

/-- Modelled from the spec: the rebase types of §4.3; the value is that of
`<mach-o/loader.h>`, a header that is not under src/. -/
def REBASE_TYPE_TEXT_ABSOLUTE32 : Nat := 2

/-- Modelled from the spec: the rebase types of §4.3; the value is that of
`<mach-o/loader.h>`, a header that is not under src/. -/
def REBASE_TYPE_TEXT_PCREL32 : Nat := 3

/-- Modelled from the spec: the rebase opcode encoding of §4.3 (high nibble opcode,
low nibble immediate); the value is that of `<mach-o/loader.h>`, a header that is
not under src/. -/
def REBASE_OPCODE_MASK : Nat := 0xF0
/-- Modelled from the spec: the rebase opcode encoding of §4.3 (high nibble opcode,
low nibble immediate); the value is that of `<mach-o/loader.h>`, a header that is
not under src/. -/
def REBASE_IMMEDIATE_MASK : Nat := 0x0F
/-- Modelled from the spec: the rebase opcode encoding of §4.3 (high nibble opcode,
low nibble immediate); the value is that of `<mach-o/loader.h>`, a header that is
not under src/. -/
def REBASE_OPCODE_DONE : Nat := 0x00

/-- Modelled from the spec: the rebase opcode encoding of §4.3 (high nibble opcode,
low nibble immediate); the value is that of `<mach-o/loader.h>`, a header that is
not under src/. -/
def REBASE_OPCODE_SET_TYPE_IMM : Nat := 0x10

/-- Modelled from the spec: the rebase opcode encoding of §4.3 (high nibble opcode,
low nibble immediate); the value is that of `<mach-o/loader.h>`, a header that is
not under src/. -/
def REBASE_OPCODE_SET_SEGMENT_AND_OFFSET_ULEB : Nat := 0x20

/-- Modelled from the spec: the rebase opcode encoding of §4.3 (high nibble opcode,
low nibble immediate); the value is that of `<mach-o/loader.h>`, a header that is
not under src/. -/
def REBASE_OPCODE_ADD_ADDR_ULEB : Nat := 0x30

/-- Modelled from the spec: the rebase opcode encoding of §4.3 (high nibble opcode,
low nibble immediate); the value is that of `<mach-o/loader.h>`, a header that is
not under src/. -/
def REBASE_OPCODE_ADD_ADDR_IMM_SCALED : Nat := 0x40

/-- Modelled from the spec: the rebase opcode encoding of §4.3 (high nibble opcode,
low nibble immediate); the value is that of `<mach-o/loader.h>`, a header that is
not under src/. -/
def REBASE_OPCODE_DO_REBASE_IMM_TIMES : Nat := 0x50

/-- Modelled from the spec: the rebase opcode encoding of §4.3 (high nibble opcode,
low nibble immediate); the value is that of `<mach-o/loader.h>`, a header that is
not under src/. -/
def REBASE_OPCODE_DO_REBASE_ULEB_TIMES : Nat := 0x60

/-- Modelled from the spec: the rebase opcode encoding of §4.3 (high nibble opcode,
low nibble immediate); the value is that of `<mach-o/loader.h>`, a header that is
not under src/. -/
def REBASE_OPCODE_DO_REBASE_ADD_ADDR_ULEB : Nat := 0x70

/-- Modelled from the spec: the rebase opcode encoding of §4.3 (high nibble opcode,
low nibble immediate); the value is that of `<mach-o/loader.h>`, a header that is
not under src/. -/
def REBASE_OPCODE_DO_REBASE_ULEB_TIMES_SKIPPING_ULEB : Nat := 0x80

/-- The function `rebase_location`. -/
def rebase_location (m : Mem) (location base type : Nat) : Mem :=
  if type = REBASE_TYPE_POINTER ∨ type = REBASE_TYPE_TEXT_ABSOLUTE32 then
    write32 m location (read32 m location + base)
  else m

/-- The operand loop
`do { v |= (stream[++i] & 0x7f) << bits; bits += 7; } while (stream[i] & 0x80);`
from the index `i`, the `UInt8` counter `bits` and the accumulator `v`: the value
read and the index of the operand's last byte. It runs until it meets a byte
without the continuation bit. (A shift by 32 or more is undefined in C; the
embedding shifts and truncates to 32 bits.) -/
def read_uleb (m : Mem) (stream : Nat) : Nat → Nat → Nat → Nat → Option (Nat × Nat)
  | 0, _, _, _ => none
  | fuel + 1, i, bits, v =>
    if read8 m (stream + (i + 1) % 4294967296) &&& 0x80 ≠ 0 then
      read_uleb m stream fuel ((i + 1) % 4294967296) ((bits + 7) % 256)
        ((v ||| ((read8 m (stream + (i + 1) % 4294967296) &&& 0x7f) <<< bits)) % 4294967296)
    else
      some ((v ||| ((read8 m (stream + (i + 1) % 4294967296) &&& 0x7f) <<< bits)) % 4294967296,
        (i + 1) % 4294967296)

/-- The operand loop of `REBASE_OPCODE_ADD_ADDR_ULEB`:
`do { tmp <<= bits; tmp |= stream[++i] & 0x7f; bits += 7; } while (stream[i] & 0x80);`. -/
def read_uleb_shl (m : Mem) (stream : Nat) : Nat → Nat → Nat → Nat → Option (Nat × Nat)
  | 0, _, _, _ => none
  | fuel + 1, i, bits, tmp =>
    if read8 m (stream + (i + 1) % 4294967296) &&& 0x80 ≠ 0 then
      read_uleb_shl m stream fuel ((i + 1) % 4294967296) ((bits + 7) % 256)
        (((tmp <<< bits) % 4294967296) ||| (read8 m (stream + (i + 1) % 4294967296) &&& 0x7f))
    else
      some (((tmp <<< bits) % 4294967296) ||| (read8 m (stream + (i + 1) % 4294967296) &&& 0x7f),
        (i + 1) % 4294967296)

/-- The segment walk of the set-segment opcodes:
`do { segCommand = base + sizeof(struct mach_header) + binIndex;
binIndex += segCommand->cmdsize; index++; } while (index <= immediate);`.
`find_segment m base immediate 0` is the final `segCommand`. -/
def find_segment (m : Mem) (base : Nat) : Nat → Nat → Nat
  | 0, binIndex => (base + 28 + binIndex) % 4294967296
  | n + 1, binIndex =>
    find_segment m base n ((binIndex + read32 m (base + 28 + binIndex + 4)) % 4294967296)

/-- The field `segCommand->fileoff` of the command the segment walk ends on. -/
def segment_fileoff (m : Mem) (base immediate : Nat) : Nat :=
  read32 m (find_segment m base immediate 0 + 32)

/-- The loops `for (index = 0; index < count; ++index) { rebase_location(base +
segmentAddress, base, type); segmentAddress += skip + sizeof(void*); }`: the final
`segmentAddress` and memory. -/
def rebase_times (base type skip : Nat) : Nat → Nat → Mem → Nat × Mem
  | 0, segmentAddress, m => (segmentAddress, m)
  | count + 1, segmentAddress, m =>
    rebase_times base type skip count ((segmentAddress + skip + 4) % 4294967296)
      (rebase_location m (base + segmentAddress) base type)

/-- The interpreter state of `rebase_macho` that lives across opcodes. -/
structure RebaseState where
  i : Nat
  type : Nat
  segmentAddress : Nat
  mem : Mem

/-- One pass of the `switch` of `rebase_macho`, on the opcode byte at index `s.i`:
the state before the closing `i++`. -/
def rebase_step (fuel base stream : Nat) (s : RebaseState) : Option RebaseState :=
  let immediate := read8 s.mem (stream + s.i) &&& REBASE_IMMEDIATE_MASK
  let opcode := read8 s.mem (stream + s.i) &&& REBASE_OPCODE_MASK
  if opcode = REBASE_OPCODE_DONE then some s
  else if opcode = REBASE_OPCODE_SET_TYPE_IMM then some { s with type := immediate }
  else if opcode = REBASE_OPCODE_SET_SEGMENT_AND_OFFSET_ULEB then
    (read_uleb s.mem stream fuel s.i 0 0).map fun r =>
      { s with i := r.2,
               segmentAddress := (segment_fileoff s.mem base immediate + r.1) % 4294967296 }
  else if opcode = REBASE_OPCODE_ADD_ADDR_ULEB then
    (read_uleb_shl s.mem stream fuel s.i 0 0).map fun r =>
      { s with i := r.2, segmentAddress := (s.segmentAddress + r.1) % 4294967296 }
  else if opcode = REBASE_OPCODE_ADD_ADDR_IMM_SCALED then
    some { s with segmentAddress := (s.segmentAddress + immediate * 4) % 4294967296 }
  else if opcode = REBASE_OPCODE_DO_REBASE_IMM_TIMES then
    let r := rebase_times base s.type 0 immediate s.segmentAddress s.mem
    some { s with segmentAddress := r.1, mem := r.2 }
  else if opcode = REBASE_OPCODE_DO_REBASE_ULEB_TIMES then
    (read_uleb s.mem stream fuel s.i 0 0).map fun r =>
      let t := rebase_times base s.type 0 r.1 s.segmentAddress s.mem
      { s with i := r.2, segmentAddress := t.1, mem := t.2 }
  else if opcode = REBASE_OPCODE_DO_REBASE_ADD_ADDR_ULEB then
    (read_uleb s.mem stream fuel s.i 0 0).map fun r =>
      { s with i := r.2,
               segmentAddress := (s.segmentAddress + (r.1 + 4) % 4294967296) % 4294967296,
               mem := rebase_location s.mem (base + s.segmentAddress) base s.type }
  else if opcode = REBASE_OPCODE_DO_REBASE_ULEB_TIMES_SKIPPING_ULEB then
    (read_uleb s.mem stream fuel s.i 0 0).bind fun r =>
      (read_uleb s.mem stream fuel r.2 0 0).map fun r2 =>
        let t := rebase_times base s.type r2.1 r.1 s.segmentAddress s.mem
        { s with i := r2.2, segmentAddress := t.1, mem := t.2 }
  else some s

/-- The loop `while (i < size) { switch ...; i++; }` of `rebase_macho`; `ufuel`
bounds each operand loop and the recursion argument bounds the passes. -/
def rebase_loop (ufuel base stream size : Nat) : Nat → RebaseState → Option Mem
  | 0, _ => none
  | fuel + 1, s =>
    if s.i < size then
      match rebase_step ufuel base stream s with
      | none => none
      | some s1 => rebase_loop ufuel base stream size fuel { s1 with i := (s1.i + 1) % 4294967296 }
    else some s.mem

/-- The function `rebase_macho(base, rebase_stream, size)` on memory `m`. -/
def rebase_macho (fuel : Nat) (base rebase_stream size : Nat) (m : Mem) : Option Mem :=
  rebase_loop fuel base ((rebase_stream + base) % 4294967296) size fuel
    { i := 0, type := 0, segmentAddress := 0, mem := m }

/-! ## Bind interpreter -/

/-- Modelled from the spec: the bind types of §4.4; the value is that of
`<mach-o/loader.h>`, a header that is not under src/. -/
def BIND_TYPE_POINTER : Nat := 1

/-- Modelled from the spec: the bind types of §4.4; the value is that of
`<mach-o/loader.h>`, a header that is not under src/. -/
def BIND_TYPE_TEXT_ABSOLUTE32 : Nat := 2

/-- Modelled from the spec: the bind types of §4.4; the value is that of
`<mach-o/loader.h>`, a header that is not under src/. -/
def BIND_TYPE_TEXT_PCREL32 : Nat := 3

/-- Modelled from the spec: the bind opcode encoding of §4.4 (high nibble opcode,
low nibble immediate); the value is that of `<mach-o/loader.h>`, a header that is
not under src/. -/
def BIND_OPCODE_MASK : Nat := 0xF0
/-- Modelled from the spec: the bind opcode encoding of §4.4 (high nibble opcode,
low nibble immediate); the value is that of `<mach-o/loader.h>`, a header that is
not under src/. -/
def BIND_IMMEDIATE_MASK : Nat := 0x0F
/-- Modelled from the spec: the bind opcode encoding of §4.4 (high nibble opcode,
low nibble immediate); the value is that of `<mach-o/loader.h>`, a header that is
not under src/. -/
def BIND_OPCODE_DONE : Nat := 0x00

/-- Modelled from the spec: the bind opcode encoding of §4.4 (high nibble opcode,
low nibble immediate); the value is that of `<mach-o/loader.h>`, a header that is
not under src/. -/
def BIND_OPCODE_SET_DYLIB_ORDINAL_IMM : Nat := 0x10

/-- Modelled from the spec: the bind opcode encoding of §4.4 (high nibble opcode,
low nibble immediate); the value is that of `<mach-o/loader.h>`, a header that is
not under src/. -/
def BIND_OPCODE_SET_DYLIB_ORDINAL_ULEB : Nat := 0x20

/-- Modelled from the spec: the bind opcode encoding of §4.4 (high nibble opcode,
low nibble immediate); the value is that of `<mach-o/loader.h>`, a header that is
not under src/. -/
def BIND_OPCODE_SET_DYLIB_SPECIAL_IMM : Nat := 0x30

/-- Modelled from the spec: the bind opcode encoding of §4.4 (high nibble opcode,
low nibble immediate); the value is that of `<mach-o/loader.h>`, a header that is
not under src/. -/
def BIND_OPCODE_SET_SYMBOL_TRAILING_FLAGS_IMM : Nat := 0x40

/-- Modelled from the spec: the bind opcode encoding of §4.4 (high nibble opcode,
low nibble immediate); the value is that of `<mach-o/loader.h>`, a header that is
not under src/. -/
def BIND_OPCODE_SET_TYPE_IMM : Nat := 0x50

/-- Modelled from the spec: the bind opcode encoding of §4.4 (high nibble opcode,
low nibble immediate); the value is that of `<mach-o/loader.h>`, a header that is
not under src/. -/
def BIND_OPCODE_SET_ADDEND_SLEB : Nat := 0x60

/-- Modelled from the spec: the bind opcode encoding of §4.4 (high nibble opcode,
low nibble immediate); the value is that of `<mach-o/loader.h>`, a header that is
not under src/. -/
def BIND_OPCODE_SET_SEGMENT_AND_OFFSET_ULEB : Nat := 0x70

/-- Modelled from the spec: the bind opcode encoding of §4.4 (high nibble opcode,
low nibble immediate); the value is that of `<mach-o/loader.h>`, a header that is
not under src/. -/
def BIND_OPCODE_ADD_ADDR_ULEB : Nat := 0x80

/-- Modelled from the spec: the bind opcode encoding of §4.4 (high nibble opcode,
low nibble immediate); the value is that of `<mach-o/loader.h>`, a header that is
not under src/. -/
def BIND_OPCODE_DO_BIND : Nat := 0x90

/-- Modelled from the spec: the bind opcode encoding of §4.4 (high nibble opcode,
low nibble immediate); the value is that of `<mach-o/loader.h>`, a header that is
not under src/. -/
def BIND_OPCODE_DO_BIND_ADD_ADDR_ULEB : Nat := 0xA0
/-- Modelled from the spec: the bind opcode encoding of §4.4 (high nibble opcode,
low nibble immediate); the value is that of `<mach-o/loader.h>`, a header that is
not under src/. -/
def BIND_OPCODE_DO_BIND_ADD_ADDR_IMM_SCALED : Nat := 0xB0
/-- Modelled from the spec: the bind opcode encoding of §4.4 (high nibble opcode,
low nibble immediate); the value is that of `<mach-o/loader.h>`, a header that is
not under src/. -/
def BIND_OPCODE_DO_BIND_ULEB_TIMES_SKIPPING_ULEB : Nat := 0xC0

/-- The function `bind_location`. -/
def bind_location (m : Mem) (location value addend type : Nat) : Mem :=
  if type = BIND_TYPE_POINTER ∨ type = BIND_TYPE_TEXT_ABSOLUTE32 then
    write32 m location ((value + addend) % 4294967296)
  else if type = BIND_TYPE_TEXT_PCREL32 then
    write32 m location
      (((value + addend) % 4294967296 + (4294967296 - (location + 4) % 4294967296)) % 4294967296)
  else m

/-- The call `strlen(p)` for a pointer with value `a`; it does not return when
no byte of memory is NUL. -/
def strlen (m : Mem) (a : Nat) : Option Nat :=
  if (strAt m a).length < 4294967296 then some (strAt m a).length else none

/-- The loop `for (index = 0; index < count; index++) { bind_location(segmentAddress
+ base, symbolAddr, addend, BIND_TYPE_POINTER); segmentAddress += skip +
sizeof(void*); }` of `BIND_OPCODE_DO_BIND_ULEB_TIMES_SKIPPING_ULEB`. -/
def bind_times (base symbolAddr addend skip : Nat) : Nat → Nat → Mem → Nat × Mem
  | 0, segmentAddress, m => (segmentAddress, m)
  | count + 1, segmentAddress, m =>
    bind_times base symbolAddr addend skip count ((segmentAddress + skip + 4) % 4294967296)
      (bind_location m ((segmentAddress + base) % 4294967296) symbolAddr addend BIND_TYPE_POINTER)

/-- The interpreter state of `bind_macho` that lives across opcodes (`SInt32`
values are kept as their 32-bit patterns; `symbolName` is the pointer). -/
structure BindState where
  i : Nat
  type : Nat
  segmentAddress : Nat
  addend : Nat
  libraryOrdinal : Nat
  symbolName : Nat
  symboFlags : Nat
  symbolAddr : Nat
  mem : Mem

/-- The guarded write shared by the bind opcodes:
`if (symbolAddr != 0xFFFFFFFF) { address = segmentAddress + (UInt32)base;
bind_location(address, symbolAddr, addend, BIND_TYPE_POINTER); }`
(the other branch only prints). -/
def do_bind (base : Nat) (s : BindState) : Mem :=
  if s.symbolAddr ≠ 0xFFFFFFFF then
    bind_location s.mem ((s.segmentAddress + base) % 4294967296) s.symbolAddr s.addend
      BIND_TYPE_POINTER
  else s.mem

/-- One pass of the `switch` of `bind_macho`, on the opcode byte at index `s.i`:
the state before the closing `i++`. `resolve` is `lookup_all_symbols` on the
globals of the moment. -/
def bind_step (fuel : Nat) (resolve : CStr → Nat) (base stream : Nat) (s : BindState) :
    Option BindState :=
  let immediate := read8 s.mem (stream + s.i) &&& BIND_IMMEDIATE_MASK
  let opcode := read8 s.mem (stream + s.i) &&& BIND_OPCODE_MASK
  if opcode = BIND_OPCODE_DONE then some s
  else if opcode = BIND_OPCODE_SET_DYLIB_ORDINAL_IMM then some { s with libraryOrdinal := immediate }
  else if opcode = BIND_OPCODE_SET_DYLIB_ORDINAL_ULEB then
    (read_uleb s.mem stream fuel s.i 0 0).map fun r => { s with i := r.2, libraryOrdinal := r.1 }
  else if opcode = BIND_OPCODE_SET_DYLIB_SPECIAL_IMM then
    some { s with libraryOrdinal := (4294967296 - immediate) % 4294967296 }
  else if opcode = BIND_OPCODE_SET_SYMBOL_TRAILING_FLAGS_IMM then
    (strlen s.mem (stream + (s.i + 1) % 4294967296)).map fun n =>
      { s with symboFlags := immediate,
               symbolName := (stream + (s.i + 1) % 4294967296) % 4294967296,
               i := ((s.i + 1) % 4294967296 + n) % 4294967296,
               symbolAddr := resolve (strAt s.mem (stream + (s.i + 1) % 4294967296)) }
  else if opcode = BIND_OPCODE_SET_TYPE_IMM then some { s with type := immediate }
  else if opcode = BIND_OPCODE_SET_ADDEND_SLEB then
    (read_uleb s.mem stream fuel s.i 0 0).map fun r =>
      { s with i := r.2,
               addend :=
                 if read8 s.mem (stream + (r.2 + 4294967295) % 4294967296) &&& 0x40 = 0
                 then (4294967296 - r.1) % 4294967296 else r.1 }
  else if opcode = BIND_OPCODE_SET_SEGMENT_AND_OFFSET_ULEB then
    (read_uleb s.mem stream fuel s.i 0 0).map fun r =>
      { s with i := r.2,
               segmentAddress := (segment_fileoff s.mem base immediate + r.1) % 4294967296 }
  else if opcode = BIND_OPCODE_ADD_ADDR_ULEB then
    (read_uleb s.mem stream fuel s.i 0 0).map fun r =>
      { s with i := r.2, segmentAddress := (s.segmentAddress + r.1) % 4294967296 }
  else if opcode = BIND_OPCODE_DO_BIND then
    some { s with mem := do_bind base s, segmentAddress := (s.segmentAddress + 4) % 4294967296 }
  else if opcode = BIND_OPCODE_DO_BIND_ADD_ADDR_ULEB then
    (read_uleb s.mem stream fuel s.i 0 0).map fun r =>
      { s with i := r.2, mem := do_bind base s,
               segmentAddress := (s.segmentAddress + (r.1 + 4) % 4294967296) % 4294967296 }
  else if opcode = BIND_OPCODE_DO_BIND_ADD_ADDR_IMM_SCALED then
    some { s with mem := do_bind base s,
                  segmentAddress := (s.segmentAddress + (immediate * 4 + 4)) % 4294967296 }
  else if opcode = BIND_OPCODE_DO_BIND_ULEB_TIMES_SKIPPING_ULEB then
    (read_uleb s.mem stream fuel s.i 0 0).bind fun r =>
      (read_uleb s.mem stream fuel r.2 0 0).map fun r2 =>
        if s.symbolAddr ≠ 0xFFFFFFFF then
          let t := bind_times base s.symbolAddr s.addend r2.1 r.1 s.segmentAddress s.mem
          { s with i := r2.2, segmentAddress := t.1, mem := t.2 }
        else { s with i := r2.2 }
  else some s

/-- The loop `while (i < size) { switch ...; i++; }` of `bind_macho`. -/
def bind_loop (ufuel : Nat) (resolve : CStr → Nat) (base stream size : Nat) :
    Nat → BindState → Option Mem
  | 0, _ => none
  | fuel + 1, s =>
    if s.i < size then
      match bind_step ufuel resolve base stream s with
      | none => none
      | some s1 =>
        bind_loop ufuel resolve base stream size fuel { s1 with i := (s1.i + 1) % 4294967296 }
    else some s.mem

/-- The function `bind_macho(base, bind_stream, size)` on memory `m`. -/
def bind_macho (fuel : Nat) (resolve : CStr → Nat) (base bind_stream size : Nat) (m : Mem) :
    Option Mem :=
  bind_loop fuel resolve base ((bind_stream + base) % 4294967296) size fuel
    { i := 0, type := 0, segmentAddress := 0, addend := 0, libraryOrdinal := 0, symbolName := 0,
      symboFlags := 0, symbolAddr := 0xFFFFFFFF, mem := m }

/-! ## Mach-O parser -/

/-- Modelled from the spec: the magic numbers of §4.1; the value is that of
`<mach-o/loader.h>`, a header that is not under src/. -/
def MH_MAGIC : Nat := 0xfeedface

/-- Modelled from the spec: the magic numbers of §4.1; the value is that of
`<mach-o/loader.h>`, a header that is not under src/. -/
def MH_MAGIC_64 : Nat := 0xfeedfacf

/-- Modelled from the spec: the load-command kinds of §4.1; the value is that of
`<mach-o/loader.h>`, a header that is not under src/. -/
def LC_REQ_DYLD : Nat := 0x80000000

/-- Modelled from the spec: the load-command kinds of §4.1; the value is that of
`<mach-o/loader.h>`, a header that is not under src/. -/
def LC_SEGMENT : Nat := 0x1

/-- Modelled from the spec: the load-command kinds of §4.1; the value is that of
`<mach-o/loader.h>`, a header that is not under src/. -/
def LC_SYMTAB : Nat := 0x2

/-- Modelled from the spec: the load-command kinds of §4.1; the value is that of
`<mach-o/loader.h>`, a header that is not under src/. -/
def LC_LOAD_DYLIB : Nat := 0xc

/-- Modelled from the spec: the load-command kinds of §4.1; the value is that of
`<mach-o/loader.h>`, a header that is not under src/. -/
def LC_LOAD_WEAK_DYLIB : Nat := 0x80000018

/-- Modelled from the spec: the load-command kinds of §4.1; the value is that of
`<mach-o/loader.h>`, a header that is not under src/. -/
def LC_SEGMENT_64 : Nat := 0x19

/-- Modelled from the spec: the load-command kinds of §4.1; the value is that of
`<mach-o/loader.h>`, a header that is not under src/. -/
def LC_DYLD_INFO : Nat := 0x22

/-- The type of the `dylib_loader` argument of `parse_mach`, when it is not null:
a function of the pointer to the name. -/
abbrev Loader := Nat → World → Option (EFI_STATUS × World)

/-- The section scan of the `LC_SEGMENT` case (`struct segment_command` is 56
bytes, `struct section` 68 bytes with `addr` at 32 and `offset` at 40): the
`while(sectionIndex < segCommand->cmdsize)` loop that records `textSection` and
`textAddress` at the first section named `__text`. -/
def scan_sections (segCommand : Nat) : Nat → Nat → World → Option World
  | 0, _, _ => none
  | fuel + 1, sectionIndex, w =>
    if sectionIndex < read32 w.mem (segCommand + 4) then
      if str_eq w.mem (segCommand + sectionIndex) SECT_TEXT then
        some { w with textSection := read32 w.mem (segCommand + sectionIndex + 40),
                      textAddress := read32 w.mem (segCommand + sectionIndex + 32) }
      else scan_sections segCommand fuel ((sectionIndex + 68) % 4294967296) w
    else some w

/-- The section scan of the `LC_SEGMENT_64` case (`struct segment_command_64` is
72 bytes, `struct section_64` 80 bytes with the 64-bit `addr` at 32 and `offset`
at 48). -/
def scan_sections64 (segCommand64 : Nat) : Nat → Nat → World → Option World
  | 0, _, _ => none
  | fuel + 1, sectionIndex, w =>
    if sectionIndex < read32 w.mem (segCommand64 + 4) then
      if str_eq w.mem (segCommand64 + sectionIndex) SECT_TEXT then
        some { w with textSection := read32 w.mem (segCommand64 + sectionIndex + 48),
                      textAddress := read64 w.mem (segCommand64 + sectionIndex + 32) }
      else scan_sections64 segCommand64 fuel ((sectionIndex + 80) % 4294967296) w
    else some w

/-- The locals of the load-command walk of `parse_mach` that outlive a pass
(`cmd` is a `UInt16`), with the world. -/
structure ParseState where
  cmd : Nat
  binaryIndex : Nat
  symtabCommand : Nat
  dyldInfoCommand : Nat
  w : World

/-- One pass of the `switch` of the load-command walk, on the command at
`binary + binaryIndex`. In the dependency case the name is built (`strlen`,
`malloc`, and `sprintf` into the buffer `malloc` returned, unchecked) and then the
guard `dylib_loader == EFI_SUCCESS` compares the function pointer with the status
code 0: it fails for every real loader (`some _`), which is therefore not called;
for the null pointer (`none`) it holds and the call through it does not return. -/
def parse_command (fuel binary : Nat) (dylib_loader : Option Loader) (s : ParseState) :
    Option ParseState :=
  let loadCommand := (binary + s.binaryIndex) % 4294967296
  let c := read32 s.w.mem loadCommand &&& 0x7FFFFFFF
  if c = LC_SYMTAB then some { s with symtabCommand := loadCommand }
  else if c = LC_SEGMENT then
    if str_eq s.w.mem (loadCommand + 8) SEG_TEXT then
      (scan_sections loadCommand fuel 56 s.w).map fun w1 => { s with w := w1 }
    else some s
  else if c = LC_SEGMENT_64 then
    if str_eq s.w.mem (loadCommand + 8) SEG_TEXT then
      (scan_sections64 loadCommand fuel 72 s.w).map fun w1 => { s with w := w1 }
    else some s
  else if c = LC_LOAD_DYLIB ∨ c = LC_LOAD_WEAK_DYLIB ^^^ LC_REQ_DYLD then
    match strlen s.w.mem (loadCommand + read32 s.w.mem (loadCommand + 8)) with
    | none => none
    | some _ =>
      match dylib_loader with
      | none => none
      | some _ =>
        some { s with
          w := { (malloc s.w).2 with
            mem := writeBytes (malloc s.w).2.mem (malloc s.w).1
              (strAt s.w.mem (loadCommand + read32 s.w.mem (loadCommand + 8)) ++ DYLIB_SUFFIX
                ++ [0]) } }
  else if c = LC_DYLD_INFO then some { s with dyldInfoCommand := loadCommand }
  else some s

/-- The walk `while(cmd < ncmds) { cmd++; ...; binaryIndex += cmdSize; }` of
`parse_mach` (`ncmds` is at 16 in the header, `cmdsize` at 4 in a command). -/
def parse_commands (ufuel binary : Nat) (dylib_loader : Option Loader) :
    Nat → ParseState → Option ParseState
  | 0, _ => none
  | fuel + 1, s =>
    if s.cmd < read32 s.w.mem (binary + 16) then
      match parse_command ufuel binary dylib_loader { s with cmd := (s.cmd + 1) % 65536 } with
      | none => none
      | some s1 =>
        parse_commands ufuel binary dylib_loader fuel
          { s1 with binaryIndex :=
              (s.binaryIndex + read32 s.w.mem ((binary + s.binaryIndex) % 4294967296 + 4))
                % 4294967296 }
    else some s

/-- One of the four guarded calls at the end of `parse_mach`:
`if (dyldInfoCommand && dyldInfoCommand->off) f(binary, off, size);` with the
offset field at `field` and the size right after it. -/
def apply_stream (f : Nat → Nat → Nat → Mem → Option Mem) (binary dyldInfoCommand field : Nat)
    (w : World) : Option World :=
  if dyldInfoCommand ≠ 0 ∧ read32 w.mem (dyldInfoCommand + field) ≠ 0 then
    (f binary (read32 w.mem (dyldInfoCommand + field))
      (read32 w.mem (dyldInfoCommand + field + 4)) w.mem).map fun m => { w with mem := m }
  else some w

/-- The tail of `parse_mach` after the load-command walk: import the symbols,
rebase, then bind the regular, weak and lazy streams (`rebase_off` is at 8 in
`struct dyld_info_command`, `bind_off` at 16, `weak_bind_off` at 24,
`lazy_bind_off` at 32); the result is what `handle_symtable` returned. -/
def parse_finish (fuel binary : Nat) (symbol_handler : SymbolHandler) (is64 : Bool)
    (s : ParseState) : Option (Nat × World) :=
  let r := handle_symtable binary s.symtabCommand symbol_handler is64 s.w
  (apply_stream (rebase_macho fuel) binary s.dyldInfoCommand 8 r.2).bind fun w1 =>
  (apply_stream (bind_macho fuel (lookup_all_symbols w1)) binary s.dyldInfoCommand 16 w1).bind
    fun w2 =>
  (apply_stream (bind_macho fuel (lookup_all_symbols w2)) binary s.dyldInfoCommand 24 w2).bind
    fun w3 =>
  (apply_stream (bind_macho fuel (lookup_all_symbols w3)) binary s.dyldInfoCommand 32 w3).map
    fun w4 => (r.1, w4)

/-- The function `parse_mach`: the returned pointer (0 is NULL) and the new world
(`struct mach_header` is 28 bytes, `struct mach_header_64` 32 bytes). -/
def parse_mach (fuel binary : Nat) (dylib_loader : Option Loader)
    (symbol_handler : SymbolHandler) (w : World) : Option (Nat × World) :=
  if read32 w.mem binary = MH_MAGIC then
    (parse_commands fuel binary dylib_loader fuel
      { cmd := 0, binaryIndex := 28, symtabCommand := 0, dyldInfoCommand := 0, w := w }).bind
      fun s => parse_finish fuel binary symbol_handler false s
  else if read32 w.mem binary = MH_MAGIC_64 then
    (parse_commands fuel binary dylib_loader fuel
      { cmd := 0, binaryIndex := 32, symtabCommand := 0, dyldInfoCommand := 0, w := w }).bind
      fun s => parse_finish fuel binary symbol_handler true s
  else some (0, w)

/-! ## Load orchestrator -/

/-- The function `load_module`. `run a w` is the effect on the world of calling
the module code at address `a` (the call `(*module_start)()`); the invocation
itself is recorded in `started`. The path is built with
`sprintf(modString, "/Extra/modules/%s", module)` into `char modString[128]`,
which is overrun when the directory, the name and the NUL do not fit (no defined
result). The image of the file is read to the address `malloc` gives, and
`parse_mach` receives `&load_module` and `&add_symbol`. -/
def load_module (run : Nat → World → World) : Nat → Nat → World → Option (EFI_STATUS × World)
  | 0, _, _ => none
  | fuel + 1, module, w =>
    match is_module_loaded module w with
    | none => none
    | some loaded =>
      if loaded = EFI_SUCCESS then some (EFI_ALREADY_STARTED, w)
      else if 128 < MODULES_DIR.length + (strAt w.mem module).length + 1 then none
      else
        match w.files (MODULES_DIR ++ strAt w.mem module) with
        | none => some (EFI_OUT_OF_RESOURCES, w)
        | some f =>
          let w1 := (malloc w).2
          let module_base := (malloc w).1
          if f.size ≠ 0 ∧ min f.data.length f.size = f.size then
            match parse_mach fuel module_base (some (load_module run fuel)) add_symbol
                { w1 with mem := writeBytes w1.mem module_base (f.data.take f.size) } with
            | none => none
            | some (module_start, w3) =>
              if module_start ≠ 0 ∧ module_start ≠ 0xFFFFFFFF then
                let w4 := module_loaded module w3
                some (EFI_SUCCESS,
                  run module_start
                    { w4 with started := w4.started ++ [(strAt w.mem module, module_start)] })
              else some (EFI_NOT_STARTED, w3)
          else
            some (EFI_LOAD_ERROR,
              if f.size ≠ 0 then
                { w1 with mem := writeBytes w1.mem module_base (f.data.take f.size) }
              else w1)

/-! ## Function interposition and directory scan -/

/-- Modelled from the spec: the name of the bootstrap module that `loadAllModules`
skips (§6), `"Symbols.dylib"` as the comment in `load_all_modules` has it;
`modules.h`, which defines `SYMBOLS_MODULE`, is not under src/. -/
def SYMBOLS_MODULE : CStr := [83, 121, 109, 98, 111, 108, 115] ++ DYLIB_SUFFIX

/-- The function `load_all_modules`, over the name pointers `readdir` delivers
until it reports the end of the directory. The suffix test is
`strcmp(&name[strlen(name) - sizeof("dylib")], ".dylib") == 0` with
`sizeof("dylib")` equal to 6, in 32-bit arithmetic; the name is copied
(`strcpy`) to the buffer `malloc` returned, unchecked, and `load_module` receives
the pointer to the copy. The allocator being an oracle, `free` has no effect
here. -/
def load_all_modules (load_module : Loader) : List Nat → World → Option World
  | [], w => some w
  | name :: rest, w =>
    if str_eq w.mem name SYMBOLS_MODULE then load_all_modules load_module rest w
    else
      match strlen w.mem name with
      | none => none
      | some n =>
        if str_eq w.mem ((name + n + (4294967296 - 6)) % 4294967296) DYLIB_SUFFIX then
          match load_module (malloc w).1
              { (malloc w).2 with
                mem := writeBytes (malloc w).2.mem (malloc w).1 (strAt w.mem name ++ [0]) } with
          | none => none
          | some r => load_all_modules load_module rest r.2
        else load_all_modules load_module rest w

/-! ## 64-bit division -/

/-- The first loop of `__udivdi3`:
`while ((int64_t) denominator >= 0) { denominator <<= 1; qbit <<= 1; }`
on 64-bit values: the final `denominator` and `qbit`. -/
def udivdi3_shift : Nat → Nat → Nat → Option (Nat × Nat)
  | 0, _, _ => none
  | fuel + 1, denominator, qbit =>
    if denominator < 9223372036854775808 then
      udivdi3_shift fuel (denominator * 2 % 18446744073709551616)
        (qbit * 2 % 18446744073709551616)
    else some (denominator, qbit)

/-- The second loop of `__udivdi3`:
`while (denominator) { if (denominator <= numerator) { numerator -= denominator;
quotient += qbit; } denominator >>= 1; qbit >>= 1; }`: the final `quotient`. -/
def udivdi3_loop : Nat → Nat → Nat → Nat → Nat → Option Nat
  | 0, _, _, _, _ => none
  | fuel + 1, numerator, denominator, quotient, qbit =>
    if denominator ≠ 0 then
      if denominator ≤ numerator then
        udivdi3_loop fuel (numerator - denominator) (denominator / 2)
          ((quotient + qbit) % 18446744073709551616) (qbit / 2)
      else udivdi3_loop fuel numerator (denominator / 2) quotient (qbit / 2)
    else some quotient

/-- The function `__udivdi3` on 64-bit values, `fuel` bounding each of its two
loops; with a zero denominator it calls `stop`, which does not return. -/
def __udivdi3 (fuel numerator denominator : Nat) : Option Nat :=
  if denominator ≠ 0 then
    (udivdi3_shift fuel denominator 1).bind fun r => udivdi3_loop fuel numerator r.1 0 r.2
  else none

/-! ## Specification-side notions and example inputs -/

/-- The hook list after a registration all of whose allocations succeed: the
callback becomes the head of the list of the hook `name`, which is created at
the head of the hook list when it does not exist. -/
def insert_callback (name : CStr) (callback : Nat) (hooks : List moduleHook_t) :
    List moduleHook_t :=
  match get_callback name hooks with
  | some _ => push_callback name callback hooks
  | none => { name := name, callbacks := [callback] } :: hooks

/-- The hook list after the registrations `regs` (name, callback), made in order,
all of whose allocations succeed. -/
def insert_all (regs : List (CStr × Nat)) (hooks : List moduleHook_t) : List moduleHook_t :=
  regs.foldl (fun hs r => insert_callback r.1 r.2 hs) hooks

/-- The callbacks of the hook named `x`, in list order (none when the hook does
not exist). -/
def callbacks_of (x : CStr) (hooks : List moduleHook_t) : List Nat :=
  match get_callback x hooks with
  | some h => h.callbacks
  | none => []

/-- The callbacks registered under `x` by the registrations `regs`, in
registration order. -/
def registered_under (x : CStr) (regs : List (CStr × Nat)) : List Nat :=
  (regs.filter (fun r => r.1 = x)).map (fun r => r.2)

/-- The record a dispatch leaves when every callback logs its call: the callback
and the six arguments it received. -/
def log_call (cb arg1 arg2 arg3 arg4 arg5 arg6 : Nat)
    (t : List (Nat × Nat × Nat × Nat × Nat × Nat × Nat)) :
    List (Nat × Nat × Nat × Nat × Nat × Nat × Nat) :=
  t ++ [(cb, arg1, arg2, arg3, arg4, arg5, arg6)]

/-- The resolver as the specification words it: the built-in provider's answer
when a provider is installed and knows the name, else the address of the most
recently inserted table entry with that name (`table` is most recent first),
else the sentinel. -/
def resolve_spec (installed : Bool) (builtin : CStr → Nat) (table : List symbolList_t)
    (name : CStr) : Nat :=
  if installed ∧ builtin name ≠ SENTINEL then builtin name
  else
    match table.find? (fun e => e.symbol = name) with
    | some e => e.addr
    | none => SENTINEL

/-- The globals as `modules.c` initialises them (every list and pointer NULL), on
the given memory, allocator and storage. -/
def boot_world (mem : Mem) (heap : List Nat) (files : CStr → Option File) : World :=
  { mem := mem, textAddress := 0, textSection := 0, moduleCallbacks := [], loadedModules := [],
    moduleSymbols := [], lookup_symbol := 0, provider := fun _ => 0xFFFFFFFF, heap := heap,
    files := files, started := [] }

/-- A world whose built-in provider is installed at address `0x500` and answers
`0x300` for every name. -/
def provider_world (heap : List Nat) : World :=
  { boot_world (fun _ => 0) heap (fun _ => none) with
    lookup_symbol := 0x500, provider := fun _ => 0x300 }

/-- The bytes `bs` are in memory from address `a` on. -/
def bytes_at (m : Mem) (a : Nat) : List Nat → Bool
  | [] => true
  | b :: bs => read8 m a == b && bytes_at m (a + 1) bs

/-- A well-formed variable-length operand: every byte but the last carries the
continuation bit `0x80`, the last one does not. -/
def uleb_wf : List Nat → Bool
  | [] => false
  | [b] => decide (b < 128)
  | b :: c :: bs => decide (128 ≤ b) && decide (b < 256) && uleb_wf (c :: bs)

/-- The unsigned LEB128 value of operand bytes: the sum of `(byte_k & 0x7f) * 2^(7k)`. -/
def uleb128 : List Nat → Nat
  | [] => 0
  | b :: bs => b % 128 + 128 * uleb128 bs

/-- The opcodes that encode "apply rebase `N` times": `DO_REBASE_IMM_TIMES` with
immediate `N`, or `DO_REBASE_ULEB_TIMES` followed by an operand of at most five
bytes (the length of a 32-bit value) with value `N`. -/
def encodes_apply_times (N : Nat) (apply : List Nat) : Prop :=
  (N < 16 ∧ apply = [REBASE_OPCODE_DO_REBASE_IMM_TIMES + N]) ∨
    ∃ us, uleb_wf us = true ∧ us.length ≤ 5 ∧ uleb128 us = N ∧
      apply = REBASE_OPCODE_DO_REBASE_ULEB_TIMES :: us

/-- The rebase stream "set type pointer, select segment 0 with offset 0" followed
by the opcodes `apply`. -/
def rebase_select_stream (apply : List Nat) : List Nat :=
  [REBASE_OPCODE_SET_TYPE_IMM + REBASE_TYPE_POINTER,
    REBASE_OPCODE_SET_SEGMENT_AND_OFFSET_ULEB + 0, 0x00] ++ apply

/-- The bytes of `"foo"`. -/
def FOO : CStr := [102, 111, 111]

/-- The bind stream "set symbol `foo` (with `flags`), set type `ty`, set addend +4
(one SLEB byte), set segment `k` and offset operand `us`, do bind". -/
def bind_foo_stream (flags ty k : Nat) (us : List Nat) : List Nat :=
  [BIND_OPCODE_SET_SYMBOL_TRAILING_FLAGS_IMM + flags] ++ FOO ++
    [0, BIND_OPCODE_SET_TYPE_IMM + ty, BIND_OPCODE_SET_ADDEND_SLEB, 0x04,
      BIND_OPCODE_SET_SEGMENT_AND_OFFSET_ULEB + k] ++ us ++ [BIND_OPCODE_DO_BIND]

/-- Memory holding `bytes` from address `base` on and zero everywhere else. -/
def image_at (base : Nat) (bytes : List Nat) : Mem :=
  fun a => if base ≤ a then bytes.getD (a - base) 0 else 0

/-- The four bytes of a 32-bit word, little-endian. -/
def le32 (v : Nat) : List Nat := [v % 256, v / 256 % 256, v / 65536 % 256, v / 16777216 % 256]

/-- An image at `0x1000` whose first load command has file offset `0x60`, with
`stream` at offset `0x50` and the words 7 and 9 at offsets `0x60` and `0x64`. -/
def rebase_example (stream : List Nat) : Mem :=
  image_at 0x1000
    (List.replicate 60 0 ++ le32 0x60 ++ List.replicate 16 0 ++ stream ++
      List.replicate (16 - stream.length) 0 ++ le32 7 ++ le32 9)

/-- A world whose symbol table holds `foo` at `0x5000` and whose memory is an
image at `0x1000`: the first load command has file offset `0xC0`, and at offset
`0x80` lies the bind stream for `foo` with type `ty`, segment 0 and offset
operand `0x40`. -/
def bind_example (ty : Nat) : World :=
  { boot_world
      (image_at 0x1000
        (List.replicate 60 0 ++ le32 0xC0 ++ List.replicate 64 0 ++ bind_foo_stream 0 ty 0 [0x40]))
      [] (fun _ => none) with
    moduleSymbols := [{ symbol := FOO, addr := 0x5000 }] }

/-- The address of the `i`-th `struct nlist` of the symbol table `symtabCommand`
describes: `base + symoff + 12 * i`, as a 32-bit pointer. -/
def nlist_addr (m : Mem) (base symtabCommand i : Nat) : Nat :=
  (base + read32 m (symtabCommand + 8) + 12 * i) % 4294967296

/-- The name of the `i`-th symbol: the C string at `base + stroff + n_strx`. -/
def nlist_name (m : Mem) (base symtabCommand i : Nat) : CStr :=
  strAt m ((base + read32 m (symtabCommand + 16)) % 4294967296 +
    read32 m (nlist_addr m base symtabCommand i))

/-- The field `n_value` of the `i`-th symbol. -/
def nlist_value (m : Mem) (base symtabCommand i : Nat) : Nat :=
  read32 m (nlist_addr m base symtabCommand i + 8)

/-- The `n` symbols from index `i` on, in file order, as (name, value). -/
def symtab_entries_from (m : Mem) (base symtabCommand : Nat) : Nat → Nat → List (CStr × Nat)
  | _, 0 => []
  | i, n + 1 =>
    (nlist_name m base symtabCommand i, nlist_value m base symtabCommand i) ::
      symtab_entries_from m base symtabCommand (i + 1) n

/-- The symbols of the table, in file order, as (name, value). -/
def symtab_entries (m : Mem) (base symtabCommand : Nat) : List (CStr × Nat) :=
  symtab_entries_from m base symtabCommand 0 (read32 m (symtabCommand + 12))

/-- An entry with a value whose name is `"start"`. -/
def is_start_entry (e : CStr × Nat) : Bool := decide (e.2 ≠ 0) && decide (e.1 = START_NAME)

/-- An entry with a value whose name is not `"start"`. -/
def is_import_entry (e : CStr × Nat) : Bool := decide (e.2 ≠ 0) && decide (e.1 ≠ START_NAME)

/-- The Symbol Table nodes for the importable entries of `es`, in file order:
(name, `base + value` as a 32-bit address). -/
def imported_symbols (base : Nat) (es : List (CStr × Nat)) : List symbolList_t :=
  (es.filter is_import_entry).map (fun e => { symbol := e.1, addr := (base + e.2) % 4294967296 })

/-- The entry point of the entries `es`: `base + value` of the last entry named
`"start"` that has a value, the sentinel when there is none. -/
def entry_point (base : Nat) (es : List (CStr × Nat)) : Nat :=
  match es.reverse.find? is_start_entry with
  | some e => (base + e.2) % 4294967296
  | none => 0xFFFFFFFF

/-- The next `k` calls of `malloc` succeed. -/
def allocs_succeed : Nat → List Nat → Bool
  | 0, _ => true
  | _ + 1, [] => false
  | k + 1, p :: rest => decide (p ≠ 0) && allocs_succeed k rest

/-- Every allocation that the registrations `regs`, made in order from the world
`w`, ask for succeeds: one for a hook that exists, two for a new hook. -/
def registrations_succeed : List (CStr × Nat) → World → Bool
  | [], _ => true
  | r :: rest, w =>
    allocs_succeed (if (get_callback r.1 w.moduleCallbacks).isSome then 1 else 2) w.heap &&
      registrations_succeed rest (register_hook_callback r.1 r.2 w)

/-- The worlds `w` and `w'` have the same Module Registry and the same record of
entry points invoked. -/
def reg_eq (w w' : World) : Prop :=
  w'.loadedModules = w.loadedModules ∧ w'.started = w.started

/-- The world in which `load_module` calls `parse_mach`: the image of the file `f`
read to the address `malloc` returned. -/
def image_world (w : World) (f : File) : World :=
  { (malloc w).2 with mem := writeBytes (malloc w).2.mem (malloc w).1 (f.data.take f.size) }

/-- The Module Registry as identifiers: the strings its entries point to, as
they are in memory now. -/
def registry_names (w : World) : List CStr := w.loadedModules.map (strAt w.mem)

/-- A 32-bit image with one load command, an `LC_SYMTAB` whose `struct nlist`
entries (given as `n_strx`, `n_value`) start at offset `0x40` and whose string
table `strtab` follows them. -/
def module_image (magic : Nat) (nlists : List (Nat × Nat)) (strtab : List Nat) : List Nat :=
  le32 magic ++ List.replicate 12 0 ++ le32 1 ++ List.replicate 8 0 ++
    le32 LC_SYMTAB ++ le32 24 ++ le32 0x40 ++ le32 nlists.length ++
    le32 (0x40 + 12 * nlists.length) ++ le32 strtab.length ++
    List.replicate 12 0 ++
    (nlists.map (fun e => le32 e.1 ++ [0, 0, 0, 0] ++ le32 e.2)).flatten ++ strtab

/-- A string table holding `"start"` at 1, `"foo"` at 7 and `"bar"` at 11. -/
def example_strtab : List Nat := [0] ++ START_NAME ++ [0] ++ FOO ++ [0, 98, 97, 114, 0]

/-- The boot world with the example image at `0x2000` already in memory. -/
def symtab_world (nlists : List (Nat × Nat)) (heap : List Nat) : World :=
  boot_world (image_at 0x2000 (module_image MH_MAGIC nlists example_strtab)) heap (fun _ => none)

/-- The example image as a file that reads in full. -/
def file_of (nlists : List (Nat × Nat)) : File :=
  { size := (module_image MH_MAGIC nlists example_strtab).length,
    data := module_image MH_MAGIC nlists example_strtab }

/-- Memory that is zero except for the C string `s` at `0x7000`. -/
def name_memory (s : CStr) : Mem := image_at 0x7000 (s ++ [0])

/-- The boot world whose storage holds the example image under the module name
`"m"`, a name that lies in memory at `0x7000`. -/
def file_world (nlists : List (Nat × Nat)) (heap : List Nat) : World :=
  boot_world (name_memory [109]) heap
    (fun path =>
      if path = MODULES_DIR ++ [109] then some (file_of nlists) else none)

/-- A dependency loader that records the name pointer it is called with in the
Module Registry. -/
def recording_loader : Loader :=
  fun name w => some (EFI_SUCCESS, { w with loadedModules := name :: w.loadedModules })

/-- A 32-bit image with two load commands: an `LC_LOAD_DYLIB` of 32 bytes at 28
whose name (at most 7 bytes, at offset 24 of the command) is `dep`, and an
`LC_SYMTAB` at 60 whose `struct nlist` entries start at offset `0x60`, followed by
the string table. -/
def dependent_image (dep : List Nat) (nlists : List (Nat × Nat)) (strtab : List Nat) :
    List Nat :=
  le32 MH_MAGIC ++ List.replicate 12 0 ++ le32 2 ++ List.replicate 8 0 ++
    le32 LC_LOAD_DYLIB ++ le32 32 ++ le32 24 ++ List.replicate 12 0 ++
    dep ++ List.replicate (8 - dep.length) 0 ++
    le32 LC_SYMTAB ++ le32 24 ++ le32 0x60 ++ le32 nlists.length ++
    le32 (0x60 + 12 * nlists.length) ++ le32 strtab.length ++
    List.replicate 12 0 ++
    (nlists.map (fun e => le32 e.1 ++ [0, 0, 0, 0] ++ le32 e.2)).flatten ++ strtab

/-- The image of a module with its entry point at offset `0x30` that depends on
the module `"D"`. -/
def dependent_example : List Nat := dependent_image [68] [(1, 0x30)] example_strtab

/-- The boot world whose storage holds the dependent image under the name `"P"`
and, under `"D.dylib"`, a file of four bytes that are not a Mach-O magic; the
name `"P"` lies in memory at `0x7000` and the name `"D.dylib"` at `0x7010`. -/
def dependency_world (heap : List Nat) : World :=
  boot_world (image_at 0x7000 ([80] ++ List.replicate 15 0 ++ [68] ++ DYLIB_SUFFIX ++ [0])) heap
    (fun path =>
      if path = MODULES_DIR ++ [80] then
        some { size := dependent_example.length, data := dependent_example }
      else if path = MODULES_DIR ++ ([68] ++ DYLIB_SUFFIX) then
        some { size := 4, data := [1, 2, 3, 4] }
      else none)

/-- A 64-bit image (`struct mach_header_64`, 32 bytes) with one load command, an
`LC_SYMTAB` whose `struct nlist_64` entries (given as `n_strx`, `n_value`) start
at offset `0x40` and whose string table follows them. -/
def module_image64 (nlists : List (Nat × Nat)) (strtab : List Nat) : List Nat :=
  le32 MH_MAGIC_64 ++ List.replicate 12 0 ++ le32 1 ++ List.replicate 12 0 ++
    le32 LC_SYMTAB ++ le32 24 ++ le32 0x40 ++ le32 nlists.length ++
    le32 (0x40 + 16 * nlists.length) ++ le32 strtab.length ++
    List.replicate 8 0 ++
    (nlists.map (fun e => le32 e.1 ++ [0, 0, 0, 0] ++ le32 e.2 ++ [0, 0, 0, 0])).flatten ++
    strtab

/-- The 64-bit example image as a file that reads in full. -/
def file_of64 (nlists : List (Nat × Nat)) : File :=
  { size := (module_image64 nlists example_strtab).length,
    data := module_image64 nlists example_strtab }

/-- The boot world whose storage holds the 64-bit example image under the module
name `"m"`, a name that lies in memory at `0x7000`. -/
def file_world64 (nlists : List (Nat × Nat)) (heap : List Nat) : World :=
  boot_world (name_memory [109]) heap
    (fun path =>
      if path = MODULES_DIR ++ [109] then some (file_of64 nlists) else none)

/-- A boot world for `load_all_modules`: the memory holds, from `0x3000` on, the
byte `first`, then `"dylib"` and a NUL, and the storage holds the example image
under the name `"ylib"`. -/
def listing_world (first : Nat) (heap : List Nat) : World :=
  boot_world (image_at 0x3000 [first, 100, 121, 108, 105, 98, 0]) heap
    (fun path =>
      if path = MODULES_DIR ++ [121, 108, 105, 98] then some (file_of [(1, 0x30)]) else none)

/-- An image at `0x1000` whose first load command has file offset `0xC0`, with
`stream` at offset `0x80`. -/
def bind_stream_example (stream : List Nat) : Mem :=
  image_at 0x1000 (List.replicate 60 0 ++ le32 0xC0 ++ List.replicate 64 0 ++ stream)

/-- The boot world whose storage holds, under the name `"m"` (in memory at
`0x7000`), the example image with the symbols `start` (at offset `0x30`) and
`foo`; three allocations are available. -/
def example_file_world : World := file_world [(1, 0x30), (7, 0x34)] [0x2000, 0x9000, 0x9010]

/-- The signed LEB128 value of operand bytes: the unsigned value, less
`2^(7 * length)` when bit `0x40` of the last byte is set. -/
def sleb128 (bs : List Nat) : Int :=
  if bs.getLastD 0 &&& 0x40 ≠ 0 then (uleb128 bs : Int) - (2 ^ (7 * bs.length) : Nat)
  else (uleb128 bs : Int)

/-- The 32-bit pattern of a signed value. -/
def sint32 (v : Int) : Nat := (v % 4294967296).toNat

/-- A resolver that knows only `foo`, at `0x5000`. -/
def resolve_foo : CStr → Nat := fun name => if name = FOO then 0x5000 else 0xFFFFFFFF

/-- An image at `0x1000` whose first load command is an `LC_SYMTAB` (24 bytes, at
28) and whose second is an `LC_SEGMENT` named `__DATA` (56 bytes, at 52) with file
offset `0x80`; `stream` lies at offset `0x70` and the word 7 at offset `0x80`. -/
def symtab_first_example (stream : List Nat) : Mem :=
  image_at 0x1000
    (le32 MH_MAGIC ++ List.replicate 12 0 ++ le32 2 ++ List.replicate 8 0 ++
      le32 LC_SYMTAB ++ le32 24 ++ List.replicate 16 0 ++
      le32 LC_SEGMENT ++ le32 56 ++ [95, 95, 68, 65, 84, 65] ++ List.replicate 18 0 ++
      le32 0x80 ++ List.replicate 20 0 ++
      List.replicate 4 0 ++ stream ++ List.replicate (16 - stream.length) 0 ++ le32 7)

/-- The state of `rebase_macho` at the `DONE` opcode (index 3) of the stream
`11 20 00 00 51` in the example image. -/
def rebase_done_state : RebaseState :=
  { i := 3, type := 1, segmentAddress := 0x60,
    mem := rebase_example [0x11, 0x20, 0x00, 0x00, 0x51] }

/-- The state of `bind_macho` at index `i` of a stream at `0x1080` in memory `m`,
with the current segment offset `0xC0` and the current symbol resolved to
`symbolAddr`. -/
def bind_state_at (i symbolAddr : Nat) (m : Mem) : BindState :=
  { i := i, type := 0, segmentAddress := 0xC0, addend := 0, libraryOrdinal := 0,
    symbolName := 0x1081, symboFlags := 0, symbolAddr := symbolAddr, mem := m }

/-- An image at `0x2000` whose header announces `0x10000` load commands and which
is zero otherwise. -/
def many_commands_image : Mem :=
  image_at 0x2000 (le32 MH_MAGIC ++ List.replicate 12 0 ++ le32 0x10000)

/-- A file like the example image with the one symbol `foo` (no `start`), whose
header announces `0x10000` load commands; the bytes after its `LC_SYMTAB` command
are zero. -/
def startless_file : File :=
  { size := 91,
    data := le32 MH_MAGIC ++ List.replicate 12 0 ++ le32 0x10000 ++ List.replicate 8 0 ++
      le32 LC_SYMTAB ++ le32 24 ++ le32 0x40 ++ le32 1 ++ le32 0x4C ++
      le32 example_strtab.length ++ List.replicate 12 0 ++
      le32 7 ++ [0, 0, 0, 0] ++ le32 0x34 ++ example_strtab }

/-- The boot world whose storage holds `startless_file` under the name `"m"`,
which lies in memory at `0x7000`. -/
def startless_world : World :=
  boot_world (name_memory [109]) [0x2000, 0x9000]
    (fun path => if path = MODULES_DIR ++ [109] then some startless_file else none)

/-! ## Hook registry: proofs -/

theorem get_callback_push (x n : CStr) (cb : Nat) (hooks : List moduleHook_t) :
    get_callback x (push_callback n cb hooks) =
      (get_callback x hooks).map
        (fun h => if x = n then { h with callbacks := cb :: h.callbacks } else h) := by
  induction hooks with
  | nil => simp [push_callback, get_callback]
  | cons h t ih =>
    by_cases hn : n = h.name
    · by_cases hx : x = h.name
      · simp [push_callback, get_callback, hn, hx]
      · have hxn : ¬ x = n := by rw [hn]; exact hx
        simp [push_callback, get_callback, hn, hx]
    · by_cases hx : x = h.name
      · have hxn : ¬ h.name = n := fun e => hn e.symm
        simp [push_callback, get_callback, hn, hx, hxn]
      · simp [push_callback, get_callback, hn, hx, ih]

theorem callbacks_of_insert (x n : CStr) (cb : Nat) (hooks : List moduleHook_t) :
    callbacks_of x (insert_callback n cb hooks) =
      if n = x then cb :: callbacks_of x hooks else callbacks_of x hooks := by
  unfold insert_callback callbacks_of
  cases hg : get_callback n hooks with
  | none =>
    by_cases hx : x = n
    · subst hx; simp [get_callback, hg]
    · have hx2 : ¬ n = x := fun e => hx e.symm
      simp [get_callback, hx, hx2]
  | some h0 =>
    simp only [get_callback_push]
    by_cases hx : x = n
    · subst hx; simp [hg]
    · have hx2 : ¬ n = x := fun e => hx e.symm
      cases get_callback x hooks <;> simp [hx, hx2]

theorem get_callback_insert_isSome (x n : CStr) (cb : Nat) (hooks : List moduleHook_t) :
    (get_callback x (insert_callback n cb hooks)).isSome =
      (decide (n = x) || (get_callback x hooks).isSome) := by
  unfold insert_callback
  cases hg : get_callback n hooks with
  | none =>
    by_cases hx : x = n
    · subst hx; simp [get_callback]
    · have hx2 : ¬ n = x := fun e => hx e.symm
      simp [get_callback, hx, hx2]
  | some h0 =>
    simp only [get_callback_push]
    by_cases hx : x = n
    · subst hx; simp [hg]
    · have hx2 : ¬ n = x := fun e => hx e.symm
      cases get_callback x hooks <;> simp [hx2]

theorem callbacks_of_insert_all (x : CStr) (regs : List (CStr × Nat))
    (hooks : List moduleHook_t) :
    callbacks_of x (insert_all regs hooks) =
      (registered_under x regs).reverse ++ callbacks_of x hooks := by
  induction regs generalizing hooks with
  | nil => simp [insert_all, registered_under]
  | cons r rs ih =>
    have h := ih (insert_callback r.1 r.2 hooks)
    simp only [insert_all, List.foldl_cons] at h ⊢
    rw [h, callbacks_of_insert]
    by_cases hr : r.1 = x
    · simp [registered_under, hr, List.filter_cons]
    · simp [registered_under, hr, List.filter_cons]

theorem get_callback_insert_all_isSome (x : CStr) (regs : List (CStr × Nat))
    (hooks : List moduleHook_t) :
    (get_callback x (insert_all regs hooks)).isSome =
      (regs.any (fun r => decide (r.1 = x)) || (get_callback x hooks).isSome) := by
  induction regs generalizing hooks with
  | nil => simp [insert_all]
  | cons r rs ih =>
    have h := ih (insert_callback r.1 r.2 hooks)
    simp only [insert_all, List.foldl_cons] at h ⊢
    rw [h, get_callback_insert_isSome]
    simp only [List.any_cons]
    cases decide (r.1 = x) <;> cases rs.any (fun r => decide (r.1 = x)) <;> simp

theorem execute_hook_eq {σ : Type} (hooks : List moduleHook_t) (x : CStr)
    (a1 a2 a3 a4 a5 a6 : Nat) (invoke : Nat → Nat → Nat → Nat → Nat → Nat → Nat → σ → σ) (s : σ) :
    execute_hook hooks x a1 a2 a3 a4 a5 a6 invoke s =
      (if (get_callback x hooks).isSome then EFI_SUCCESS else EFI_NOT_FOUND,
        (callbacks_of x hooks).foldl (fun s cb => invoke cb a1 a2 a3 a4 a5 a6 s) s) := by
  unfold execute_hook callbacks_of
  cases get_callback x hooks <;> simp

theorem register_hook_callback_ok (n : CStr) (cb : Nat) (w : World)
    (h : allocs_succeed (if (get_callback n w.moduleCallbacks).isSome then 1 else 2) w.heap =
      true) :
    (register_hook_callback n cb w).moduleCallbacks = insert_callback n cb w.moduleCallbacks := by
  unfold register_hook_callback insert_callback
  cases hg : get_callback n w.moduleCallbacks with
  | some h0 =>
    simp only [hg, Option.isSome_some, if_true] at h
    cases hh : w.heap with
    | nil => simp [hh, allocs_succeed] at h
    | cons p rest =>
      simp only [hh, allocs_succeed, Bool.and_true, decide_eq_true_eq] at h
      simp [malloc, hh, h]
  | none =>
    simp only [hg, Option.isSome_none, Bool.false_eq_true, if_false] at h
    cases hh : w.heap with
    | nil => simp [hh, allocs_succeed] at h
    | cons p rest =>
      cases rest with
      | nil => simp [hh, allocs_succeed] at h
      | cons q rest2 =>
        simp only [hh, allocs_succeed, Bool.and_true, Bool.and_eq_true, decide_eq_true_eq] at h
        simp [malloc, hh, h.1, h.2]

theorem register_all_ok (regs : List (CStr × Nat)) :
    ∀ (w : World), registrations_succeed regs w = true →
      (register_all regs w).moduleCallbacks = insert_all regs w.moduleCallbacks := by
  induction regs with
  | nil => intro w _; rfl
  | cons r rs ih =>
    intro w h
    simp only [registrations_succeed, Bool.and_eq_true] at h
    have h1 := register_hook_callback_ok r.1 r.2 w h.1
    have h2 := ih _ h.2
    simp only [register_all, insert_all, List.foldl_cons] at h2 ⊢
    rw [h2, h1]

/-- C6, the code at the failing input. The callbacks 1 and 2 are registered in
this order under the hook `foo` while the allocator has two blocks left, which
the first registration takes. The second registration gets NULL for its node
and, its `malloc` being unchecked, makes it the head of the callback list all
the same (`hook->callbacks = newCallback`), so `execute_hook` calls nothing,
although both callbacks are registered under `foo`. With three blocks to
allocate it calls 2 and then 1. -/
theorem execute_hook_after_failed_allocation :
    registered_under FOO [(FOO, 1), (FOO, 2)] = [1, 2] ∧
      (execute_hook
          (register_all [(FOO, 1), (FOO, 2)]
            (boot_world (fun _ => 0) [0x9000, 0x9010] (fun _ => none))).moduleCallbacks
          FOO 11 12 13 14 15 16 log_call []).2 = [] ∧
      (execute_hook
          (register_all [(FOO, 1), (FOO, 2)]
            (boot_world (fun _ => 0) [0x9000, 0x9010, 0x9020] (fun _ => none))).moduleCallbacks
          FOO 11 12 13 14 15 16 log_call []).2 =
        [(2, 11, 12, 13, 14, 15, 16), (1, 11, 12, 13, 14, 15, 16)] :=
  ⟨by decide, by rfl, by rfl⟩

/-- After any history `regs` of `register_hook_callback` calls from the empty
registry, every allocation of which succeeded, `execute_hook x` calls
exactly the callbacks registered under `x`, each once, with the six arguments
given, most recently registered first: for every effect `invoke` of the callbacks
the resulting state is the fold over the reversed registration list, and the log
of calls is that list with the arguments attached. -/
theorem execute_hook_reverse_registration_order {σ : Type} (regs : List (CStr × Nat)) (x : CStr)
    (a1 a2 a3 a4 a5 a6 : Nat) (invoke : Nat → Nat → Nat → Nat → Nat → Nat → Nat → σ → σ) (s : σ)
    (w : World) (hempty : w.moduleCallbacks = [])
    (halloc : registrations_succeed regs w = true) :
    (execute_hook (register_all regs w).moduleCallbacks x a1 a2 a3 a4 a5 a6 invoke s).2 =
        (registered_under x regs).reverse.foldl (fun s cb => invoke cb a1 a2 a3 a4 a5 a6 s) s ∧
      (execute_hook (register_all regs w).moduleCallbacks x a1 a2 a3 a4 a5 a6 log_call []).2 =
        (registered_under x regs).reverse.map (fun cb => (cb, a1, a2, a3, a4, a5, a6)) := by
  rw [register_all_ok regs w halloc, hempty]
  have hc : callbacks_of x (insert_all regs []) = (registered_under x regs).reverse := by
    rw [callbacks_of_insert_all]; simp [callbacks_of, get_callback]
  refine ⟨by rw [execute_hook_eq, hc], ?_⟩
  rw [execute_hook_eq, hc]
  simp only
  generalize (registered_under x regs).reverse = l
  have hgen : ∀ (l : List Nat) (t : List (Nat × Nat × Nat × Nat × Nat × Nat × Nat)),
      l.foldl (fun s cb => log_call cb a1 a2 a3 a4 a5 a6 s) t =
        t ++ l.map (fun cb => (cb, a1, a2, a3, a4, a5, a6)) := by
    intro l
    induction l with
    | nil => intro t; simp
    | cons c cs ih =>
      intro t
      simp only [List.foldl_cons, List.map_cons]
      rw [ih]; simp [log_call]
  simpa using hgen l []

/-- The reverse registration order for the registrations of 1 under `foo`, 5
under `start` and 2 under `foo`, with five blocks to allocate. -/
theorem execute_hook_reverse_registration_order_example :
    (execute_hook
          (register_all [(FOO, 1), (START_NAME, 5), (FOO, 2)]
            (boot_world (fun _ => 0) [0x9000, 0x9010, 0x9020, 0x9030, 0x9040]
              (fun _ => none))).moduleCallbacks
          FOO 11 12 13 14 15 16 log_call []).2 =
        (registered_under FOO [(FOO, 1), (START_NAME, 5), (FOO, 2)]).reverse.foldl
          (fun s cb => log_call cb 11 12 13 14 15 16 s) [] ∧
      (execute_hook
          (register_all [(FOO, 1), (START_NAME, 5), (FOO, 2)]
            (boot_world (fun _ => 0) [0x9000, 0x9010, 0x9020, 0x9030, 0x9040]
              (fun _ => none))).moduleCallbacks
          FOO 11 12 13 14 15 16 log_call []).2 =
        (registered_under FOO [(FOO, 1), (START_NAME, 5), (FOO, 2)]).reverse.map
          (fun cb => (cb, 11, 12, 13, 14, 15, 16)) :=
  execute_hook_reverse_registration_order [(FOO, 1), (START_NAME, 5), (FOO, 2)] FOO
    11 12 13 14 15 16 log_call []
    (boot_world (fun _ => 0) [0x9000, 0x9010, 0x9020, 0x9030, 0x9040] (fun _ => none))
    rfl (by decide)

/-- C7, the code at the failing input. The callback 1 is registered under the
hook `foo` while the allocator has nothing left. The registration gets NULL for
the new hook and, its `malloc` being unchecked, makes it the head of the hook
list all the same (`moduleCallbacks = newHook`), so `execute_hook` returns
`EFI_NOT_FOUND` for `foo`, under which a callback was registered. With two blocks
to allocate it returns `EFI_SUCCESS`. -/
theorem execute_hook_not_found_after_failed_allocation :
    (∃ r ∈ [(FOO, 1)], r.1 = FOO) ∧
      (execute_hook
          (register_all [(FOO, 1)]
            (boot_world (fun _ => 0) [] (fun _ => none))).moduleCallbacks
          FOO 11 12 13 14 15 16 log_call []).1 = EFI_NOT_FOUND ∧
      (execute_hook
          (register_all [(FOO, 1)]
            (boot_world (fun _ => 0) [0x9000, 0x9010] (fun _ => none))).moduleCallbacks
          FOO 11 12 13 14 15 16 log_call []).1 = EFI_SUCCESS := by
  refine ⟨?_, ?_, ?_⟩ <;> decide

/-- After any history `regs` of `register_hook_callback` calls from the empty
registry, every allocation of which succeeded, `execute_hook x` returns
`EFI_NOT_FOUND` exactly when no registration in the history was made under the
name `x`, and then it calls nothing (the state the callbacks act on and the call
log are untouched); in every other case it returns `EFI_SUCCESS`. -/
theorem execute_hook_not_found_iff_unregistered {σ : Type} (regs : List (CStr × Nat)) (x : CStr)
    (a1 a2 a3 a4 a5 a6 : Nat) (invoke : Nat → Nat → Nat → Nat → Nat → Nat → Nat → σ → σ) (s : σ)
    (w : World) (hempty : w.moduleCallbacks = [])
    (halloc : registrations_succeed regs w = true) :
    ((execute_hook (register_all regs w).moduleCallbacks x a1 a2 a3 a4 a5 a6 invoke s).1 =
        EFI_NOT_FOUND ↔ ∀ r ∈ regs, r.1 ≠ x) ∧
      ((execute_hook (register_all regs w).moduleCallbacks x a1 a2 a3 a4 a5 a6 invoke s).1 =
        EFI_SUCCESS ↔ ∃ r ∈ regs, r.1 = x) ∧
      ((∀ r ∈ regs, r.1 ≠ x) →
        execute_hook (register_all regs w).moduleCallbacks x a1 a2 a3 a4 a5 a6 invoke s =
          (EFI_NOT_FOUND, s) ∧
        (execute_hook (register_all regs w).moduleCallbacks x a1 a2 a3 a4 a5 a6 log_call []).2 =
          []) := by
  rw [register_all_ok regs w halloc, hempty]
  have hs : (get_callback x (insert_all regs [])).isSome =
      regs.any (fun r => decide (r.1 = x)) := by
    rw [get_callback_insert_all_isSome]; simp [get_callback]
  have hc : callbacks_of x (insert_all regs []) = (registered_under x regs).reverse := by
    rw [callbacks_of_insert_all]; simp [callbacks_of, get_callback]
  have hnone : (∀ r ∈ regs, r.1 ≠ x) → registered_under x regs = [] := by
    intro h
    simp only [registered_under, List.map_eq_nil_iff, List.filter_eq_nil_iff]
    intro r hr; simpa using h r hr
  by_cases hany : regs.any (fun r => decide (r.1 = x)) = true
  · have hex : ∃ r ∈ regs, r.1 = x := by
      obtain ⟨r, hr, e⟩ := List.any_eq_true.mp hany
      exact ⟨r, hr, of_decide_eq_true e⟩
    have hnall : ¬ ∀ r ∈ regs, r.1 ≠ x := by
      intro h; obtain ⟨r, hr, e⟩ := hex; exact h r hr e
    have h1 : (execute_hook (insert_all regs []) x a1 a2 a3 a4 a5 a6 invoke s).1 =
        EFI_SUCCESS := by
      rw [execute_hook_eq, hs, hany]; rfl
    refine ⟨⟨fun h => ?_, fun h => absurd h hnall⟩, ⟨fun _ => hex, fun _ => h1⟩,
      fun h => absurd h hnall⟩
    rw [h1] at h; cases h
  · have hall : ∀ r ∈ regs, r.1 ≠ x := by
      intro r hr e
      exact hany (List.any_eq_true.mpr ⟨r, hr, decide_eq_true e⟩)
    have hnex : ¬ ∃ r ∈ regs, r.1 = x := by
      rintro ⟨r, hr, e⟩; exact hall r hr e
    have hf : regs.any (fun r => decide (r.1 = x)) = false := by
      cases hb : regs.any (fun r => decide (r.1 = x))
      · rfl
      · exact absurd hb hany
    have h1 : (execute_hook (insert_all regs []) x a1 a2 a3 a4 a5 a6 invoke s).1 =
        EFI_NOT_FOUND := by
      rw [execute_hook_eq, hs, hf]; rfl
    refine ⟨⟨fun _ => hall, fun _ => h1⟩, ⟨fun h => ?_, fun h => absurd h hnex⟩, ?_⟩
    · rw [h1] at h; cases h
    · intro _
      rw [execute_hook_eq, execute_hook_eq, hs, hf, hc, hnone hall]
      exact ⟨rfl, rfl⟩

/-- The not-found status for the registrations of 1 under `foo`, 5 under `start`
and 2 under `foo`, with five blocks to allocate, and the name `bar`, under which
nothing is registered. -/
theorem execute_hook_not_found_iff_unregistered_example :
    ((execute_hook
          (register_all [(FOO, 1), (START_NAME, 5), (FOO, 2)]
            (boot_world (fun _ => 0) [0x9000, 0x9010, 0x9020, 0x9030, 0x9040]
              (fun _ => none))).moduleCallbacks
          [98, 97, 114] 11 12 13 14 15 16 log_call []).1 = EFI_NOT_FOUND ↔
        ∀ r ∈ [(FOO, 1), (START_NAME, 5), (FOO, 2)], r.1 ≠ [98, 97, 114]) ∧
      ((execute_hook
          (register_all [(FOO, 1), (START_NAME, 5), (FOO, 2)]
            (boot_world (fun _ => 0) [0x9000, 0x9010, 0x9020, 0x9030, 0x9040]
              (fun _ => none))).moduleCallbacks
          [98, 97, 114] 11 12 13 14 15 16 log_call []).1 = EFI_SUCCESS ↔
        ∃ r ∈ [(FOO, 1), (START_NAME, 5), (FOO, 2)], r.1 = [98, 97, 114]) ∧
      ((∀ r ∈ [(FOO, 1), (START_NAME, 5), (FOO, 2)], r.1 ≠ [98, 97, 114]) →
        execute_hook
          (register_all [(FOO, 1), (START_NAME, 5), (FOO, 2)]
            (boot_world (fun _ => 0) [0x9000, 0x9010, 0x9020, 0x9030, 0x9040]
              (fun _ => none))).moduleCallbacks
          [98, 97, 114] 11 12 13 14 15 16 log_call [] = (EFI_NOT_FOUND, []) ∧
        (execute_hook
          (register_all [(FOO, 1), (START_NAME, 5), (FOO, 2)]
            (boot_world (fun _ => 0) [0x9000, 0x9010, 0x9020, 0x9030, 0x9040]
              (fun _ => none))).moduleCallbacks
          [98, 97, 114] 11 12 13 14 15 16 log_call []).2 = []) :=
  execute_hook_not_found_iff_unregistered [(FOO, 1), (START_NAME, 5), (FOO, 2)] [98, 97, 114]
    11 12 13 14 15 16 log_call []
    (boot_world (fun _ => 0) [0x9000, 0x9010, 0x9020, 0x9030, 0x9040] (fun _ => none))
    rfl (by decide)

/-! ## Symbol table and resolver: proofs -/

theorem lookup_list_eq_find (name : CStr) (table : List symbolList_t) :
    lookup_list name table =
      match table.find? (fun e => e.symbol = name) with
      | some e => e.addr
      | none => SENTINEL := by
  induction table with
  | nil => simp [lookup_list, SENTINEL]
  | cons e rest ih =>
    by_cases h : e.symbol = name
    · simp [lookup_list, List.find?_cons, h]
    · simp [lookup_list, List.find?_cons, h, ih]

/-- C8. In every state, `lookup_all_symbols name` is the resolver of the
specification: the built-in provider's answer when `lookup_symbol` is neither
null nor `0xFFFFFFFF` and that answer is not the sentinel; otherwise the address
of the most recently inserted entry of `moduleSymbols` with exactly that name;
otherwise the sentinel. -/
theorem lookup_all_symbols_eq_resolve_spec (w : World) (name : CStr) :
    lookup_all_symbols w name =
      resolve_spec (decide (w.lookup_symbol ≠ 0 ∧ w.lookup_symbol ≠ 0xFFFFFFFF))
        (fun n => w.provider n % 4294967296) w.moduleSymbols name := by
  unfold lookup_all_symbols resolve_spec
  rw [lookup_list_eq_find]
  by_cases h1 : w.lookup_symbol ≠ 0 ∧ w.lookup_symbol ≠ 0xFFFFFFFF
  · by_cases h2 : w.provider name % 4294967296 ≠ 0xFFFFFFFF
    · rw [if_pos ⟨h1.1, h1.2, h2⟩, if_pos]
      exact ⟨decide_eq_true h1, h2⟩
    · have h3 : ¬ (w.lookup_symbol ≠ 0 ∧ w.lookup_symbol ≠ 0xFFFFFFFF ∧
          w.provider name % 4294967296 ≠ 0xFFFFFFFF) := fun h => h2 h.2.2
      rw [if_neg h3, if_neg]
      simp only [SENTINEL]
      exact fun h => h2 h.2
  · have h3 : ¬ (w.lookup_symbol ≠ 0 ∧ w.lookup_symbol ≠ 0xFFFFFFFF ∧
        w.provider name % 4294967296 ≠ 0xFFFFFFFF) := fun h => h1 ⟨h.1, h.2.1⟩
    rw [if_neg h3, if_neg]
    intro h
    exact h1 (of_decide_eq_true h.1)

theorem add_symbol_ok (n : CStr) (a p : Nat) (rest : List Nat) (w : World)
    (hheap : w.heap = p :: rest) (hp : p ≠ 0) :
    add_symbol n a false w =
      (a, { w with heap := rest,
                   moduleSymbols := { symbol := n, addr := a % 4294967296 } :: w.moduleSymbols }) := by
  simp [add_symbol, malloc, hheap, hp]

/-- C2, the claim as stated fails. With a built-in provider installed that
answers `0x300` for the name, two insertions of the name at `0x1000` and then
`0x2000` leave `lookup_all_symbols` answering `0x300`; and when the allocation
of the second insertion fails, the lookup answers the first address `0x1000`. -/
theorem lookup_after_two_insertions_not_latest :
    lookup_all_symbols
        (add_symbol [102] 0x2000 false
          (add_symbol [102] 0x1000 false (provider_world [0x9000, 0x9010])).2).2 [102] = 0x300 ∧
      lookup_all_symbols
        (add_symbol [102] 0x2000 false
          (add_symbol [102] 0x1000 false
            (boot_world (fun _ => 0) [0x9000, 0] (fun _ => none))).2).2 [102] = 0x1000 := by
  constructor <;> decide

/-- C2, amended. When both insertions allocate their entry and the built-in
provider is not installed or answers the sentinel for the name, then after
`add_symbol(n, a1)` and `add_symbol(n, a2)` (32-bit symbols) the call
`lookup_all_symbols(n)` returns `a2` as a 32-bit address, whatever `a1` was. -/
theorem lookup_after_two_insertions (w : World) (n : CStr) (a1 a2 p q : Nat) (rest : List Nat)
    (hheap : w.heap = p :: q :: rest) (hp : p ≠ 0) (hq : q ≠ 0)
    (hprov : w.lookup_symbol = 0 ∨ w.lookup_symbol = 0xFFFFFFFF ∨
      w.provider n % 4294967296 = 0xFFFFFFFF) :
    lookup_all_symbols (add_symbol n a2 false (add_symbol n a1 false w).2).2 n =
      a2 % 4294967296 := by
  rw [add_symbol_ok n a1 p (q :: rest) w hheap hp]
  rw [add_symbol_ok n a2 q rest _ rfl hq]
  unfold lookup_all_symbols
  have h3 : ¬ (w.lookup_symbol ≠ 0 ∧ w.lookup_symbol ≠ 0xFFFFFFFF ∧
      w.provider n % 4294967296 ≠ 0xFFFFFFFF) := by
    rintro ⟨h1, h2, h3⟩
    rcases hprov with h | h | h
    · exact h1 h
    · exact h2 h
    · exact h3 h
  simp only [h3, if_false, lookup_list, if_true]

/-- The statement of C2 on the boot world with two successful allocations. -/
theorem lookup_after_two_insertions_witness :
    lookup_all_symbols
        (add_symbol [102] 0x2000 false
          (add_symbol [102] 0x1000 false
            (boot_world (fun _ => 0) [0x9000, 0x9010] (fun _ => none))).2).2 [102] =
      0x2000 % 4294967296 :=
  lookup_after_two_insertions (boot_world (fun _ => 0) [0x9000, 0x9010] (fun _ => none)) [102]
    0x1000 0x2000 0x9000 0x9010 [] rfl (by decide) (by decide) (Or.inl rfl)

/-! ## Memory, operands and the two interpreters: proofs -/

theorem read8_lt (m : Mem) (a : Nat) : read8 m a < 256 := Nat.mod_lt _ (by decide)

theorem read32_lt (m : Mem) (a : Nat) : read32 m a < 4294967296 := by
  unfold read32
  have h0 := read8_lt m a
  have h1 := read8_lt m (a + 1)
  have h2 := read8_lt m (a + 2)
  have h3 := read8_lt m (a + 3)
  omega

theorem read8_congr (m : Mem) (a b : Nat) (h : a % 4294967296 = b % 4294967296) :
    read8 m a = read8 m b := by
  unfold read8; rw [h]

theorem read32_congr (m : Mem) (a b : Nat) (h : a % 4294967296 = b % 4294967296) :
    read32 m a = read32 m b := by
  unfold read32
  rw [read8_congr m a b h, read8_congr m (a + 1) (b + 1) (by omega),
    read8_congr m (a + 2) (b + 2) (by omega), read8_congr m (a + 3) (b + 3) (by omega)]

theorem read32_of_bytes (m1 m2 : Mem) (a : Nat)
    (h : ∀ j < 4, m1 ((a + j) % 4294967296) = m2 ((a + j) % 4294967296)) :
    read32 m1 a = read32 m2 a := by
  have h0 := h 0 (by decide)
  simp only [Nat.add_zero] at h0
  unfold read32 read8
  rw [h0, h 1 (by decide), h 2 (by decide), h 3 (by decide)]

theorem write32_apply (m : Mem) (a v x : Nat) :
    write32 m a v x =
      if x = (a + 3) % 4294967296 then v / 16777216 % 256
      else if x = (a + 2) % 4294967296 then v / 65536 % 256
      else if x = (a + 1) % 4294967296 then v / 256 % 256
      else if x = a % 4294967296 then v % 256
      else m x := rfl

theorem write32_frame (m : Mem) (a v x : Nat) (h : ∀ j < 4, x ≠ (a + j) % 4294967296) :
    write32 m a v x = m x := by
  rw [write32_apply]
  have h0 := h 0 (by decide)
  have h1 := h 1 (by decide)
  have h2 := h 2 (by decide)
  have h3 := h 3 (by decide)
  simp only [Nat.add_zero] at h0
  rw [if_neg h3, if_neg h2, if_neg h1, if_neg h0]

theorem read32_write32_same (m : Mem) (a v : Nat) :
    read32 (write32 m a v) a = v % 4294967296 := by
  unfold read32 read8
  simp only [write32_apply]
  split_ifs <;> omega

theorem rebase_location_pointer (m : Mem) (loc base : Nat) :
    rebase_location m loc base 1 = write32 m loc (read32 m loc + base) := by
  simp [rebase_location, REBASE_TYPE_POINTER]

theorem rebase_times_pointer (base : Nat) :
    ∀ (N sa : Nat) (m : Mem), 4 * N ≤ 4294967296 →
      (rebase_times base 1 0 N sa m).1 % 4294967296 = (sa + 4 * N) % 4294967296 ∧
      (∀ k < N, read32 (rebase_times base 1 0 N sa m).2 (base + sa + 4 * k) =
        (read32 m (base + sa + 4 * k) + base) % 4294967296) ∧
      (∀ x, (∀ k < N, ∀ j < 4, x ≠ (base + sa + 4 * k + j) % 4294967296) →
        (rebase_times base 1 0 N sa m).2 x = m x) := by
  intro N
  induction N with
  | zero =>
    intro sa m _
    refine ⟨by simp [rebase_times], ?_, ?_⟩
    · intro k hk; exact absurd hk (Nat.not_lt_zero k)
    · intro x _; rfl
  | succ N ih =>
    intro sa m hN
    have hN' : 4 * N ≤ 4294967296 := by omega
    obtain ⟨ih1, ih2, ih3⟩ := ih ((sa + 0 + 4) % 4294967296)
      (rebase_location m (base + sa) base 1) hN'
    simp only [rebase_times]
    refine ⟨by rw [ih1]; omega, ?_, ?_⟩
    · intro k hk
      cases k with
      | zero =>
        simp only [Nat.mul_zero, Nat.add_zero]
        rw [read32_of_bytes _ (rebase_location m (base + sa) base 1) (base + sa)]
        · rw [rebase_location_pointer, read32_write32_same]
        · intro j hj
          apply ih3
          intro k hk j2 hj2
          omega
      | succ k =>
        have hk' : k < N := by omega
        rw [read32_congr _ (base + sa + 4 * (k + 1)) (base + (sa + 0 + 4) % 4294967296 + 4 * k)
          (by omega)]
        rw [ih2 k hk']
        rw [read32_congr m (base + sa + 4 * (k + 1)) (base + (sa + 0 + 4) % 4294967296 + 4 * k)
          (by omega)]
        congr 2
        apply read32_of_bytes
        intro j hj
        rw [rebase_location_pointer]
        apply write32_frame
        intro j2 hj2
        omega
    · intro x hx
      rw [ih3 x]
      · rw [rebase_location_pointer]
        apply write32_frame
        intro j hj
        have := hx 0 (by omega) j hj
        simpa using this
      · intro k hk j hj
        have := hx (k + 1) (by omega) j hj
        omega

theorem bytes_at_get (m : Mem) : ∀ (bs : List Nat) (a : Nat), bytes_at m a bs = true →
    ∀ j, j < bs.length → read8 m (a + j) = bs.getD j 0 := by
  intro bs
  induction bs with
  | nil => intro a _ j hj; exact absurd hj (Nat.not_lt_zero j)
  | cons b bs ih =>
    intro a h j hj
    simp only [bytes_at, Bool.and_eq_true, beq_iff_eq] at h
    cases j with
    | zero => simpa using h.1
    | succ j =>
      have := ih (a + 1) h.2 j (by simpa using hj)
      rw [show a + (j + 1) = a + 1 + j by omega, this]
      simp

theorem bytes_at_append (m : Mem) : ∀ (bs cs : List Nat) (a : Nat),
    bytes_at m a (bs ++ cs) = (bytes_at m a bs && bytes_at m (a + bs.length) cs) := by
  intro bs
  induction bs with
  | nil => intro cs a; simp [bytes_at]
  | cons b bs ih =>
    intro cs a
    show (read8 m a == b && bytes_at m (a + 1) (bs ++ cs)) =
      ((read8 m a == b && bytes_at m (a + 1) bs) && bytes_at m (a + (bs.length + 1)) cs)
    rw [ih, Bool.and_assoc, show a + 1 + bs.length = a + (bs.length + 1) by omega]

theorem mask_lo (x : Nat) : x &&& 0x0F = x % 16 := Nat.and_pow_two_sub_one_eq_mod x 4

theorem mask_7f (x : Nat) : x &&& 0x7f = x % 128 := Nat.and_pow_two_sub_one_eq_mod x 7

set_option maxRecDepth 100000 in
theorem mask_hi : ∀ x, x < 256 → x &&& 0xF0 = 16 * (x / 16) := by decide

set_option maxRecDepth 100000 in
theorem mask_80 : ∀ x, x < 256 → (x &&& 0x80 = 0 ↔ x < 128) := by decide

set_option maxRecDepth 100000 in
theorem mask_40 : ∀ x, x < 256 → (x &&& 0x40 = 0 ↔ x % 128 < 64) := by decide

theorem uleb_acc_eq (v x bits : Nat) (hv : v < 2 ^ bits)
    (hb : v + x % 128 * 2 ^ bits < 4294967296) :
    (v ||| ((x &&& 0x7f) <<< bits)) % 4294967296 = v + x % 128 * 2 ^ bits ∧
      v + x % 128 * 2 ^ bits < 2 ^ (bits + 7) := by
  have hlt : v + x % 128 * 2 ^ bits < 2 ^ (bits + 7) := by
    have h1 : x % 128 < 128 := Nat.mod_lt _ (by decide)
    have h2 : x % 128 * 2 ^ bits ≤ 127 * 2 ^ bits := Nat.mul_le_mul_right _ (by omega)
    have h3 : 2 ^ (bits + 7) = 128 * 2 ^ bits := by rw [Nat.pow_add]; omega
    omega
  refine ⟨?_, hlt⟩
  rw [mask_7f, Nat.shiftLeft_eq, Nat.lor_comm, Nat.mul_comm, ← Nat.mul_add_lt_is_or hv]
  have e : 2 ^ bits * (x % 128) = x % 128 * 2 ^ bits := Nat.mul_comm _ _
  rw [e, Nat.add_comm, Nat.mod_eq_of_lt hb]

theorem read_uleb_operand (m : Mem) (stream : Nat) :
    ∀ (us : List Nat) (fuel i bits v : Nat), uleb_wf us = true →
      bytes_at m (stream + (i + 1)) us = true → i + us.length < 4294967296 →
      us.length ≤ fuel → v < 2 ^ bits → bits + 7 * us.length ≤ 256 →
      v + uleb128 us * 2 ^ bits < 4294967296 →
      read_uleb m stream fuel i bits v = some (v + uleb128 us * 2 ^ bits, i + us.length) := by
  intro us
  induction us with
  | nil => intro fuel i bits v h; simp [uleb_wf] at h
  | cons b bs ih =>
    intro fuel i bits v hwf hbytes hi hfuel hv hbits hsum
    cases fuel with
    | zero => simp at hfuel
    | succ fuel =>
      simp only [List.length_cons] at hi hfuel hbits
      have hi1 : (i + 1) % 4294967296 = i + 1 := Nat.mod_eq_of_lt (by omega)
      simp only [bytes_at, Bool.and_eq_true, beq_iff_eq] at hbytes
      have hb : read8 m (stream + (i + 1)) = b := hbytes.1
      have hb256 : b < 256 := by rw [← hb]; exact read8_lt _ _
      have hsplit : v + uleb128 (b :: bs) * 2 ^ bits =
          v + b % 128 * 2 ^ bits + uleb128 bs * 2 ^ (bits + 7) := by
        simp only [uleb128, Nat.pow_add]; ring
      have hfirst : v + b % 128 * 2 ^ bits < 4294967296 := by
        rw [hsplit] at hsum
        exact Nat.lt_of_le_of_lt (Nat.le_add_right _ _) hsum
      obtain ⟨hacc, hacclt⟩ := uleb_acc_eq v b bits hv hfirst
      simp only [read_uleb, hi1, hb, hacc]
      cases bs with
      | nil =>
        have hb128 : b < 128 := by simpa [uleb_wf] using hwf
        have h80 : b &&& 0x80 = 0 := (mask_80 b hb256).2 hb128
        simp only [h80, ne_eq, not_true_eq_false, if_false, uleb128, List.length_nil]
        simp
      | cons c cs =>
        simp only [uleb_wf, Bool.and_eq_true, decide_eq_true_eq] at hwf
        have h80 : b &&& 0x80 ≠ 0 := fun h => by
          have := (mask_80 b hb256).1 h; omega
        simp only [h80, ne_eq, not_false_eq_true, if_true]
        have hlen1 : (c :: cs).length = cs.length + 1 := rfl
        have hbits7 : (bits + 7) % 256 = bits + 7 := Nat.mod_eq_of_lt (by omega)
        rw [hbits7]
        rw [ih fuel (i + 1) (bits + 7) _ hwf.2
          (by rw [show stream + (i + 1 + 1) = stream + (i + 1) + 1 by omega]; exact hbytes.2)
          (by simp only [List.length_cons] at hi ⊢; omega) (by omega) hacclt
          (by simp only [List.length_cons] at hbits ⊢; omega)
          (by rw [← hsplit]; exact hsum)]
        rw [hsplit]
        simp only [List.length_cons, Option.some.injEq, Prod.mk.injEq]
        exact ⟨trivial, by omega⟩

theorem opcode_split (op imm : Nat) (hop : op < 16) (himm : imm < 16) :
    (16 * op + imm) &&& 0xF0 = 16 * op ∧ (16 * op + imm) &&& 0x0F = imm := by
  rw [mask_hi _ (by omega), mask_lo]
  omega

theorem rebase_loop_step (u base stream size f : Nat) (s s1 : RebaseState) (hi : s.i < size)
    (hs : rebase_step u base stream s = some s1) :
    rebase_loop u base stream size (f + 1) s =
      rebase_loop u base stream size f { s1 with i := (s1.i + 1) % 4294967296 } := by
  simp [rebase_loop, hi, hs]

theorem rebase_loop_exit (u base stream size f : Nat) (s : RebaseState) (hi : ¬ s.i < size) :
    rebase_loop u base stream size (f + 1) s = some s.mem := by
  simp [rebase_loop, hi]

theorem rebase_step_set_type (fuel base stream imm : Nat) (s : RebaseState)
    (hb : read8 s.mem (stream + s.i) = 16 * 1 + imm) (himm : imm < 16) :
    rebase_step fuel base stream s = some { s with type := imm } := by
  obtain ⟨h1, h2⟩ := opcode_split 1 imm (by decide) himm
  simp [rebase_step, hb, REBASE_OPCODE_MASK, REBASE_IMMEDIATE_MASK, h1, h2, REBASE_OPCODE_DONE,
    REBASE_OPCODE_SET_TYPE_IMM]

theorem rebase_step_set_segment (fuel base stream imm : Nat) (s : RebaseState) (r : Nat × Nat)
    (hb : read8 s.mem (stream + s.i) = 16 * 2 + imm) (himm : imm < 16)
    (hr : read_uleb s.mem stream fuel s.i 0 0 = some r) :
    rebase_step fuel base stream s =
      some { s with i := r.2,
                    segmentAddress := (segment_fileoff s.mem base imm + r.1) % 4294967296 } := by
  obtain ⟨h1, h2⟩ := opcode_split 2 imm (by decide) himm
  simp [rebase_step, hb, REBASE_OPCODE_MASK, REBASE_IMMEDIATE_MASK, h1, h2, REBASE_OPCODE_DONE,
    REBASE_OPCODE_SET_TYPE_IMM, REBASE_OPCODE_SET_SEGMENT_AND_OFFSET_ULEB, hr]

theorem rebase_step_imm_times (fuel base stream imm : Nat) (s : RebaseState)
    (hb : read8 s.mem (stream + s.i) = 16 * 5 + imm) (himm : imm < 16) :
    rebase_step fuel base stream s =
      some { s with segmentAddress := (rebase_times base s.type 0 imm s.segmentAddress s.mem).1,
                    mem := (rebase_times base s.type 0 imm s.segmentAddress s.mem).2 } := by
  obtain ⟨h1, h2⟩ := opcode_split 5 imm (by decide) himm
  simp [rebase_step, hb, REBASE_OPCODE_MASK, REBASE_IMMEDIATE_MASK, h1, h2, REBASE_OPCODE_DONE,
    REBASE_OPCODE_SET_TYPE_IMM, REBASE_OPCODE_SET_SEGMENT_AND_OFFSET_ULEB,
    REBASE_OPCODE_ADD_ADDR_ULEB, REBASE_OPCODE_ADD_ADDR_IMM_SCALED,
    REBASE_OPCODE_DO_REBASE_IMM_TIMES]

theorem rebase_step_uleb_times (fuel base stream imm : Nat) (s : RebaseState) (r : Nat × Nat)
    (hb : read8 s.mem (stream + s.i) = 16 * 6 + imm) (himm : imm < 16)
    (hr : read_uleb s.mem stream fuel s.i 0 0 = some r) :
    rebase_step fuel base stream s =
      some { s with i := r.2,
                    segmentAddress := (rebase_times base s.type 0 r.1 s.segmentAddress s.mem).1,
                    mem := (rebase_times base s.type 0 r.1 s.segmentAddress s.mem).2 } := by
  obtain ⟨h1, h2⟩ := opcode_split 6 imm (by decide) himm
  simp [rebase_step, hb, REBASE_OPCODE_MASK, REBASE_IMMEDIATE_MASK, h1, h2, REBASE_OPCODE_DONE,
    REBASE_OPCODE_SET_TYPE_IMM, REBASE_OPCODE_SET_SEGMENT_AND_OFFSET_ULEB,
    REBASE_OPCODE_ADD_ADDR_ULEB, REBASE_OPCODE_ADD_ADDR_IMM_SCALED,
    REBASE_OPCODE_DO_REBASE_IMM_TIMES, REBASE_OPCODE_DO_REBASE_ULEB_TIMES, hr]

theorem uleb128_lt : ∀ (us : List Nat), uleb128 us < 128 ^ us.length := by
  intro us
  induction us with
  | nil => simp [uleb128]
  | cons b bs ih =>
    simp only [uleb128, List.length_cons, Nat.pow_succ]
    have : b % 128 < 128 := Nat.mod_lt _ (by decide)
    omega

theorem uleb128_lt_of_length_le_four (us : List Nat) (h : us.length ≤ 4) :
    uleb128 us < 268435456 := by
  have h1 := uleb128_lt us
  have h2 : 128 ^ us.length ≤ 128 ^ 4 := Nat.pow_le_pow_right (by decide) h
  have h3 : (128 : Nat) ^ 4 = 268435456 := by norm_num
  omega

/-- C3, amended. For every image, load base and count `N` of words that fit the
address space (`4 * N ≤ 2^32`): when the stream first sets the rebase type to
pointer and then encodes "select segment 0 (offset 0), apply rebase `N` times"
(as immediate count or as ULEB count), `rebase_macho` returns, adds the load base
modulo `2^32` to each of the `N` consecutive 32-bit words at `base+F`, `base+F+4`,
.., where `F` is the file offset of the command the segment walk selects for
ordinal 0, and leaves every byte outside these words unchanged. -/
theorem rebase_select_segment_apply (m : Mem) (base rebase_stream F N fuel : Nat)
    (apply : List Nat) (hfuel : 5 ≤ fuel)
    (hstream : bytes_at m ((rebase_stream + base) % 4294967296)
      (rebase_select_stream apply) = true)
    (hF : segment_fileoff m base 0 = F)
    (henc : encodes_apply_times N apply) (hN : 4 * N ≤ 4294967296) :
    ∃ m', rebase_macho fuel base rebase_stream (rebase_select_stream apply).length m =
        some m' ∧
      (∀ k < N, read32 m' (base + F + 4 * k) =
        (read32 m (base + F + 4 * k) + base) % 4294967296) ∧
      (∀ x, (∀ k < N, ∀ j < 4, x ≠ (base + F + 4 * k + j) % 4294967296) → m' x = m x) := by
  obtain ⟨f, rfl⟩ : ∃ f, fuel = f + 5 := ⟨fuel - 5, by omega⟩
  have hsize : (rebase_select_stream apply).length = 3 + apply.length := by
    simp [rebase_select_stream]; omega
  rw [hsize]
  have hstream : bytes_at m ((rebase_stream + base) % 4294967296)
      ([0x11, 0x20, 0x00] ++ apply) = true := hstream
  generalize hst : (rebase_stream + base) % 4294967296 = st at hstream
  have hFlt : F < 4294967296 := by rw [← hF]; exact read32_lt _ _
  have hget := bytes_at_get m _ st hstream
  have b0 : read8 m (st + 0) = 16 * 1 + 1 := by simpa using hget 0 (by simp)
  have b1 : read8 m (st + 1) = 16 * 2 + 0 := by simpa using hget 1 (by simp)
  have b2 : bytes_at m (st + (1 + 1)) [0] = true := by
    have := hget 2 (by simp)
    simp only [bytes_at, Bool.and_true, beq_iff_eq]
    simpa using this
  have u1 : read_uleb m st (f + 5) 1 0 0 = some (0 + uleb128 [0] * 2 ^ 0, 1 + [0].length) :=
    read_uleb_operand m st [0] (f + 5) 1 0 0 rfl b2 (by simp) (by simp) (by simp) (by simp)
      (by simp [uleb128])
  have e1 := rebase_step_set_type (f + 5) base st 1
    { i := 0, type := 0, segmentAddress := 0, mem := m } b0 (by decide)
  have e2 := rebase_step_set_segment (f + 5) base st 0
    { i := 1, type := 1, segmentAddress := 0, mem := m } _ b1 (by decide) u1
  unfold rebase_macho
  rw [hst, rebase_loop_step _ _ _ _ _ _ _ (by simp) e1]
  simp only [Nat.zero_add, Nat.reduceMod]
  rw [rebase_loop_step _ _ _ _ _ _ _ (by simp; omega) e2]
  simp only [uleb128, hF, List.length_cons, List.length_nil, Nat.reduceAdd, Nat.reduceMod,
    Nat.zero_mod, Nat.mul_zero, Nat.zero_add, Nat.add_zero, Nat.zero_mul, Nat.mod_eq_of_lt hFlt]
  rcases henc with ⟨hN, rfl⟩ | ⟨us, hwf, hlen, rfl, rfl⟩
  · have b3 : read8 m (st + 3) = 16 * 5 + N := by
      simpa [REBASE_OPCODE_DO_REBASE_IMM_TIMES] using hget 3 (by simp)
    have e3 := rebase_step_imm_times (f + 5) base st N
      { i := 3, type := 1, segmentAddress := F, mem := m } b3 hN
    rw [rebase_loop_step _ _ _ _ _ _ _ (by simp) e3]
    rw [rebase_loop_exit _ _ _ _ _ _ (by simp)]
    obtain ⟨_, h2, h3⟩ := rebase_times_pointer base N F m (by omega)
    exact ⟨_, rfl, h2, h3⟩
  · have b3 : read8 m (st + 3) = 16 * 6 + 0 := by
      simpa [REBASE_OPCODE_DO_REBASE_ULEB_TIMES] using hget 3 (by simp)
    have hus : bytes_at m (st + (3 + 1)) us = true := by
      have h := hstream
      rw [show [0x11, 0x20, 0x00] ++ REBASE_OPCODE_DO_REBASE_ULEB_TIMES :: us =
        [0x11, 0x20, 0x00, REBASE_OPCODE_DO_REBASE_ULEB_TIMES] ++ us from rfl,
        bytes_at_append, Bool.and_eq_true] at h
      exact h.2
    have u3 : read_uleb m st (f + 5) 3 0 0 = some (0 + uleb128 us * 2 ^ 0, 3 + us.length) :=
      read_uleb_operand m st us (f + 5) 3 0 0 hwf hus (by omega) (by omega) (by simp) (by omega)
        (by omega)
    have e3 := rebase_step_uleb_times (f + 5) base st 0
      { i := 3, type := 1, segmentAddress := F, mem := m } _ b3 (by decide) u3
    rw [rebase_loop_step _ _ _ _ _ _ _ (by simp) e3]
    rw [rebase_loop_exit _ _ _ _ _ _ (by simp; omega)]
    obtain ⟨_, h2, h3⟩ := rebase_times_pointer base (uleb128 us) F m hN
    simp only [Nat.zero_add, Nat.pow_zero, Nat.mul_one]
    exact ⟨_, rfl, h2, h3⟩

theorem cstr_of_bytes (m : Mem) : ∀ (s : List Nat) (a fuel : Nat),
    bytes_at m a (s ++ [0]) = true → (∀ c ∈ s, c ≠ 0) → s.length < fuel → cstr m a fuel = s := by
  intro s
  induction s with
  | nil =>
    intro a fuel h _ hf
    cases fuel with
    | zero => simp at hf
    | succ fuel =>
      simp only [List.nil_append, bytes_at, Bool.and_true, beq_iff_eq] at h
      simp [cstr, h]
  | cons c cs ih =>
    intro a fuel h hnz hf
    cases fuel with
    | zero => simp at hf
    | succ fuel =>
      simp only [List.cons_append, bytes_at, Bool.and_eq_true, beq_iff_eq] at h
      have hc : c ≠ 0 := hnz c (by simp)
      simp only [cstr, h.1, hc, if_false]
      rw [ih (a + 1) fuel h.2 (fun x hx => hnz x (by simp [hx])) (by simpa using hf)]

theorem strAt_of_bytes (m : Mem) (s : List Nat) (a : Nat) (h : bytes_at m a (s ++ [0]) = true)
    (hnz : ∀ c ∈ s, c ≠ 0) (hlen : s.length < 4294967296) : strAt m a = s :=
  cstr_of_bytes m s a 4294967296 h hnz hlen

theorem strlen_of_bytes (m : Mem) (s : List Nat) (a : Nat) (h : bytes_at m a (s ++ [0]) = true)
    (hnz : ∀ c ∈ s, c ≠ 0) (hlen : s.length < 4294967296) : strlen m a = some s.length := by
  simp [strlen, strAt_of_bytes m s a h hnz hlen, hlen]

theorem bind_loop_step (u : Nat) (resolve : CStr → Nat) (base stream size f : Nat)
    (s s1 : BindState) (hi : s.i < size) (hs : bind_step u resolve base stream s = some s1) :
    bind_loop u resolve base stream size (f + 1) s =
      bind_loop u resolve base stream size f { s1 with i := (s1.i + 1) % 4294967296 } := by
  simp [bind_loop, hi, hs]

theorem bind_loop_exit (u : Nat) (resolve : CStr → Nat) (base stream size f : Nat)
    (s : BindState) (hi : ¬ s.i < size) :
    bind_loop u resolve base stream size (f + 1) s = some s.mem := by
  simp [bind_loop, hi]

theorem bind_step_set_symbol (fuel : Nat) (resolve : CStr → Nat) (base stream imm n : Nat)
    (s : BindState) (hb : read8 s.mem (stream + s.i) = 16 * 4 + imm) (himm : imm < 16)
    (hn : strlen s.mem (stream + (s.i + 1) % 4294967296) = some n) :
    bind_step fuel resolve base stream s =
      some { s with symboFlags := imm,
                    symbolName := (stream + (s.i + 1) % 4294967296) % 4294967296,
                    i := ((s.i + 1) % 4294967296 + n) % 4294967296,
                    symbolAddr := resolve (strAt s.mem (stream + (s.i + 1) % 4294967296)) } := by
  obtain ⟨h1, h2⟩ := opcode_split 4 imm (by decide) himm
  simp [bind_step, hb, BIND_OPCODE_MASK, BIND_IMMEDIATE_MASK, h1, h2, BIND_OPCODE_DONE,
    BIND_OPCODE_SET_DYLIB_ORDINAL_IMM, BIND_OPCODE_SET_DYLIB_ORDINAL_ULEB,
    BIND_OPCODE_SET_DYLIB_SPECIAL_IMM, BIND_OPCODE_SET_SYMBOL_TRAILING_FLAGS_IMM, hn]

theorem bind_step_set_type (fuel : Nat) (resolve : CStr → Nat) (base stream imm : Nat)
    (s : BindState) (hb : read8 s.mem (stream + s.i) = 16 * 5 + imm) (himm : imm < 16) :
    bind_step fuel resolve base stream s = some { s with type := imm } := by
  obtain ⟨h1, h2⟩ := opcode_split 5 imm (by decide) himm
  simp [bind_step, hb, BIND_OPCODE_MASK, BIND_IMMEDIATE_MASK, h1, h2, BIND_OPCODE_DONE,
    BIND_OPCODE_SET_DYLIB_ORDINAL_IMM, BIND_OPCODE_SET_DYLIB_ORDINAL_ULEB,
    BIND_OPCODE_SET_DYLIB_SPECIAL_IMM, BIND_OPCODE_SET_SYMBOL_TRAILING_FLAGS_IMM,
    BIND_OPCODE_SET_TYPE_IMM]

theorem bind_step_set_addend (fuel : Nat) (resolve : CStr → Nat) (base stream imm : Nat)
    (s : BindState) (r : Nat × Nat) (hb : read8 s.mem (stream + s.i) = 16 * 6 + imm)
    (himm : imm < 16) (hr : read_uleb s.mem stream fuel s.i 0 0 = some r) :
    bind_step fuel resolve base stream s =
      some { s with i := r.2,
                    addend :=
                      if read8 s.mem (stream + (r.2 + 4294967295) % 4294967296) &&& 0x40 = 0
                      then (4294967296 - r.1) % 4294967296 else r.1 } := by
  obtain ⟨h1, h2⟩ := opcode_split 6 imm (by decide) himm
  simp [bind_step, hb, BIND_OPCODE_MASK, BIND_IMMEDIATE_MASK, h1, h2, BIND_OPCODE_DONE,
    BIND_OPCODE_SET_DYLIB_ORDINAL_IMM, BIND_OPCODE_SET_DYLIB_ORDINAL_ULEB,
    BIND_OPCODE_SET_DYLIB_SPECIAL_IMM, BIND_OPCODE_SET_SYMBOL_TRAILING_FLAGS_IMM,
    BIND_OPCODE_SET_TYPE_IMM, BIND_OPCODE_SET_ADDEND_SLEB, hr]

theorem bind_step_set_segment (fuel : Nat) (resolve : CStr → Nat) (base stream imm : Nat)
    (s : BindState) (r : Nat × Nat) (hb : read8 s.mem (stream + s.i) = 16 * 7 + imm)
    (himm : imm < 16) (hr : read_uleb s.mem stream fuel s.i 0 0 = some r) :
    bind_step fuel resolve base stream s =
      some { s with i := r.2,
                    segmentAddress :=
                      (segment_fileoff s.mem base imm + r.1) % 4294967296 } := by
  obtain ⟨h1, h2⟩ := opcode_split 7 imm (by decide) himm
  simp [bind_step, hb, BIND_OPCODE_MASK, BIND_IMMEDIATE_MASK, h1, h2, BIND_OPCODE_DONE,
    BIND_OPCODE_SET_DYLIB_ORDINAL_IMM, BIND_OPCODE_SET_DYLIB_ORDINAL_ULEB,
    BIND_OPCODE_SET_DYLIB_SPECIAL_IMM, BIND_OPCODE_SET_SYMBOL_TRAILING_FLAGS_IMM,
    BIND_OPCODE_SET_TYPE_IMM, BIND_OPCODE_SET_ADDEND_SLEB,
    BIND_OPCODE_SET_SEGMENT_AND_OFFSET_ULEB, hr]

theorem bind_step_do_bind (fuel : Nat) (resolve : CStr → Nat) (base stream imm : Nat)
    (s : BindState) (hb : read8 s.mem (stream + s.i) = 16 * 9 + imm) (himm : imm < 16) :
    bind_step fuel resolve base stream s =
      some { s with mem := do_bind base s,
                    segmentAddress := (s.segmentAddress + 4) % 4294967296 } := by
  obtain ⟨h1, h2⟩ := opcode_split 9 imm (by decide) himm
  simp [bind_step, hb, BIND_OPCODE_MASK, BIND_IMMEDIATE_MASK, h1, h2, BIND_OPCODE_DONE,
    BIND_OPCODE_SET_DYLIB_ORDINAL_IMM, BIND_OPCODE_SET_DYLIB_ORDINAL_ULEB,
    BIND_OPCODE_SET_DYLIB_SPECIAL_IMM, BIND_OPCODE_SET_SYMBOL_TRAILING_FLAGS_IMM,
    BIND_OPCODE_SET_TYPE_IMM, BIND_OPCODE_SET_ADDEND_SLEB,
    BIND_OPCODE_SET_SEGMENT_AND_OFFSET_ULEB, BIND_OPCODE_ADD_ADDR_ULEB, BIND_OPCODE_DO_BIND]

theorem bind_foo_stream_parts (m : Mem) (st flags ty k : Nat) (us : List Nat)
    (h : bytes_at m st (bind_foo_stream flags ty k us) = true) :
    read8 m (st + 0) = 64 + flags ∧ bytes_at m (st + 1) (FOO ++ [0]) = true ∧
      read8 m (st + 5) = 80 + ty ∧ read8 m (st + 6) = 96 ∧
      bytes_at m (st + 7) [4] = true ∧ read8 m (st + 8) = 112 + k ∧
      bytes_at m (st + 9) us = true ∧ read8 m (st + (9 + us.length)) = 144 := by
  have e : bind_foo_stream flags ty k us =
      (64 + flags) :: 102 :: 111 :: 111 :: 0 :: (80 + ty) :: 96 :: 4 :: (112 + k) ::
        (us ++ [144]) := rfl
  rw [e] at h
  simp only [bytes_at, bytes_at_append, Bool.and_eq_true, beq_iff_eq, Nat.add_assoc,
    Nat.reduceAdd] at h
  obtain ⟨h0, h1, h2, h3, h4, h5, h6, h7, h8, h9, h10, -⟩ := h
  simp only [FOO, List.cons_append, List.nil_append, bytes_at, Bool.and_eq_true, beq_iff_eq,
    Nat.add_assoc, Nat.reduceAdd, Nat.add_zero, and_true]
  exact ⟨h0, ⟨h1, h2, h3, h4⟩, h5, h6, h7, h8, h9, h10⟩

theorem bind_foo_stream_writes (resolve : CStr → Nat) (m : Mem)
    (base bind_stream fuel flags ty k A : Nat) (us : List Nat)
    (hfuel : 6 ≤ fuel) (hflags : flags < 16) (hty : ty < 16) (hk : k < 16)
    (hstream : bytes_at m ((bind_stream + base) % 4294967296)
      (bind_foo_stream flags ty k us) = true)
    (hwf : uleb_wf us = true) (hlen : us.length ≤ 4)
    (htarget : (segment_fileoff m base k + uleb128 us) % 4294967296 = 0x100)
    (hA : resolve FOO = A) (hAs : A ≠ 0xFFFFFFFF) :
    ∃ m', bind_macho fuel resolve base bind_stream (10 + us.length) m = some m' ∧
      read32 m' (base + 0x100) = (A + 4) % 4294967296 ∧
      ∀ x, (∀ j < 4, x ≠ (base + 0x100 + j) % 4294967296) → m' x = m x := by
  obtain ⟨f, rfl⟩ : ∃ f, fuel = f + 6 := ⟨fuel - 6, by omega⟩
  generalize hst : (bind_stream + base) % 4294967296 = st at hstream
  obtain ⟨p0, p1, p5, p6, p7, p8, p9, p10⟩ := bind_foo_stream_parts m st flags ty k us hstream
  have hfoo : ∀ c ∈ FOO, c ≠ 0 := by decide
  have hstr : strAt m (st + 1) = FOO := strAt_of_bytes m FOO (st + 1) p1 hfoo (by decide)
  have hlen3 : strlen m (st + 1) = some 3 := strlen_of_bytes m FOO (st + 1) p1 hfoo (by decide)
  have e1 := bind_step_set_symbol (f + 6) resolve base st flags 3
    { i := 0, type := 0, segmentAddress := 0, addend := 0, libraryOrdinal := 0, symbolName := 0,
      symboFlags := 0, symbolAddr := 0xFFFFFFFF, mem := m } p0 hflags hlen3
  have e2 := bind_step_set_type (f + 6) resolve base st ty
    { i := 5, type := 0, segmentAddress := 0, addend := 0, libraryOrdinal := 0,
      symbolName := (st + 1) % 4294967296, symboFlags := flags, symbolAddr := A, mem := m }
    p5 hty
  have u3 : read_uleb m st (f + 6) 6 0 0 = some (0 + uleb128 [4] * 2 ^ 0, 6 + [4].length) :=
    read_uleb_operand m st [4] (f + 6) 6 0 0 rfl p7 (by simp) (by simp) (by simp) (by simp)
      (by simp [uleb128])
  have e3 := bind_step_set_addend (f + 6) resolve base st 0
    { i := 6, type := ty, segmentAddress := 0, addend := 0, libraryOrdinal := 0,
      symbolName := (st + 1) % 4294967296, symboFlags := flags, symbolAddr := A, mem := m }
    _ p6 (by decide) u3
  have u4 : read_uleb m st (f + 6) 8 0 0 = some (0 + uleb128 us * 2 ^ 0, 8 + us.length) :=
    read_uleb_operand m st us (f + 6) 8 0 0 hwf p9 (by omega) (by omega) (by simp) (by omega)
      (by have := uleb128_lt_of_length_le_four us hlen; omega)
  have e4 := bind_step_set_segment (f + 6) resolve base st k
    { i := 8, type := ty, segmentAddress := 0, addend := 4, libraryOrdinal := 0,
      symbolName := (st + 1) % 4294967296, symboFlags := flags, symbolAddr := A, mem := m }
    _ p8 hk u4
  have e5 := bind_step_do_bind (f + 6) resolve base st 0
    { i := 9 + us.length, type := ty, segmentAddress := 256, addend := 4, libraryOrdinal := 0,
      symbolName := (st + 1) % 4294967296, symboFlags := flags, symbolAddr := A, mem := m }
    p10 (by decide)
  have h64 : (96 : Nat) &&& 64 ≠ 0 := by decide
  have hi9 : (8 + us.length + 1) % 4294967296 = 9 + us.length := by omega
  have hi10 : (9 + us.length + 1) % 4294967296 = 10 + us.length := by omega
  unfold bind_macho
  rw [hst, bind_loop_step _ _ _ _ _ _ _ _ (by simp) e1]
  simp only [Nat.zero_add, Nat.reduceMod, Nat.reduceAdd, hstr, hA]
  rw [bind_loop_step _ _ _ _ _ _ _ _ (by simp; omega) e2]
  simp only [Nat.reduceMod, Nat.reduceAdd]
  rw [bind_loop_step _ _ _ _ _ _ _ _ (by simp; omega) e3]
  simp only [uleb128, List.length_cons, List.length_nil, Nat.reduceAdd, Nat.reduceMod,
    Nat.zero_mod, Nat.mul_zero, Nat.zero_add, Nat.add_zero, Nat.pow_zero, Nat.mul_one, p6, h64,
    if_false]
  rw [bind_loop_step _ _ _ _ _ _ _ _ (by simp; omega) e4]
  simp only [Nat.zero_add, Nat.pow_zero, Nat.mul_one, htarget, hi9]
  rw [bind_loop_step _ _ _ _ _ _ _ _ (by simp) e5]
  simp only [hi10]
  rw [bind_loop_exit _ _ _ _ _ _ _ (by simp)]
  refine ⟨_, rfl, ?_, ?_⟩
  · simp only [do_bind, hAs, ne_eq, not_false_eq_true, if_true, bind_location,
      BIND_TYPE_POINTER, true_or]
    rw [read32_congr _ (base + 256) ((256 + base) % 4294967296) (by omega), read32_write32_same]
    omega
  · intro x hx
    simp only [do_bind, hAs, ne_eq, not_false_eq_true, if_true, bind_location,
      BIND_TYPE_POINTER, true_or]
    apply write32_frame
    intro j hj
    have := hx j hj
    omega

/-- The statement of C3 on the example image, with the count 2 as immediate. -/
theorem rebase_select_segment_apply_witness :
    ∃ m', rebase_macho 5 0x1000 0x50
        (rebase_select_stream [REBASE_OPCODE_DO_REBASE_IMM_TIMES + 2]).length
        (rebase_example [0x11, 0x20, 0x00, 0x52]) = some m' ∧
      (∀ k < 2, read32 m' (0x1000 + 0x60 + 4 * k) =
        (read32 (rebase_example [0x11, 0x20, 0x00, 0x52]) (0x1000 + 0x60 + 4 * k) + 0x1000)
          % 4294967296) ∧
      (∀ x, (∀ k < 2, ∀ j < 4, x ≠ (0x1000 + 0x60 + 4 * k + j) % 4294967296) →
        m' x = rebase_example [0x11, 0x20, 0x00, 0x52] x) :=
  rebase_select_segment_apply (rebase_example [0x11, 0x20, 0x00, 0x52]) 0x1000 0x50 0x60 2 5
    [REBASE_OPCODE_DO_REBASE_IMM_TIMES + 2] (by decide) (by decide) (by decide)
    (Or.inl ⟨by decide, rfl⟩) (by decide)

/-- C3, the claim as stated fails. On an image at `0x1000` whose segment 0 has
file offset `0x60`, the stream that encodes only "select segment 0 (offset 0),
apply rebase 2 times" leaves the words at `0x1060` and `0x1064` at their old
values 7 and 9 instead of adding `0x1000`: the rebase type is still 0, for which
`rebase_location` writes nothing. -/
theorem rebase_without_type_changes_nothing :
    segment_fileoff (rebase_example [0x20, 0x00, 0x52]) 0x1000 0 = 0x60 ∧
      (read32 (rebase_example [0x20, 0x00, 0x52]) 0x1060,
        read32 (rebase_example [0x20, 0x00, 0x52]) 0x1064) = (7, 9) ∧
      (rebase_macho 5 0x1000 0x50 3 (rebase_example [0x20, 0x00, 0x52])).map
        (fun m => (read32 m 0x1060, read32 m 0x1064)) = some (7, 9) := by
  refine ⟨?_, ?_, ?_⟩ <;> decide

/-- C4. For every world, load base and address `A` other than the sentinel that
`lookup_all_symbols` returns for `"foo"`: on a stream that sets the symbol `"foo"`,
sets the type to pointer, sets the addend +4 (one SLEB byte), sets segment and
offset so that the target is `base+0x100`, and does one bind, `bind_macho`
returns and leaves the 32-bit word at `base+0x100` equal to `A+4` modulo `2^32`
(and every byte outside that word unchanged). -/
theorem bind_pointer_writes_address_plus_addend (w : World)
    (base bind_stream fuel flags k A : Nat) (us : List Nat)
    (hfuel : 6 ≤ fuel) (hflags : flags < 16) (hk : k < 16)
    (hstream : bytes_at w.mem ((bind_stream + base) % 4294967296)
      (bind_foo_stream flags BIND_TYPE_POINTER k us) = true)
    (hwf : uleb_wf us = true) (hlen : us.length ≤ 4)
    (htarget : (segment_fileoff w.mem base k + uleb128 us) % 4294967296 = 0x100)
    (hA : lookup_all_symbols w FOO = A) (hAs : A ≠ 0xFFFFFFFF) :
    ∃ m', bind_macho fuel (lookup_all_symbols w) base bind_stream (10 + us.length) w.mem =
        some m' ∧
      read32 m' (base + 0x100) = (A + 4) % 4294967296 ∧
      ∀ x, (∀ j < 4, x ≠ (base + 0x100 + j) % 4294967296) → m' x = w.mem x :=
  bind_foo_stream_writes (lookup_all_symbols w) w.mem base bind_stream fuel flags
    BIND_TYPE_POINTER k A us hfuel hflags (by decide) hk hstream hwf hlen htarget hA hAs

/-- The statement of C4 on the example world, with `foo` at `0x5000`. -/
theorem bind_pointer_writes_address_plus_addend_witness :
    ∃ m', bind_macho 6 (lookup_all_symbols (bind_example BIND_TYPE_POINTER)) 0x1000 0x80
        (10 + [0x40].length) (bind_example BIND_TYPE_POINTER).mem = some m' ∧
      read32 m' (0x1000 + 0x100) = (0x5000 + 4) % 4294967296 ∧
      ∀ x, (∀ j < 4, x ≠ (0x1000 + 0x100 + j) % 4294967296) →
        m' x = (bind_example BIND_TYPE_POINTER).mem x :=
  bind_pointer_writes_address_plus_addend (bind_example BIND_TYPE_POINTER) 0x1000 0x80 6 0 0
    0x5000 [0x40] (by decide) (by decide) (by decide) (by decide) (by decide) (by decide)
    (by decide) (by decide) (by decide)

/-- C5, the code at the failing input. With `"foo"` at `0x5000`, the image at
`0x1000` and the type set to PC-relative-32, the bind writes `0x5004` at
`0x1100`, the value of a pointer bind, and not `(0x5004) - (0x1100 + 4)`: the
bind opcodes pass `BIND_TYPE_POINTER` to `bind_location` whatever the type is. -/
theorem bind_pcrel32_writes_pointer_value :
    (bind_macho 6 (lookup_all_symbols (bind_example BIND_TYPE_TEXT_PCREL32)) 0x1000 0x80 11
        (bind_example BIND_TYPE_TEXT_PCREL32).mem).map (fun m => read32 m 0x1100) =
        some 0x5004 ∧
      lookup_all_symbols (bind_example BIND_TYPE_TEXT_PCREL32) FOO = 0x5000 ∧
      (0x5004 : Nat) ≠ (0x5004 + (4294967296 - (0x1100 + 4))) % 4294967296 := by
  refine ⟨?_, ?_, ?_⟩ <;> decide

/-! ## Symbol importer, parser and orchestrator: proofs -/

theorem handle_symtable_loop_spec (base cmd : Nat) (m : Mem) :
    ∀ (n fuel i ms : Nat) (w : World), w.mem = m → i + n = read32 m (cmd + 12) → n ≤ fuel →
      allocs_succeed (imported_symbols base (symtab_entries_from m base cmd i n)).length w.heap
        = true →
      (handle_symtable_loop base cmd ((base + read32 m (cmd + 16)) % 4294967296) add_symbol
          false fuel (nlist_addr m base cmd i) i ms w).1 =
        (match (symtab_entries_from m base cmd i n).reverse.find? is_start_entry with
          | some e => (base + e.2) % 4294967296
          | none => ms) ∧
      (handle_symtable_loop base cmd ((base + read32 m (cmd + 16)) % 4294967296) add_symbol
          false fuel (nlist_addr m base cmd i) i ms w).2.moduleSymbols =
        (imported_symbols base (symtab_entries_from m base cmd i n)).reverse ++
          w.moduleSymbols := by
  intro n
  induction n with
  | zero =>
    intro fuel i ms w hm hi _ _
    have hnot : ¬ i < read32 m (cmd + 12) := by omega
    cases fuel with
    | zero => simp [handle_symtable_loop, symtab_entries_from, imported_symbols]
    | succ fuel =>
      simp [handle_symtable_loop, symtab_entries_from, imported_symbols, hm, hnot]
  | succ n ih =>
    intro fuel i ms w hm hi hfuel hheap
    cases fuel with
    | zero => omega
    | succ fuel =>
      have hlt : i < read32 m (cmd + 12) := by omega
      have hnext : (nlist_addr m base cmd i + 12) % 4294967296 = nlist_addr m base cmd (i + 1) := by
        unfold nlist_addr; omega
      simp only [handle_symtable_loop, hm, hlt, if_true, hnext]
      simp only [symtab_entries_from, List.reverse_cons, List.find?_append] at hheap ⊢
      by_cases hv : nlist_value m base cmd i = 0
      · -- an entry without value is skipped
        have hp : is_start_entry (nlist_name m base cmd i, nlist_value m base cmd i) = false := by
          simp [is_start_entry, hv]
        have hq : is_import_entry (nlist_name m base cmd i, nlist_value m base cmd i) = false := by
          simp [is_import_entry, hv]
        have himp : imported_symbols base ((nlist_name m base cmd i, nlist_value m base cmd i) ::
            symtab_entries_from m base cmd (i + 1) n) =
            imported_symbols base (symtab_entries_from m base cmd (i + 1) n) := by
          simp [imported_symbols, List.filter_cons, hq]
        rw [himp] at hheap ⊢
        obtain ⟨r1, r2⟩ := ih fuel (i + 1) ms w hm (by omega) (by omega) hheap
        have hv0 : read32 m (nlist_addr m base cmd i + 8) = 0 := hv
        simp only [hv0, ne_eq, not_true_eq_false, if_false]
        refine ⟨?_, r2⟩
        rw [r1]
        cases (symtab_entries_from m base cmd (i + 1) n).reverse.find? is_start_entry with
        | some e => simp
        | none => simp [List.find?_cons, hp]
      · have hv0 : read32 m (nlist_addr m base cmd i + 8) ≠ 0 := hv
        by_cases hs : nlist_name m base cmd i = START_NAME
        · -- the entry point: recorded, not inserted
          have hp : is_start_entry (nlist_name m base cmd i, nlist_value m base cmd i) = true := by
            simp [is_start_entry, hv, hs]
          have hq : is_import_entry (nlist_name m base cmd i, nlist_value m base cmd i) =
              false := by
            simp [is_import_entry, hs]
          have himp : imported_symbols base
              ((nlist_name m base cmd i, nlist_value m base cmd i) ::
                symtab_entries_from m base cmd (i + 1) n) =
              imported_symbols base (symtab_entries_from m base cmd (i + 1) n) := by
            simp [imported_symbols, List.filter_cons, hq]
          rw [himp] at hheap ⊢
          obtain ⟨r1, r2⟩ := ih fuel (i + 1)
            ((base + read32 m (nlist_addr m base cmd i + 8)) % 4294967296) w hm (by omega)
            (by omega) hheap
          have hs0 : strAt m ((base + read32 m (cmd + 16)) % 4294967296 +
              read32 m (nlist_addr m base cmd i)) = START_NAME := hs
          simp only [hv0, hs0, if_true, ne_eq, not_false_eq_true]
          refine ⟨?_, r2⟩
          rw [r1]
          cases (symtab_entries_from m base cmd (i + 1) n).reverse.find? is_start_entry with
          | some e => simp
          | none =>
            simp [List.find?_cons, hp]
            rfl
        · -- any other entry: inserted
          have hp : is_start_entry (nlist_name m base cmd i, nlist_value m base cmd i) =
              false := by
            simp [is_start_entry, hs]
          have hq : is_import_entry (nlist_name m base cmd i, nlist_value m base cmd i) =
              true := by
            simp [is_import_entry, hv, hs]
          have himp : imported_symbols base
              ((nlist_name m base cmd i, nlist_value m base cmd i) ::
                symtab_entries_from m base cmd (i + 1) n) =
              { symbol := nlist_name m base cmd i,
                addr := (base + nlist_value m base cmd i) % 4294967296 } ::
                imported_symbols base (symtab_entries_from m base cmd (i + 1) n) := by
            simp [imported_symbols, List.filter_cons, hq]
          rw [himp] at hheap ⊢
          have hs0 : ¬ strAt m ((base + read32 m (cmd + 16)) % 4294967296 +
              read32 m (nlist_addr m base cmd i)) = START_NAME := hs
          simp only [hv0, hs0, if_true, if_false, ne_eq, not_false_eq_true]
          cases hh : w.heap with
          | nil => rw [hh] at hheap; simp [allocs_succeed] at hheap
          | cons p rest =>
            rw [hh] at hheap
            simp only [List.length_cons, allocs_succeed, Bool.and_eq_true,
              decide_eq_true_eq] at hheap
            rw [add_symbol_ok _ _ p rest w hh hheap.1]
            obtain ⟨r1, r2⟩ := ih fuel (i + 1) ms
              { w with heap := rest,
                       moduleSymbols :=
                         { symbol := strAt m ((base + read32 m (cmd + 16)) % 4294967296 +
                             read32 m (nlist_addr m base cmd i)),
                           addr := (base + read32 m (nlist_addr m base cmd i + 8))
                             % 4294967296 } :: w.moduleSymbols }
              hm (by omega) (by omega) hheap.2
            refine ⟨?_, ?_⟩
            · rw [r1]
              cases (symtab_entries_from m base cmd (i + 1) n).reverse.find? is_start_entry with
              | some e => simp
              | none => simp [List.find?_cons, hp]
            · rw [r2]
              simp [nlist_name, nlist_value]

/-- C9, amended. For every 32-bit image, load base and symbol table, when the
allocations of the insertions succeed, `handle_symtable` with `add_symbol` as
handler inserts into the Symbol Table, in file order (so most recent first in
`moduleSymbols`), exactly the entries with non-zero value whose name is not
`"start"`, each as (name, `base + value` modulo `2^32`), never an entry named
`"start"`, and returns `base + value` of the last entry named `"start"` that has a
non-zero value, or the sentinel when there is none. -/
theorem handle_symtable_imports_and_entry_point (w : World) (base symtabCommand : Nat)
    (hheap : allocs_succeed
      (imported_symbols base (symtab_entries w.mem base symtabCommand)).length w.heap = true) :
    (handle_symtable base symtabCommand add_symbol false w).2.moduleSymbols =
        (imported_symbols base (symtab_entries w.mem base symtabCommand)).reverse ++
          w.moduleSymbols ∧
      (∀ e ∈ imported_symbols base (symtab_entries w.mem base symtabCommand),
        e.symbol ≠ START_NAME) ∧
      (handle_symtable base symtabCommand add_symbol false w).1 =
        entry_point base (symtab_entries w.mem base symtabCommand) := by
  have h0 : nlist_addr w.mem base symtabCommand 0 =
      (base + read32 w.mem (symtabCommand + 8)) % 4294967296 := by
    simp [nlist_addr]
  have hlt := read32_lt w.mem (symtabCommand + 12)
  obtain ⟨r1, r2⟩ := handle_symtable_loop_spec base symtabCommand w.mem
    (read32 w.mem (symtabCommand + 12)) 4294967296 0 0xFFFFFFFF w rfl (by omega) (by omega) hheap
  rw [h0] at r1 r2
  refine ⟨?_, ?_, ?_⟩
  · simpa [handle_symtable, symtab_entries] using r2
  · intro e he
    simp only [imported_symbols, List.mem_map, List.mem_filter] at he
    obtain ⟨a, ⟨_, ha⟩, rfl⟩ := he
    simp only [is_import_entry, Bool.and_eq_true, decide_eq_true_eq] at ha
    exact ha.2
  · simpa [handle_symtable, symtab_entries, entry_point] using r1

theorem malloc_reg (w : World) : reg_eq w (malloc w).2 := by
  unfold malloc reg_eq
  cases w.heap <;> simp

theorem malloc_mem (w : World) : (malloc w).2.mem = w.mem := by
  unfold malloc
  cases w.heap <;> simp

theorem add_symbol_reg (n : CStr) (a : Nat) (b : Bool) (w : World) :
    reg_eq w (add_symbol n a b w).2 := by
  unfold add_symbol
  have h := malloc_reg w
  unfold reg_eq at h ⊢
  cases b <;> simp only [Bool.false_eq_true, if_false, if_true]
  · split <;> simp [h.1, h.2]
  · simp

theorem add_symbol_mem (n : CStr) (a : Nat) (b : Bool) (w : World) :
    (add_symbol n a b w).2.mem = w.mem := by
  unfold add_symbol
  have h := malloc_mem w
  cases b <;> simp only [Bool.false_eq_true, if_false, if_true]
  split <;> simp [h]

theorem reg_eq_refl (w : World) : reg_eq w w := ⟨rfl, rfl⟩

theorem reg_eq_trans {a b c : World} (h1 : reg_eq a b) (h2 : reg_eq b c) : reg_eq a c :=
  ⟨h2.1.trans h1.1, h2.2.trans h1.2⟩

theorem handle_symtable_loop_reg (base cmd str : Nat) (h : SymbolHandler) (is64 : Bool)
    (hh : ∀ n a b w, reg_eq w (h n a b w).2) :
    ∀ (fuel e i ms : Nat) (w : World),
      reg_eq w (handle_symtable_loop base cmd str h is64 fuel e i ms w).2 := by
  intro fuel
  induction fuel with
  | zero => intro e i ms w; exact reg_eq_refl w
  | succ fuel ih =>
    intro e i ms w
    simp only [handle_symtable_loop]
    split
    · split
      · split
        · exact ih _ _ _ _
        · exact reg_eq_trans (hh _ _ _ _) (ih _ _ _ _)
      · exact ih _ _ _ _
    · exact reg_eq_refl w

theorem handle_symtable_loop64_reg (base cmd str : Nat) (h : SymbolHandler) (is64 : Bool)
    (hh : ∀ n a b w, reg_eq w (h n a b w).2) :
    ∀ (fuel e i ms : Nat) (w : World),
      reg_eq w (handle_symtable_loop64 base cmd str h is64 fuel e i ms w).2 := by
  intro fuel
  induction fuel with
  | zero => intro e i ms w; exact reg_eq_refl w
  | succ fuel ih =>
    intro e i ms w
    simp only [handle_symtable_loop64]
    split
    · split
      · exact ih _ _ _ _
      · exact reg_eq_trans (hh _ _ _ _) (ih _ _ _ _)
    · exact reg_eq_refl w

theorem handle_symtable_reg (base cmd : Nat) (is64 : Bool) (w : World) :
    reg_eq w (handle_symtable base cmd add_symbol is64 w).2 := by
  unfold handle_symtable
  split
  · exact handle_symtable_loop_reg _ _ _ _ _ add_symbol_reg _ _ _ _ _
  · exact handle_symtable_loop64_reg _ _ _ _ _ add_symbol_reg _ _ _ _ _

theorem scan_sections_reg (c : Nat) : ∀ (fuel i : Nat) (w w' : World),
    scan_sections c fuel i w = some w' → reg_eq w w' := by
  intro fuel
  induction fuel with
  | zero => intro i w w' h; simp [scan_sections] at h
  | succ fuel ih =>
    intro i w w' h
    simp only [scan_sections] at h
    split at h
    · split at h
      · cases h; exact ⟨rfl, rfl⟩
      · exact ih _ _ _ h
    · cases h; exact reg_eq_refl w

theorem scan_sections64_reg (c : Nat) : ∀ (fuel i : Nat) (w w' : World),
    scan_sections64 c fuel i w = some w' → reg_eq w w' := by
  intro fuel
  induction fuel with
  | zero => intro i w w' h; simp [scan_sections64] at h
  | succ fuel ih =>
    intro i w w' h
    simp only [scan_sections64] at h
    split at h
    · split at h
      · cases h; exact ⟨rfl, rfl⟩
      · exact ih _ _ _ h
    · cases h; exact reg_eq_refl w

theorem parse_command_reg (fuel binary : Nat) (l : Loader) (s s' : ParseState)
    (h : parse_command fuel binary (some l) s = some s') : reg_eq s.w s'.w := by
  unfold parse_command at h
  simp only at h
  split at h
  · cases h; exact reg_eq_refl _
  · split at h
    · split at h
      · cases hs : scan_sections ((binary + s.binaryIndex) % 4294967296) fuel 56 s.w with
        | none => simp [hs] at h
        | some w1 =>
          simp only [hs, Option.map_some', Option.some.injEq] at h
          subst h
          exact scan_sections_reg _ _ _ _ _ hs
      · cases h; exact reg_eq_refl _
    · split at h
      · split at h
        · cases hs : scan_sections64 ((binary + s.binaryIndex) % 4294967296) fuel 72 s.w with
          | none => simp [hs] at h
          | some w1 =>
            simp only [hs, Option.map_some', Option.some.injEq] at h
            subst h
            exact scan_sections64_reg _ _ _ _ _ hs
        · cases h; exact reg_eq_refl _
      · split at h
        · split at h
          · cases h
          · cases h; exact malloc_reg _
        · split at h
          · cases h; exact reg_eq_refl _
          · cases h; exact reg_eq_refl _

theorem parse_commands_reg (u binary : Nat) (l : Loader) : ∀ (fuel : Nat) (s s' : ParseState),
    parse_commands u binary (some l) fuel s = some s' → reg_eq s.w s'.w := by
  intro fuel
  induction fuel with
  | zero => intro s s' h; simp [parse_commands] at h
  | succ fuel ih =>
    intro s s' h
    simp only [parse_commands] at h
    split at h
    · split at h
      · cases h
      · rename_i s1 hs1
        have h1 := parse_command_reg _ _ _ _ _ hs1
        have h2 := ih _ _ h
        exact reg_eq_trans h1 h2
    · cases h; exact reg_eq_refl _

theorem apply_stream_reg (f : Nat → Nat → Nat → Mem → Option Mem) (binary d field : Nat)
    (w w' : World) (h : apply_stream f binary d field w = some w') : reg_eq w w' := by
  unfold apply_stream at h
  split at h
  · cases hf : f binary (read32 w.mem (d + field)) (read32 w.mem (d + field + 4)) w.mem with
    | none => simp [hf] at h
    | some m =>
      simp only [hf, Option.map_some', Option.some.injEq] at h
      subst h
      exact ⟨rfl, rfl⟩
  · cases h; exact reg_eq_refl _

theorem parse_finish_result (fuel binary : Nat) (is64 : Bool) (s : ParseState) (r : Nat)
    (w' : World) (h : parse_finish fuel binary add_symbol is64 s = some (r, w')) :
    r = (handle_symtable binary s.symtabCommand add_symbol is64 s.w).1 ∧ reg_eq s.w w' := by
  unfold parse_finish at h
  simp only [Option.bind_eq_some, Option.map_eq_some'] at h
  obtain ⟨w1, h1, w2, h2, w3, h3, w4, h4, h5⟩ := h
  cases h5
  refine ⟨rfl, ?_⟩
  exact reg_eq_trans (handle_symtable_reg _ _ _ _)
    (reg_eq_trans (apply_stream_reg _ _ _ _ _ _ h1)
      (reg_eq_trans (apply_stream_reg _ _ _ _ _ _ h2)
        (reg_eq_trans (apply_stream_reg _ _ _ _ _ _ h3) (apply_stream_reg _ _ _ _ _ _ h4))))

theorem parse_mach_reg (fuel binary : Nat) (l : Loader) (w w' : World) (r : Nat)
    (h : parse_mach fuel binary (some l) add_symbol w = some (r, w')) : reg_eq w w' := by
  unfold parse_mach at h
  split at h
  · simp only [Option.bind_eq_some] at h
    obtain ⟨s, hs, hf⟩ := h
    exact reg_eq_trans (parse_commands_reg _ _ _ _ _ _ hs) (parse_finish_result _ _ _ _ _ _ hf).2
  · split at h
    · simp only [Option.bind_eq_some] at h
      obtain ⟨s, hs, hf⟩ := h
      exact reg_eq_trans (parse_commands_reg _ _ _ _ _ _ hs) (parse_finish_result _ _ _ _ _ _ hf).2
    · cases h; exact reg_eq_refl _

theorem handle_symtable_loop_no_start (base cmd : Nat) (m : Mem)
    (hno : ∀ i, i < read32 m (cmd + 12) → nlist_name m base cmd i ≠ START_NAME) :
    ∀ (fuel i ms : Nat) (w : World), w.mem = m →
      (handle_symtable_loop base cmd ((base + read32 m (cmd + 16)) % 4294967296) add_symbol
        false fuel (nlist_addr m base cmd i) i ms w).1 = ms := by
  intro fuel
  induction fuel with
  | zero => intro i ms w _; rfl
  | succ fuel ih =>
    intro i ms w hm
    have hnext : (nlist_addr m base cmd i + 12) % 4294967296 = nlist_addr m base cmd (i + 1) := by
      unfold nlist_addr; omega
    simp only [handle_symtable_loop, hm, hnext]
    split
    · rename_i hlt
      have hs : ¬ strAt m ((base + read32 m (cmd + 16)) % 4294967296 +
          read32 m (nlist_addr m base cmd i)) = START_NAME := hno i hlt
      split
      · exact ih _ _ _ ((add_symbol_mem _ _ _ _).trans hm)
      · exact ih _ _ _ hm
    · rfl

theorem handle_symtable_no_start (base cmd : Nat) (w : World)
    (hno : ∀ i, i < read32 w.mem (cmd + 12) → nlist_name w.mem base cmd i ≠ START_NAME) :
    (handle_symtable base cmd add_symbol false w).1 = 0xFFFFFFFF := by
  have h0 : nlist_addr w.mem base cmd 0 = (base + read32 w.mem (cmd + 8)) % 4294967296 := by
    simp [nlist_addr]
  have := handle_symtable_loop_no_start base cmd w.mem hno 4294967296 0 0xFFFFFFFF w rfl
  rw [h0] at this
  simpa [handle_symtable] using this

theorem is_module_loaded_list_cases (m : Mem) (M : Nat) : ∀ (l : List Nat),
    is_module_loaded_list m M l = none ∨ is_module_loaded_list m M l = some EFI_SUCCESS ∨
      is_module_loaded_list m M l = some EFI_NOT_FOUND := by
  intro l
  induction l with
  | nil => exact Or.inr (Or.inr rfl)
  | cons e rest ih =>
    simp only [is_module_loaded_list]
    split
    · exact Or.inl rfl
    · split
      · exact Or.inr (Or.inl rfl)
      · exact ih

theorem is_module_loaded_list_fits (m : Mem) (M : Nat) (hfit : (strAt m M).length ≤ 121) :
    ∀ (l : List Nat), is_module_loaded_list m M l ≠ none := by
  have hno : ¬ 128 < (strAt m M).length + DYLIB_SUFFIX.length + 1 := by
    simp only [DYLIB_SUFFIX, List.length_cons, List.length_nil]; omega
  intro l
  induction l with
  | nil => simp [is_module_loaded_list]
  | cons e rest ih =>
    simp only [is_module_loaded_list, if_neg hno]
    split
    · simp
    · exact ih

theorem not_loaded_of_fits (M : Nat) (w : World) (hfit : (strAt w.mem M).length ≤ 121)
    (hnew : is_module_loaded M w ≠ some EFI_SUCCESS) :
    is_module_loaded M w = some EFI_NOT_FOUND := by
  rcases is_module_loaded_list_cases w.mem M w.loadedModules with h | h | h
  · exact absurd h (is_module_loaded_list_fits w.mem M hfit _)
  · exact absurd h hnew
  · exact h

theorem path_fits (M : Nat) (w : World) (hfit : (strAt w.mem M).length ≤ 112) :
    ¬ 128 < MODULES_DIR.length + (strAt w.mem M).length + 1 := by
  have h : MODULES_DIR.length = 15 := rfl
  omega

theorem image_world_reg (w : World) (f : File) : reg_eq w (image_world w f) := by
  have h := malloc_reg w
  exact ⟨h.1, h.2⟩

/-- For every module that is not registered yet, whose path fits the buffer,
whose file opens and reads in full to a 32-bit image, whose symbol table (the one
the load-command walk records) has no entry named `"start"`, and on which
`parse_mach` returns: `handle_symtable` returns the sentinel `0xFFFFFFFF`, and
`load_module` returns `EFI_NOT_STARTED`, leaves the Module Registry as it was and
invokes no entry point. -/
theorem load_module_without_start (run : Nat → World → World) (fuel : Nat) (M : Nat) (w : World)
    (f : File)
    (hfit : (strAt w.mem M).length ≤ 112)
    (hnew : is_module_loaded M w ≠ some EFI_SUCCESS)
    (hopen : w.files (MODULES_DIR ++ strAt w.mem M) = some f)
    (hsize : f.size ≠ 0) (hread : f.size ≤ f.data.length)
    (hmagic : read32 (image_world w f).mem (malloc w).1 = MH_MAGIC)
    (hret : (parse_mach fuel (malloc w).1 (some (load_module run fuel)) add_symbol
      (image_world w f)).isSome = true)
    (hnostart : ∀ s, parse_commands fuel (malloc w).1 (some (load_module run fuel)) fuel
        { cmd := 0, binaryIndex := 28, symtabCommand := 0, dyldInfoCommand := 0,
          w := image_world w f } = some s →
      ∀ i, i < read32 s.w.mem (s.symtabCommand + 12) →
        nlist_name s.w.mem (malloc w).1 s.symtabCommand i ≠ START_NAME) :
    ∃ s w', parse_commands fuel (malloc w).1 (some (load_module run fuel)) fuel
        { cmd := 0, binaryIndex := 28, symtabCommand := 0, dyldInfoCommand := 0,
          w := image_world w f } = some s ∧
      (handle_symtable (malloc w).1 s.symtabCommand add_symbol false s.w).1 = 0xFFFFFFFF ∧
      load_module run (fuel + 1) M w = some (EFI_NOT_STARTED, w') ∧
      w'.loadedModules = w.loadedModules ∧ w'.started = w.started := by
  obtain ⟨⟨r, w3⟩, hp⟩ := Option.isSome_iff_exists.mp hret
  have hp' := hp
  unfold parse_mach at hp'
  rw [if_pos hmagic] at hp'
  simp only [Option.bind_eq_some] at hp'
  obtain ⟨s, hs, hf⟩ := hp'
  have hsent := handle_symtable_no_start (malloc w).1 s.symtabCommand s.w (hnostart s hs)
  obtain ⟨hr, _⟩ := parse_finish_result _ _ _ _ _ _ hf
  have hreg := reg_eq_trans (image_world_reg w f) (parse_mach_reg _ _ _ _ _ _ hp)
  refine ⟨s, w3, hs, hsent, ?_, hreg.1, hreg.2⟩
  have hmin : min f.data.length f.size = f.size := by omega
  have hr2 : r = 0xFFFFFFFF := hr.trans hsent
  have hp2 : parse_mach fuel (malloc w).1 (some (load_module run fuel)) add_symbol
      { (malloc w).2 with
        mem := writeBytes (malloc w).2.mem (malloc w).1 (f.data.take f.size) } =
      some (r, w3) := hp
  have hnf := not_loaded_of_fits M w (by omega) hnew
  simp only [load_module, hnf, if_neg (path_fits M w hfit), hopen, hsize, hmin, ne_eq,
    not_false_eq_true, and_self, if_true, hp2, hr2]
  simp

theorem module_loaded_ok (M : Nat) (w : World) (h : (malloc w).1 ≠ 0) :
    (module_loaded M w).loadedModules = M :: w.loadedModules ∧
      (module_loaded M w).started = w.started := by
  have hr := malloc_reg w
  simp only [module_loaded, h, ne_eq, not_false_eq_true, if_true]
  exact ⟨by rw [hr.1], hr.2⟩

/-- The statement of C9 on an image with the symbols `start` (value `0x30`), `foo`
(value `0x34`) and `bar` (no value). -/
theorem handle_symtable_imports_and_entry_point_witness :
    (handle_symtable 0x2000 0x201C add_symbol false
        (symtab_world [(1, 0x30), (7, 0x34), (11, 0)] [0x9000])).2.moduleSymbols =
        (imported_symbols 0x2000 (symtab_entries
          (symtab_world [(1, 0x30), (7, 0x34), (11, 0)] [0x9000]).mem 0x2000 0x201C)).reverse ++
          (symtab_world [(1, 0x30), (7, 0x34), (11, 0)] [0x9000]).moduleSymbols ∧
      (∀ e ∈ imported_symbols 0x2000 (symtab_entries
          (symtab_world [(1, 0x30), (7, 0x34), (11, 0)] [0x9000]).mem 0x2000 0x201C),
        e.symbol ≠ START_NAME) ∧
      (handle_symtable 0x2000 0x201C add_symbol false
        (symtab_world [(1, 0x30), (7, 0x34), (11, 0)] [0x9000])).1 =
        entry_point 0x2000 (symtab_entries
          (symtab_world [(1, 0x30), (7, 0x34), (11, 0)] [0x9000]).mem 0x2000 0x201C) :=
  handle_symtable_imports_and_entry_point (symtab_world [(1, 0x30), (7, 0x34), (11, 0)] [0x9000])
    0x2000 0x201C (by decide)

/-- C9, the claim as stated fails. On an image at `0x2000` whose only symbol is
named `"start"` and has value 0, `handle_symtable` returns the sentinel and not
`base + value = 0x2000`: the guard on `n_value` skips the entry. And on an image
whose only symbol is `foo` with value `0x34`, nothing is inserted when `malloc`
fails in `add_symbol`. -/
theorem handle_symtable_start_without_value :
    symtab_entries (symtab_world [(1, 0)] []).mem 0x2000 0x201C = [(START_NAME, 0)] ∧
      (handle_symtable 0x2000 0x201C add_symbol false (symtab_world [(1, 0)] [])).1 =
        0xFFFFFFFF ∧
      symtab_entries (symtab_world [(7, 0x34)] [0]).mem 0x2000 0x201C = [(FOO, 0x34)] ∧
      (handle_symtable 0x2000 0x201C add_symbol false
        (symtab_world [(7, 0x34)] [0])).2.moduleSymbols = [] := by
  refine ⟨?_, ?_, ?_, ?_⟩ <;> decide

/-- The statement of `load_module_without_start` on a module file whose only
symbol is `foo`. -/
theorem load_module_without_start_example :
    ∃ s w', parse_commands 3 (malloc (file_world [(7, 0x34)] [0x2000, 0x9000])).1
        (some (load_module (fun _ w => w) 3)) 3
        { cmd := 0, binaryIndex := 28, symtabCommand := 0, dyldInfoCommand := 0,
          w := image_world (file_world [(7, 0x34)] [0x2000, 0x9000]) (file_of [(7, 0x34)]) } =
          some s ∧
      (handle_symtable (malloc (file_world [(7, 0x34)] [0x2000, 0x9000])).1 s.symtabCommand
        add_symbol false s.w).1 = 0xFFFFFFFF ∧
      load_module (fun _ w => w) (3 + 1) 0x7000 (file_world [(7, 0x34)] [0x2000, 0x9000]) =
        some (EFI_NOT_STARTED, w') ∧
      w'.loadedModules = (file_world [(7, 0x34)] [0x2000, 0x9000]).loadedModules ∧
      w'.started = (file_world [(7, 0x34)] [0x2000, 0x9000]).started :=
  load_module_without_start (fun _ w => w) 3 0x7000 (file_world [(7, 0x34)] [0x2000, 0x9000])
    (file_of [(7, 0x34)]) (by decide!) (by decide!) (by decide!) (by decide) (by decide)
    (by decide!) (by decide!)
    (by
      intro s hs
      have h2 : parse_commands 3 (malloc (file_world [(7, 0x34)] [0x2000, 0x9000])).1
          (some (load_module (fun _ w => w) 3)) 3
          { cmd := 0, binaryIndex := 28, symtabCommand := 0, dyldInfoCommand := 0,
            w := image_world (file_world [(7, 0x34)] [0x2000, 0x9000]) (file_of [(7, 0x34)]) } =
          some { cmd := 1, binaryIndex := 52, symtabCommand := 0x201C, dyldInfoCommand := 0,
                 w := image_world (file_world [(7, 0x34)] [0x2000, 0x9000])
                   (file_of [(7, 0x34)]) } := by rfl
      have h3 := Option.some.inj (hs.symm.trans h2)
      subst h3
      decide!)

theorem option_eq_some_get {α β : Type} (o : Option (α × β)) (h : o.isSome = true) :
    o = some ((o.get h).1, (o.get h).2) := by
  cases o with
  | none => simp at h
  | some x => rfl

theorem parse_command_loader_irrelevant (fuel binary : Nat) (l1 l2 : Loader) (s : ParseState) :
    parse_command fuel binary (some l1) s = parse_command fuel binary (some l2) s := rfl

theorem parse_commands_loader_irrelevant (u binary : Nat) (l1 l2 : Loader) :
    ∀ (fuel : Nat) (s : ParseState),
      parse_commands u binary (some l1) fuel s = parse_commands u binary (some l2) fuel s := by
  intro fuel
  induction fuel with
  | zero => intro s; rfl
  | succ fuel ih =>
    intro s
    simp only [parse_commands, parse_command_loader_irrelevant u binary l1 l2, ih]

theorem parse_mach_loader_irrelevant (fuel binary : Nat) (l1 l2 : Loader) (h : SymbolHandler)
    (w : World) :
    parse_mach fuel binary (some l1) h w = parse_mach fuel binary (some l2) h w := by
  simp only [parse_mach, parse_commands_loader_irrelevant fuel binary l1 l2]

set_option maxRecDepth 100000 in
/-- C11, the code at the failing input. The image `dependent_example` at `0x2000`
has an `LC_LOAD_DYLIB` command naming `"D"`, and `parse_mach` is given the loader
`recording_loader`, which adds the name pointer it is called with to the Module
Registry.
`parse_mach` imports the symbols and returns the entry point `0x2030` while the
registry is still empty: the loader was not called on `"D.dylib"`. The same holds
for every loader: the result of `parse_mach` does not depend on which non-null
loader it is given, because the guard `dylib_loader == EFI_SUCCESS` compares the
function pointer with 0. -/
theorem parse_mach_never_calls_loader :
    (∀ (fuel binary : Nat) (l1 l2 : Loader) (h : SymbolHandler) (w : World),
      parse_mach fuel binary (some l1) h w = parse_mach fuel binary (some l2) h w) ∧
      read32 (image_at 0x2000 dependent_example) (0x2000 + 28) = LC_LOAD_DYLIB ∧
      strAt (image_at 0x2000 dependent_example) (0x2000 + 28 + 24) = [68] ∧
      (recording_loader 0x9000
          (boot_world (image_at 0x2000 dependent_example) [0x9000] (fun _ => none))).map
        (fun r => r.2.loadedModules) = some [0x9000] ∧
      (parse_mach 3 0x2000 (some recording_loader) add_symbol
          (boot_world (image_at 0x2000 dependent_example) [0x9000] (fun _ => none))).map
        (fun r => (r.1, r.2.loadedModules)) = some (0x2030, []) := by
  refine ⟨parse_mach_loader_irrelevant, ?_, ?_, ?_, ?_⟩ <;> decide!

set_option maxRecDepth 100000 in
/-- C12, the code at the failing input. The storage holds the module `"P"`, whose
image has an `LC_LOAD_DYLIB` command naming `"D"`, and the file `"D.dylib"`, whose
magic is bad, so that loading `"D.dylib"` itself fails (`EFI_NOT_STARTED`, the
status for an image `parse_mach` rejects). Still `load_module("P")` returns
`EFI_SUCCESS`, registers `"P"` and invokes its entry point `0x2030`: the
dependency is never loaded (the defect of C11), so its failure is never seen. -/
theorem load_module_ignores_failed_dependency :
    strAt (dependency_world [0x2000, 0x9000, 0x9010]).mem 0x7000 = [80] ∧
      strAt (dependency_world [0x2000, 0x9000, 0x9010]).mem 0x7010 = [68] ++ DYLIB_SUFFIX ∧
      (load_module (fun _ w => w) 2 0x7010
        (dependency_world [0x2000, 0x9000, 0x9010])).map (fun r => r.1) =
        some EFI_NOT_STARTED ∧
      (load_module (fun _ w => w) 5 0x7000 (dependency_world [0x2000, 0x9000, 0x9010])).map
        (fun r => (r.1, registry_names r.2, r.2.started)) =
        some (EFI_SUCCESS, [[80]], [([80], 0x2030)]) := by
  refine ⟨?_, ?_, ?_, ?_⟩ <;> decide!

set_option maxRecDepth 100000 in
/-- C13, the claim as stated fails. When the allocation of the registry entry
fails (the allocator has one block left, which the image takes), `module_loaded`
adds nothing, and `load_module` still invokes the entry point `0x2030` and
returns `EFI_SUCCESS`: the module was started without being in the Module
Registry. -/
theorem load_module_starts_unregistered_module :
    (load_module (fun _ w => w) 3 0x7000 (file_world [(1, 0x30)] [0x2000])).map
        (fun r => (r.1, r.2.loadedModules, r.2.started)) =
        some (EFI_SUCCESS, [], [([109], 0x2030)]) := by
  decide!

theorem parse_finish_steps (fuel binary : Nat) (is64 : Bool) (s : ParseState) (r : Nat)
    (w' : World) (h : parse_finish fuel binary add_symbol is64 s = some (r, w')) :
    r = (handle_symtable binary s.symtabCommand add_symbol is64 s.w).1 ∧
    ∃ w1 w2 w3,
      apply_stream (rebase_macho fuel) binary s.dyldInfoCommand 8
          (handle_symtable binary s.symtabCommand add_symbol is64 s.w).2 = some w1 ∧
        apply_stream (bind_macho fuel (lookup_all_symbols w1)) binary s.dyldInfoCommand 16 w1 =
          some w2 ∧
        apply_stream (bind_macho fuel (lookup_all_symbols w2)) binary s.dyldInfoCommand 24 w2 =
          some w3 ∧
        apply_stream (bind_macho fuel (lookup_all_symbols w3)) binary s.dyldInfoCommand 32 w3 =
          some w' := by
  unfold parse_finish at h
  simp only [Option.bind_eq_some, Option.map_eq_some'] at h
  obtain ⟨w1, h1, w2, h2, w3, h3, w4, h4, h5⟩ := h
  cases h5
  exact ⟨rfl, w1, w2, w3, h1, h2, h3, h4⟩

theorem module_loaded_started (M : Nat) (w : World) :
    (module_loaded M w).started = w.started := by
  by_cases hz : (malloc w).1 ≠ 0
  · exact (module_loaded_ok M w hz).2
  · have e : module_loaded M w = (malloc w).2 := by
      simp only [module_loaded, hz, if_false]
    rw [e]; exact (malloc_reg w).2

/-- C13, amended. For every call of `load_module` that returns: either the status
is not `EFI_SUCCESS`, and then no entry point was invoked and the Module Registry
is as before; or the status is `EFI_SUCCESS`, and then the entry point was
invoked exactly once (one record is appended to those of before), with the
address `handle_symtable` returned, in the state reached by, in this order: the
load-command walk, the symbol import (`handle_symtable`), the rebase stream
(offset field 8 of the dyld-info command), the regular (16), weak (24) and lazy
(32) bind streams, each applied when the image has it, and `module_loaded`, which
adds the module to the registry when its allocation succeeds. -/
theorem load_module_start_order (run : Nat → World → World) (fuel : Nat) (M : Nat)
    (w w' : World) (st : EFI_STATUS) (h : load_module run (fuel + 1) M w = some (st, w')) :
    (st ≠ EFI_SUCCESS ∧ reg_eq w w') ∨
    (st = EFI_SUCCESS ∧ ∃ (f : File) (is64 : Bool) (s : ParseState) (w1 w2 w3 w4 : World),
      w.files (MODULES_DIR ++ strAt w.mem M) = some f ∧
      parse_commands fuel (malloc w).1 (some (load_module run fuel)) fuel
        { cmd := 0, binaryIndex := if is64 then 32 else 28, symtabCommand := 0,
          dyldInfoCommand := 0, w := image_world w f } = some s ∧
      apply_stream (rebase_macho fuel) (malloc w).1 s.dyldInfoCommand 8
        (handle_symtable (malloc w).1 s.symtabCommand add_symbol is64 s.w).2 = some w1 ∧
      apply_stream (bind_macho fuel (lookup_all_symbols w1)) (malloc w).1 s.dyldInfoCommand 16
        w1 = some w2 ∧
      apply_stream (bind_macho fuel (lookup_all_symbols w2)) (malloc w).1 s.dyldInfoCommand 24
        w2 = some w3 ∧
      apply_stream (bind_macho fuel (lookup_all_symbols w3)) (malloc w).1 s.dyldInfoCommand 32
        w3 = some w4 ∧
      (module_loaded M w4).started = w.started ∧
      w' = run (handle_symtable (malloc w).1 s.symtabCommand add_symbol is64 s.w).1
        { module_loaded M w4 with
          started := (module_loaded M w4).started ++
            [(strAt w.mem M,
              (handle_symtable (malloc w).1 s.symtabCommand add_symbol is64 s.w).1)] }) := by
  simp only [load_module] at h
  split at h
  · cases h
  · split at h
    · cases h; exact Or.inl ⟨by decide, reg_eq_refl _⟩
    · split at h
      · cases h
      · split at h
        · cases h; exact Or.inl ⟨by decide, reg_eq_refl _⟩
        · rename_i f hf
          split at h
          · split at h
            · cases h
            · rename_i ms w3 hp
              have hreg := reg_eq_trans (image_world_reg w f) (parse_mach_reg _ _ _ _ _ _ hp)
              split at h
              · cases h
                refine Or.inr ⟨rfl, f, ?_⟩
                have hst : (module_loaded M w3).started = w.started := by
                  rw [module_loaded_started, hreg.2]
                have hp2 : parse_mach fuel (malloc w).1 (some (load_module run fuel)) add_symbol
                    (image_world w f) = some (ms, w3) := hp
                unfold parse_mach at hp2
                split at hp2
                · simp only [Option.bind_eq_some] at hp2
                  obtain ⟨s, hs, hfin⟩ := hp2
                  obtain ⟨hr, w1, w2, w3', h1, h2, h3, h4⟩ :=
                    parse_finish_steps _ _ _ _ _ _ hfin
                  subst hr
                  exact ⟨false, s, w1, w2, w3', w3, hf, hs, h1, h2, h3, h4, hst, rfl⟩
                · split at hp2
                  · simp only [Option.bind_eq_some] at hp2
                    obtain ⟨s, hs, hfin⟩ := hp2
                    obtain ⟨hr, w1, w2, w3', h1, h2, h3, h4⟩ :=
                      parse_finish_steps _ _ _ _ _ _ hfin
                    subst hr
                    exact ⟨true, s, w1, w2, w3', w3, hf, hs, h1, h2, h3, h4, hst, rfl⟩
                  · cases hp2
                    simp_all
              · cases h
                exact Or.inl ⟨by decide, hreg⟩
          · cases h
            refine Or.inl ⟨by decide, ?_⟩
            split
            · exact malloc_reg w
            · exact malloc_reg w

set_option maxRecDepth 100000 in
/-- The load of the example module with the symbols `start` and `foo` returns. -/
theorem example_module_loads :
    (load_module (fun _ w => w) (3 + 1) 0x7000 example_file_world).isSome = true := by
  decide!

set_option maxRecDepth 100000 in
/-- The load of the example module with the symbols `start` and `foo` succeeds. -/
theorem example_module_status :
    ((load_module (fun _ w => w) (3 + 1) 0x7000 example_file_world).get
      example_module_loads).1 = EFI_SUCCESS := by
  decide!

/-- The statement of C13 (amended) on the example module with the symbols `start`
and `foo`, whose load succeeds. -/
theorem load_module_start_order_witness :
    ∃ st w', load_module (fun _ w => w) (3 + 1) 0x7000 example_file_world = some (st, w') ∧
      st = EFI_SUCCESS ∧
      ((st ≠ EFI_SUCCESS ∧ reg_eq example_file_world w') ∨
        (st = EFI_SUCCESS ∧ ∃ (f : File) (is64 : Bool) (s : ParseState) (w1 w2 w3 w4 : World),
          example_file_world.files (MODULES_DIR ++ strAt example_file_world.mem 0x7000) =
            some f ∧
          parse_commands 3 (malloc example_file_world).1
            (some (load_module (fun _ w => w) 3)) 3
            { cmd := 0, binaryIndex := if is64 then 32 else 28, symtabCommand := 0,
              dyldInfoCommand := 0, w := image_world example_file_world f } = some s ∧
          apply_stream (rebase_macho 3) (malloc example_file_world).1 s.dyldInfoCommand 8
            (handle_symtable (malloc example_file_world).1 s.symtabCommand add_symbol is64
              s.w).2 = some w1 ∧
          apply_stream (bind_macho 3 (lookup_all_symbols w1)) (malloc example_file_world).1
            s.dyldInfoCommand 16 w1 = some w2 ∧
          apply_stream (bind_macho 3 (lookup_all_symbols w2)) (malloc example_file_world).1
            s.dyldInfoCommand 24 w2 = some w3 ∧
          apply_stream (bind_macho 3 (lookup_all_symbols w3)) (malloc example_file_world).1
            s.dyldInfoCommand 32 w3 = some w4 ∧
          (module_loaded 0x7000 w4).started = example_file_world.started ∧
          w' = (fun _ w => w)
            (handle_symtable (malloc example_file_world).1 s.symtabCommand add_symbol is64 s.w).1
            { module_loaded 0x7000 w4 with
              started := (module_loaded 0x7000 w4).started ++
                [(strAt example_file_world.mem 0x7000,
                  (handle_symtable (malloc example_file_world).1 s.symtabCommand
                    add_symbol is64 s.w).1)] })) :=
  ⟨_, _, option_eq_some_get _ example_module_loads, example_module_status,
    load_module_start_order (fun _ w => w) 3 0x7000 example_file_world _ _
      (option_eq_some_get _ example_module_loads)⟩

theorem parse_mach_bad_magic (fuel binary : Nat) (loader : Option Loader)
    (handler : SymbolHandler) (w : World) (h32 : read32 w.mem binary ≠ MH_MAGIC)
    (h64 : read32 w.mem binary ≠ MH_MAGIC_64) :
    parse_mach fuel binary loader handler w = some (0, w) := by
  simp [parse_mach, h32, h64]

/-- C15. For every module that is not registered yet, whose path fits the
128-byte buffer of `load_module`, and whose file opens and reads in full to an
image whose magic word is neither `MH_MAGIC` nor `MH_MAGIC_64`: `parse_mach`
returns NULL and leaves the world as it received it, whatever the dependency
loader and the symbol handler are (neither is called, nothing is rebased or
bound), and `load_module` returns `EFI_NOT_STARTED` in that same world, in which
the Module Registry, the Symbol Table and the record of entry points invoked are
those of before the call. -/
theorem bad_magic_aborts_load (run : Nat → World → World) (fuel : Nat) (M : Nat) (w : World)
    (f : File) (loader : Option Loader) (handler : SymbolHandler)
    (hfit : (strAt w.mem M).length ≤ 112)
    (hnew : is_module_loaded M w ≠ some EFI_SUCCESS)
    (hopen : w.files (MODULES_DIR ++ strAt w.mem M) = some f)
    (hsize : f.size ≠ 0) (hread : f.size ≤ f.data.length)
    (h32 : read32 (image_world w f).mem (malloc w).1 ≠ MH_MAGIC)
    (h64 : read32 (image_world w f).mem (malloc w).1 ≠ MH_MAGIC_64) :
    parse_mach fuel (malloc w).1 loader handler (image_world w f) =
        some (0, image_world w f) ∧
      load_module run (fuel + 1) M w = some (EFI_NOT_STARTED, image_world w f) ∧
      (image_world w f).loadedModules = w.loadedModules ∧
      (image_world w f).moduleSymbols = w.moduleSymbols ∧
      (image_world w f).started = w.started := by
  have hreg := image_world_reg w f
  have hsym : (image_world w f).moduleSymbols = w.moduleSymbols := by
    unfold image_world malloc
    cases w.heap <;> rfl
  refine ⟨parse_mach_bad_magic _ _ _ _ _ h32 h64, ?_, hreg.1, hsym, hreg.2⟩
  have hmin : min f.data.length f.size = f.size := by omega
  have hp := parse_mach_bad_magic fuel (malloc w).1 (some (load_module run fuel)) add_symbol
    (image_world w f) h32 h64
  have hp2 : parse_mach fuel (malloc w).1 (some (load_module run fuel)) add_symbol
      { (malloc w).2 with
        mem := writeBytes (malloc w).2.mem (malloc w).1 (f.data.take f.size) } =
      some (0, image_world w f) := hp
  have hnf := not_loaded_of_fits M w (by omega) hnew
  simp only [load_module, hnf, if_neg (path_fits M w hfit), hopen, hsize, hmin, ne_eq,
    not_false_eq_true, and_self, if_true, hp2]
  simp

set_option maxRecDepth 100000 in
/-- The statement of C15 on the file `"D.dylib"` of four bytes `01 02 03 04`, with
the recording loader and `add_symbol` as handler. -/
theorem bad_magic_aborts_load_witness :
    parse_mach 1 (malloc (dependency_world [0x2000])).1 (some recording_loader) add_symbol
        (image_world (dependency_world [0x2000]) { size := 4, data := [1, 2, 3, 4] }) =
        some (0, image_world (dependency_world [0x2000]) { size := 4, data := [1, 2, 3, 4] }) ∧
      load_module (fun _ w => w) (1 + 1) 0x7010 (dependency_world [0x2000]) =
        some (EFI_NOT_STARTED,
          image_world (dependency_world [0x2000]) { size := 4, data := [1, 2, 3, 4] }) ∧
      (image_world (dependency_world [0x2000]) { size := 4, data := [1, 2, 3, 4] }).loadedModules
        = (dependency_world [0x2000]).loadedModules ∧
      (image_world (dependency_world [0x2000]) { size := 4, data := [1, 2, 3, 4] }).moduleSymbols
        = (dependency_world [0x2000]).moduleSymbols ∧
      (image_world (dependency_world [0x2000]) { size := 4, data := [1, 2, 3, 4] }).started =
        (dependency_world [0x2000]).started :=
  bad_magic_aborts_load (fun _ w => w) 1 0x7010 (dependency_world [0x2000])
    { size := 4, data := [1, 2, 3, 4] } (some recording_loader) add_symbol
    (by decide!) (by decide!) (by decide!) (by decide) (by decide) (by decide!) (by decide!)

set_option maxRecDepth 100000 in
/-- C16, the code at the failing input. The file `"m"` holds a 64-bit image
(magic `MH_MAGIC_64`) whose symbol table has `start` at offset `0x30`.
`load_module` returns `EFI_SUCCESS`, registers the module and invokes the address
`0x2030` inside the image: the 64-bit branch of `handle_symtable` computes the
entry point like the 32-bit one and nothing rejects the image, although
`parse_mach` notes that modules cannot be 64-bit. -/
theorem load_module_starts_64bit_image :
    read32 (image_world (file_world64 [(1, 0x30)] [0x2000, 0x9000])
        (file_of64 [(1, 0x30)])).mem 0x2000 = MH_MAGIC_64 ∧
      (load_module (fun _ w => w) 3 0x7000 (file_world64 [(1, 0x30)] [0x2000, 0x9000])).map
        (fun r => (r.1, registry_names r.2, r.2.started)) =
        some (EFI_SUCCESS, [[109]], [([109], 0x2030)]) := by
  refine ⟨?_, ?_⟩ <;> decide!

set_option maxRecDepth 100000 in
/-- C17, the code at the failing input. Rebase: the stream at `0x1050` is
`11 20 00 60` with declared length 4, its last opcode (`DO_REBASE_ULEB_TIMES`)
having its operand cut off. Changing only the byte at stream index 4 from 1 to 2
changes the result (the word at `0x1064` is rebased or not), so `rebase_macho`
read the byte at index 4. Bind: the stream at `0x1080` is `40 "foo" 00 70 00 C0`
with declared length 8, ending in `DO_BIND_ULEB_TIMES_SKIPPING_ULEB` without its
operands; changing only the byte at stream index 8 from 1 to 2 changes the
result (the word at `0x10C4` is bound or not), so `bind_macho` read it. -/
theorem streams_read_past_declared_length :
    (rebase_macho 5 0x1000 0x50 4 (rebase_example [0x11, 0x20, 0x00, 0x60, 0x01])).map
        (fun m => read32 m 0x1064) = some 9 ∧
      (rebase_macho 5 0x1000 0x50 4
          (write8 (rebase_example [0x11, 0x20, 0x00, 0x60, 0x01]) (0x1000 + 0x50 + 4) 0x02)).map
        (fun m => read32 m 0x1064) = some 0x1009 ∧
      (bind_macho 6 (fun _ => 0x5000) 0x1000 0x80 8
          (bind_stream_example [0x40, 102, 111, 111, 0, 0x70, 0x00, 0xC0, 0x01, 0x00])).map
        (fun m => read32 m 0x10C4) = some 0 ∧
      (bind_macho 6 (fun _ => 0x5000) 0x1000 0x80 8
          (write8 (bind_stream_example [0x40, 102, 111, 111, 0, 0x70, 0x00, 0xC0, 0x01, 0x00])
            (0x1000 + 0x80 + 8) 0x02)).map
        (fun m => read32 m 0x10C4) = some 0x5000 := by
  refine ⟨?_, ?_, ?_, ?_⟩ <;> decide!

set_option maxRecDepth 100000 in
/-- C18, the claim as stated fails. With no file in storage, `load_module("m")`
returns `EFI_OUT_OF_RESOURCES`, which is not the not-found status. -/
theorem load_module_unopenable_not_found :
    (load_module (fun _ w => w) 1 0x7000
        (boot_world (name_memory [109]) [] (fun _ => none))).map
        (fun r => r.1) = some EFI_OUT_OF_RESOURCES ∧
      EFI_OUT_OF_RESOURCES ≠ EFI_NOT_FOUND := by
  refine ⟨?_, ?_⟩ <;> decide!

/-- C18, amended. For every module name of at most 112 bytes (so that the path
`"/Extra/modules/"` followed by the name fits the 128-byte buffer of
`load_module`, and the name with `".dylib"` that of `is_module_loaded`) whose
file the storage provider cannot open, `load_module` returns
`EFI_OUT_OF_RESOURCES` (`EFI_ALREADY_STARTED` when the name is already in the
Module Registry, which is tested before the file is opened) and leaves the whole
state, hence the Module Registry and the Symbol Table, unchanged. -/
theorem load_module_unopenable (run : Nat → World → World) (fuel : Nat) (M : Nat) (w : World)
    (hfit : (strAt w.mem M).length ≤ 112)
    (hfile : w.files (MODULES_DIR ++ strAt w.mem M) = none) :
    load_module run (fuel + 1) M w =
      some (if is_module_loaded M w = some EFI_SUCCESS then EFI_ALREADY_STARTED
        else EFI_OUT_OF_RESOURCES, w) := by
  by_cases h : is_module_loaded M w = some EFI_SUCCESS
  · simp [load_module, h]
  · have hnf := not_loaded_of_fits M w (by omega) h
    simp only [load_module, hnf, if_neg (path_fits M w hfit), hfile]
    simp

set_option maxRecDepth 100000 in
/-- The statement of C18 (amended) for the module `"m"` on empty storage. -/
theorem load_module_unopenable_witness :
    load_module (fun _ w => w) (0 + 1) 0x7000
        (boot_world (name_memory [109]) [] (fun _ => none)) =
      some (if is_module_loaded 0x7000 (boot_world (name_memory [109]) [] (fun _ => none)) =
          some EFI_SUCCESS then EFI_ALREADY_STARTED
        else EFI_OUT_OF_RESOURCES, boot_world (name_memory [109]) [] (fun _ => none)) :=
  load_module_unopenable (fun _ w => w) 0 0x7000
    (boot_world (name_memory [109]) [] (fun _ => none)) (by decide!) rfl

set_option maxRecDepth 100000 in
/-- C20, the code at the failing input. The directory entry is the name `"ylib"`
at `0x3002`, which does not end with `".dylib"`; the two bytes before it in
memory are `".d"`. The suffix test looks 6 bytes before the end of the name, at
`0x3000`, two bytes before its first character, finds `".dylib"` there, and
`load_module("ylib")` is called (the module is started). With a NUL at `0x3000`
instead, the name being the same, it is not called: the test depends on bytes
outside the name. -/
theorem load_all_modules_reads_before_short_name :
    strAt (listing_world 46 [0x9000, 0x2000, 0x9010]).mem 0x3002 = [121, 108, 105, 98] ∧
      strAt (listing_world 0 [0x9000, 0x2000, 0x9010]).mem 0x3002 = [121, 108, 105, 98] ∧
      DYLIB_SUFFIX.isSuffixOf [121, 108, 105, 98] = false ∧
      (load_all_modules (load_module (fun _ w => w) 3) [0x3002]
          (listing_world 46 [0x9000, 0x2000, 0x9010])).map (fun w => w.started) =
        some [([121, 108, 105, 98], 0x2030)] ∧
      (load_all_modules (load_module (fun _ w => w) 3) [0x3002]
          (listing_world 0 [0x9000, 0x2000, 0x9010])).map (fun w => w.started) = some [] := by
  refine ⟨?_, ?_, ?_, ?_, ?_⟩ <;> decide!

/-! ## Operand decoding, segment selection, end of stream, command sizes, division: proofs -/

set_option maxRecDepth 100000 in
/-- C21, the code at the failing input. The two-byte operand `80 01` has the
LEB128 value 128. After `REBASE_OPCODE_ADD_ADDR_ULEB` (`30 80 01`) the current
address has advanced by 1, not by 128: the opcode shifts the accumulator
(`tmp <<= bits; tmp |= byte & 0x7f`) instead of the new byte. The sibling
`REBASE_OPCODE_DO_REBASE_ADD_ADDR_ULEB` (`70 80 01`) reads the same operand as
128. On the whole stream `11 20 00 30 80 01 51` (segment 0 has file offset
`0x60`) the word rebased is the one at `0x1061`, not the one at `0x10E0`. -/
theorem rebase_add_addr_uleb_misreads_operand :
    uleb128 [0x80, 0x01] = 128 ∧
      (rebase_step 5 0x1000 0x1050
          { i := 3, type := 1, segmentAddress := 0x60,
            mem := rebase_example [0x11, 0x20, 0x00, 0x30, 0x80, 0x01, 0x51] }).map
        (fun s => (s.i, s.segmentAddress)) = some (5, 0x60 + 1) ∧
      (rebase_step 5 0x1000 0x1050
          { i := 3, type := 1, segmentAddress := 0x60,
            mem := rebase_example [0x11, 0x20, 0x00, 0x70, 0x80, 0x01, 0x51] }).map
        (fun s => (s.i, s.segmentAddress)) = some (5, 0x60 + 128 + 4) ∧
      (read32 (rebase_example [0x11, 0x20, 0x00, 0x30, 0x80, 0x01, 0x51]) 0x10E0,
        read32 (rebase_example [0x11, 0x20, 0x00, 0x30, 0x80, 0x01, 0x51]) 0x1061) =
        (0, 0x09000000) ∧
      (rebase_macho 5 0x1000 0x50 7
          (rebase_example [0x11, 0x20, 0x00, 0x30, 0x80, 0x01, 0x51])).map
        (fun m => (read32 m 0x10E0, read32 m 0x1061)) = some (0, 0x09001000) := by
  refine ⟨?_, ?_, ?_, ?_, ?_⟩ <;> decide!

set_option maxRecDepth 100000 in
/-- C22, the code at the failing input. The operand `7F` is the signed LEB128
encoding of -1, yet after `BIND_OPCODE_SET_ADDEND_SLEB` the addend is 127, and
binding `foo` (at `0x5000`) writes `0x507F` instead of `0x4FFF`. The operand
`80 01` encodes +128, yet the addend is -128 and the bind writes `0x5000 - 128`.
The sign test `if(!(bind_stream[i-1] & 0x40)) addend *= -1;` looks at the byte
before the operand's last byte and negates when the bit is clear, and the value
is never sign-extended. -/
theorem bind_addend_sleb_sign_is_wrong :
    sint32 (sleb128 [0x7F]) = 0xFFFFFFFF ∧
      (bind_step 5 resolve_foo 0x1000 0x1080
          (bind_state_at 5 0x5000
            (bind_stream_example [0x40, 102, 111, 111, 0, 0x60, 0x7F, 0x70, 0x00, 0x90]))).map
        (fun s => (s.i, s.addend)) = some (6, 0x7F) ∧
      (bind_macho 6 resolve_foo 0x1000 0x80 10
          (bind_stream_example [0x40, 102, 111, 111, 0, 0x60, 0x7F, 0x70, 0x00, 0x90])).map
        (fun m => read32 m 0x10C0) = some 0x507F ∧
      sint32 (sleb128 [0x80, 0x01]) = 128 ∧
      (bind_step 5 resolve_foo 0x1000 0x1080
          (bind_state_at 5 0x5000
            (bind_stream_example
              [0x40, 102, 111, 111, 0, 0x60, 0x80, 0x01, 0x70, 0x00, 0x90]))).map
        (fun s => (s.i, s.addend)) = some (7, 4294967296 - 128) ∧
      (bind_macho 6 resolve_foo 0x1000 0x80 11
          (bind_stream_example [0x40, 102, 111, 111, 0, 0x60, 0x80, 0x01, 0x70, 0x00, 0x90])).map
        (fun m => read32 m 0x10C0) = some (0x5000 - 128) := by
  refine ⟨?_, ?_, ?_, ?_, ?_, ?_⟩ <;> decide!

set_option maxRecDepth 100000 in
/-- C23, the code at the failing input. The image at `0x1000` has an `LC_SYMTAB`
command first and then its only segment command, whose file offset is `0x80`.
For the ordinal 0 the segment walk stops on the `LC_SYMTAB` command and takes as
file offset the word 32 bytes after its start, which is the segment name
`"__DA"` of the next command, `0x41445F5F`. With "set segment 0, offset 0" the
rebase and the bind then write at `0x1000 + 0x41445F5F` and leave the word at
`0x1080`, the start of segment 0, as it was. -/
theorem set_segment_counts_every_load_command :
    read32 (symtab_first_example []) (0x1000 + 28) = LC_SYMTAB ∧
      read32 (symtab_first_example []) (0x1000 + 52) = LC_SEGMENT ∧
      read32 (symtab_first_example []) (0x1000 + 52 + 32) = 0x80 ∧
      segment_fileoff (symtab_first_example []) 0x1000 0 = 0x41445F5F ∧
      (rebase_macho 5 0x1000 0x70 4 (symtab_first_example [0x11, 0x20, 0x00, 0x51])).map
        (fun m => (read32 m 0x1080, read32 m (0x1000 + 0x41445F5F))) = some (7, 0x1000) ∧
      (bind_macho 6 resolve_foo 0x1000 0x70 8
          (symtab_first_example [0x40, 102, 111, 111, 0, 0x70, 0x00, 0x90])).map
        (fun m => (read32 m 0x1080, read32 m (0x1000 + 0x41445F5F))) = some (7, 0x5000) := by
  refine ⟨?_, ?_, ?_, ?_, ?_, ?_⟩ <;> decide!

set_option maxRecDepth 100000 in
/-- C24, the claim as stated fails. The streams `11 20 00 00 51` and
`11 20 00 00 00` agree up to their first `DONE` opcode (index 3), yet the first
rebases the word at `0x1060` (7 becomes `0x1007`) and the second does not: the
opcode after `DONE` was applied. -/
theorem rebase_continues_after_done :
    (rebase_macho 6 0x1000 0x50 5 (rebase_example [0x11, 0x20, 0x00, 0x00, 0x51])).map
        (fun m => read32 m 0x1060) = some 0x1007 ∧
      (rebase_macho 6 0x1000 0x50 5 (rebase_example [0x11, 0x20, 0x00, 0x00, 0x00])).map
        (fun m => read32 m 0x1060) = some 7 := by
  refine ⟨?_, ?_⟩ <;> decide!

/-- C24, amended. The "done" opcode is not terminal in `rebase_macho`: for every
stream and every state at a `DONE` opcode inside the stream length, the opcode
changes nothing and the interpretation goes on with the next byte; the loop ends
only where the index has reached the stream length, for every state. -/
theorem rebase_done_is_not_terminal (ufuel base stream size fuel : Nat) (s : RebaseState)
    (hi : s.i < size)
    (hdone : read8 s.mem (stream + s.i) &&& REBASE_OPCODE_MASK = REBASE_OPCODE_DONE) :
    rebase_step ufuel base stream s = some s ∧
      rebase_loop ufuel base stream size (fuel + 1) s =
        rebase_loop ufuel base stream size fuel { s with i := (s.i + 1) % 4294967296 } ∧
      ∀ s' : RebaseState, ¬ s'.i < size →
        rebase_loop ufuel base stream size (fuel + 1) s' = some s'.mem := by
  have hstep : rebase_step ufuel base stream s = some s := by
    simp only [rebase_step, hdone, if_true]
  refine ⟨hstep, ?_, ?_⟩
  · rw [rebase_loop, if_pos hi, hstep]
  · intro s' hs'
    rw [rebase_loop, if_neg hs']

/-- The statement of C24 (amended) at the `DONE` opcode of the stream
`11 20 00 00 51`. -/
theorem rebase_done_is_not_terminal_witness :
    rebase_step 6 0x1000 0x1050 rebase_done_state = some rebase_done_state ∧
      rebase_loop 6 0x1000 0x1050 5 (2 + 1) rebase_done_state =
        rebase_loop 6 0x1000 0x1050 5 2
          { rebase_done_state with i := (rebase_done_state.i + 1) % 4294967296 } ∧
      ∀ s' : RebaseState, ¬ s'.i < 5 →
        rebase_loop 6 0x1000 0x1050 5 (2 + 1) s' = some s'.mem :=
  rebase_done_is_not_terminal 6 0x1000 0x1050 5 2 rebase_done_state (by decide) (by decide)

/-- The three bind-apply opcodes `DO_BIND`, `DO_BIND_ADD_ADDR_ULEB` and
`DO_BIND_ADD_ADDR_IMM_SCALED` leave the same segment offset whatever the current
symbol resolved to. -/
theorem bind_step_offset_independent (fuel : Nat) (resolve : CStr → Nat) (base stream : Nat)
    (s : BindState) (a : Nat)
    (hop : read8 s.mem (stream + s.i) &&& BIND_OPCODE_MASK = BIND_OPCODE_DO_BIND ∨
      read8 s.mem (stream + s.i) &&& BIND_OPCODE_MASK = BIND_OPCODE_DO_BIND_ADD_ADDR_ULEB ∨
      read8 s.mem (stream + s.i) &&& BIND_OPCODE_MASK =
        BIND_OPCODE_DO_BIND_ADD_ADDR_IMM_SCALED) :
    (bind_step fuel resolve base stream { s with symbolAddr := a }).map
        (fun t => t.segmentAddress) =
      (bind_step fuel resolve base stream s).map (fun t => t.segmentAddress) := by
  rcases hop with h | h | h
  · simp [bind_step, h, BIND_OPCODE_DO_BIND, BIND_OPCODE_DONE, BIND_OPCODE_SET_DYLIB_ORDINAL_IMM,
      BIND_OPCODE_SET_DYLIB_ORDINAL_ULEB, BIND_OPCODE_SET_DYLIB_SPECIAL_IMM,
      BIND_OPCODE_SET_SYMBOL_TRAILING_FLAGS_IMM, BIND_OPCODE_SET_TYPE_IMM,
      BIND_OPCODE_SET_ADDEND_SLEB, BIND_OPCODE_SET_SEGMENT_AND_OFFSET_ULEB,
      BIND_OPCODE_ADD_ADDR_ULEB]
  · simp [bind_step, h, BIND_OPCODE_DO_BIND, BIND_OPCODE_DONE, BIND_OPCODE_SET_DYLIB_ORDINAL_IMM,
      BIND_OPCODE_SET_DYLIB_ORDINAL_ULEB, BIND_OPCODE_SET_DYLIB_SPECIAL_IMM,
      BIND_OPCODE_SET_SYMBOL_TRAILING_FLAGS_IMM, BIND_OPCODE_SET_TYPE_IMM,
      BIND_OPCODE_SET_ADDEND_SLEB, BIND_OPCODE_SET_SEGMENT_AND_OFFSET_ULEB,
      BIND_OPCODE_ADD_ADDR_ULEB, BIND_OPCODE_DO_BIND_ADD_ADDR_ULEB, Option.map_map,
      Function.comp_def]
  · simp [bind_step, h, BIND_OPCODE_DO_BIND, BIND_OPCODE_DONE, BIND_OPCODE_SET_DYLIB_ORDINAL_IMM,
      BIND_OPCODE_SET_DYLIB_ORDINAL_ULEB, BIND_OPCODE_SET_DYLIB_SPECIAL_IMM,
      BIND_OPCODE_SET_SYMBOL_TRAILING_FLAGS_IMM, BIND_OPCODE_SET_TYPE_IMM,
      BIND_OPCODE_SET_ADDEND_SLEB, BIND_OPCODE_SET_SEGMENT_AND_OFFSET_ULEB,
      BIND_OPCODE_ADD_ADDR_ULEB, BIND_OPCODE_DO_BIND_ADD_ADDR_ULEB,
      BIND_OPCODE_DO_BIND_ADD_ADDR_IMM_SCALED]

set_option maxRecDepth 100000 in
/-- C26, the code at the failing input. The stream is: set symbol `bar`
(unresolved), segment 0 offset 0, `DO_BIND_ULEB_TIMES_SKIPPING_ULEB` with count 2
and skip 0, set symbol `foo` (at `0x5000`), `DO_BIND`. At the times-skipping
opcode the segment offset advances by 8 when the symbol is resolved and stays
where it was when it is the sentinel, so the later bind of `foo` writes at
`0x10C0` instead of `0x10C8`. The three other bind-apply opcodes advance the
offset outside the test of the symbol (`bind_step_offset_independent`); this one
advances it inside the loop that the test guards. -/
theorem bind_times_skipping_keeps_offset_when_unresolved :
    (bind_step 5 resolve_foo 0x1000 0x1080
          (bind_state_at 7 0x5000
            (bind_stream_example
              [0x40, 98, 97, 114, 0, 0x70, 0x00, 0xC0, 0x02, 0x00, 0x40, 102, 111, 111, 0,
                0x90]))).map
        (fun s => s.segmentAddress) = some (0xC0 + 8) ∧
      (bind_step 5 resolve_foo 0x1000 0x1080
          (bind_state_at 7 0xFFFFFFFF
            (bind_stream_example
              [0x40, 98, 97, 114, 0, 0x70, 0x00, 0xC0, 0x02, 0x00, 0x40, 102, 111, 111, 0,
                0x90]))).map
        (fun s => s.segmentAddress) = some 0xC0 ∧
      (bind_macho 7 resolve_foo 0x1000 0x80 16
          (bind_stream_example
            [0x40, 98, 97, 114, 0, 0x70, 0x00, 0xC0, 0x02, 0x00, 0x40, 102, 111, 111, 0,
              0x90])).map
        (fun m => (read32 m 0x10C0, read32 m 0x10C8)) = some (0x5000, 0) := by
  refine ⟨?_, ?_, ?_⟩ <;> decide!

theorem udivdi3_shift_spec (d : Nat) : ∀ (fuel e : Nat),
    d * 2 ^ e < 18446744073709551616 → 9223372036854775808 ≤ d * 2 ^ (e + fuel) →
    ∃ k, udivdi3_shift (fuel + 1) (d * 2 ^ e) (2 ^ e) = some (d * 2 ^ k, 2 ^ k) ∧
      9223372036854775808 ≤ d * 2 ^ k ∧ d * 2 ^ k < 18446744073709551616 := by
  intro fuel
  induction fuel with
  | zero =>
    intro e h1 h2
    refine ⟨e, ?_, h2, h1⟩
    simp only [udivdi3_shift]
    rw [if_neg (by simpa using h2)]
  | succ fuel ih =>
    intro e h1 h2
    by_cases hlt : d * 2 ^ e < 9223372036854775808
    · have h3 : d * 2 ^ (e + 1) < 18446744073709551616 := by
        rw [pow_succ, ← Nat.mul_assoc]; omega
      obtain ⟨k, hk, hk2⟩ := ih (e + 1) h3
        (by rw [show e + 1 + fuel = e + (fuel + 1) by omega]; exact h2)
      refine ⟨k, ?_, hk2⟩
      rw [udivdi3_shift, if_pos hlt, ← hk]
      have e1 : d * 2 ^ e * 2 % 18446744073709551616 = d * 2 ^ (e + 1) := by
        rw [pow_succ, ← Nat.mul_assoc] at h3 ⊢
        exact Nat.mod_eq_of_lt h3
      have hd : 0 < d := by
        rcases Nat.eq_zero_or_pos d with h0 | h0
        · subst h0; simp at h2
        · exact h0
      have e2 : 2 ^ e * 2 % 18446744073709551616 = 2 ^ (e + 1) := by
        rw [pow_succ]
        apply Nat.mod_eq_of_lt
        rw [pow_succ, ← Nat.mul_assoc] at h3
        have : 2 ^ e * 2 ≤ d * 2 ^ e * 2 := by
          apply Nat.mul_le_mul_right
          exact Nat.le_mul_of_pos_left _ hd
        omega
      rw [e1, e2]
    · refine ⟨e, ?_, by omega, h1⟩
      rw [udivdi3_shift, if_neg hlt]

theorem udivdi3_loop_tail : ∀ (fuel numerator denominator quotient : Nat),
    quotient < 18446744073709551616 → denominator < 2 ^ fuel →
    udivdi3_loop (fuel + 1) numerator denominator quotient 0 = some quotient := by
  intro fuel
  induction fuel with
  | zero =>
    intro n d q hq hd
    have : d = 0 := by simpa using hd
    subst this
    simp [udivdi3_loop]
  | succ fuel ih =>
    intro n d q hq hd
    have hd2 : d / 2 < 2 ^ fuel := by
      rw [pow_succ] at hd; omega
    rw [udivdi3_loop]
    by_cases h0 : d = 0
    · simp [h0]
    · simp only [ne_eq, h0, not_false_eq_true, if_true, Nat.add_zero, Nat.zero_div,
        Nat.mod_eq_of_lt hq]
      split
      · exact ih _ _ _ hq hd2
      · exact ih _ _ _ hq hd2

theorem udivdi3_loop_spec (d : Nat) (hd : 0 < d) (hd64 : d < 18446744073709551616) :
    ∀ (e fuel numerator quotient D P : Nat), P = 2 ^ e → D = d * P →
    numerator < 2 * D → quotient + numerator / d < 18446744073709551616 →
    e + 65 ≤ fuel →
    udivdi3_loop (fuel + 1) numerator D quotient P = some (quotient + numerator / d) := by
  intro e
  induction e with
  | zero =>
    intro fuel n q D P hP hD hn hq hf
    obtain ⟨f, rfl⟩ : ∃ f, fuel = f + 1 := ⟨fuel - 1, by omega⟩
    simp only [pow_zero] at hP
    subst hP
    simp only [Nat.mul_one] at hD
    subst hD
    have hdf : D / 2 < 2 ^ f := by
      have h2 : 2 ^ 64 ≤ 2 ^ f := Nat.pow_le_pow_right (by decide) (by omega)
      have h3 : (2 : Nat) ^ 64 = 18446744073709551616 := by norm_num
      omega
    rw [udivdi3_loop]
    simp only [ne_eq, Nat.pos_iff_ne_zero.mp hd, not_false_eq_true, if_true]
    by_cases hle : D ≤ n
    · have hdiv : n / D = 1 := by
        apply Nat.div_eq_of_lt_le <;> omega
      rw [if_pos hle]
      rw [hdiv] at hq ⊢
      rw [Nat.mod_eq_of_lt hq]
      exact udivdi3_loop_tail _ _ _ _ hq hdf
    · have hdiv : n / D = 0 := Nat.div_eq_of_lt (by omega)
      rw [if_neg hle, hdiv]
      exact udivdi3_loop_tail _ _ _ _ (by omega) hdf
  | succ e ih =>
    intro fuel n q D P hP hD hn hq hf
    obtain ⟨f, rfl⟩ : ∃ f, fuel = f + 1 := ⟨fuel - 1, by omega⟩
    have hP2 : P = 2 * 2 ^ e := by rw [hP, pow_succ, Nat.mul_comm]
    have hD2 : D = 2 * (d * 2 ^ e) := by rw [hD, hP2, Nat.mul_left_comm]
    have hpos : 0 < d * 2 ^ e := by positivity
    have hD0 : D ≠ 0 := by omega
    have hhalf : D / 2 = d * 2 ^ e := by omega
    have hqhalf : P / 2 = 2 ^ e := by omega
    rw [udivdi3_loop]
    simp only [ne_eq, hD0, not_false_eq_true, if_true, hhalf, hqhalf]
    by_cases hle : D ≤ n
    · rw [if_pos hle]
      have hPle : P ≤ n / d := by
        rw [Nat.le_div_iff_mul_le hd, Nat.mul_comm, ← hD]
        exact hle
      have hsub : (n - D) / d = n / d - P := by
        rw [hD]
        exact Nat.sub_mul_div n d P (by rw [← hD]; exact hle)
      have hq2 : q + P < 18446744073709551616 := by omega
      rw [Nat.mod_eq_of_lt hq2]
      rw [ih f (n - D) (q + P) (d * 2 ^ e) (2 ^ e) rfl rfl (by omega) (by omega) (by omega)]
      rw [hsub]
      congr 1
      omega
    · rw [if_neg hle]
      exact ih f n q (d * 2 ^ e) (2 ^ e) rfl rfl (by omega) hq (by omega)

/-- C27. For every 64-bit numerator `n` and non-zero 64-bit denominator `d`,
`__udivdi3(n, d)` returns (both loops end within 129 passes) and the result is
the floor quotient `n / d`, the `q` with `q * d ≤ n < (q + 1) * d`. The shifted
divisor never overflows: the first loop stops as soon as its top bit is set. -/
theorem udivdi3_floor_quotient (fuel n d : Nat) (hn : n < 18446744073709551616)
    (hd : d < 18446744073709551616) (hd0 : d ≠ 0) (hfuel : 129 ≤ fuel) :
    __udivdi3 fuel n d = some (n / d) ∧ n / d * d ≤ n ∧ n < (n / d + 1) * d := by
  have hpos : 0 < d := Nat.pos_of_ne_zero hd0
  refine ⟨?_, Nat.div_mul_le_self n d, by
    rw [Nat.mul_comm]; exact Nat.lt_mul_div_succ n hpos⟩
  obtain ⟨f, rfl⟩ : ∃ f, fuel = f + 1 := ⟨fuel - 1, by omega⟩
  have h63 : (2 : Nat) ^ 63 = 9223372036854775808 := by norm_num
  have h64 : (2 : Nat) ^ 64 = 18446744073709551616 := by norm_num
  have hf : 9223372036854775808 ≤ d * 2 ^ (0 + f) := by
    have h2 : 2 ^ 63 ≤ 2 ^ (0 + f) := Nat.pow_le_pow_right (by decide) (by omega)
    have h3 : 2 ^ (0 + f) ≤ d * 2 ^ (0 + f) := Nat.le_mul_of_pos_left _ hpos
    omega
  obtain ⟨k, hk, hk1, hk2⟩ := udivdi3_shift_spec d f 0 (by simpa using hd) hf
  simp only [pow_zero, Nat.mul_one] at hk
  have hk64 : k < 64 := by
    by_contra hge
    have h2 : 2 ^ 64 ≤ 2 ^ k := Nat.pow_le_pow_right (by decide) (by omega)
    have h3 : 2 ^ k ≤ d * 2 ^ k := Nat.le_mul_of_pos_left _ hpos
    omega
  have hdiv : n / d ≤ n := Nat.div_le_self n d
  simp only [__udivdi3, ne_eq, hd0, not_false_eq_true, if_true, hk, Option.some_bind]
  have h := udivdi3_loop_spec d hpos hd k f n 0 (d * 2 ^ k) (2 ^ k) rfl rfl (by omega)
    (by omega) (by omega)
  rw [h, Nat.zero_add]

/-- The statement of C27 for `10^12 / 7`. -/
theorem udivdi3_floor_quotient_witness :
    __udivdi3 129 1000000000000 7 = some (1000000000000 / 7) ∧
      1000000000000 / 7 * 7 ≤ 1000000000000 ∧ 1000000000000 < (1000000000000 / 7 + 1) * 7 :=
  udivdi3_floor_quotient 129 1000000000000 7 (by decide) (by decide) (by decide) (by decide)

theorem parse_command_ignored (fuel binary : Nat) (l : Loader) (s : ParseState)
    (h : read32 s.w.mem ((binary + s.binaryIndex) % 4294967296) &&& 0x7FFFFFFF = 0) :
    parse_command fuel binary (some l) s = some s := by
  simp [parse_command, h, LC_SYMTAB, LC_SEGMENT, LC_SEGMENT_64, LC_LOAD_DYLIB,
    LC_LOAD_WEAK_DYLIB, LC_REQ_DYLD, LC_DYLD_INFO]

theorem parse_commands_never_ends (u binary : Nat) (l : Loader) (m : Mem)
    (hn : 65536 ≤ read32 m (binary + 16))
    (hc : read32 m ((binary + 28) % 4294967296) &&& 0x7FFFFFFF = 0)
    (hs : read32 m ((binary + 28) % 4294967296 + 4) = 0) :
    ∀ (fuel : Nat) (s : ParseState), s.w.mem = m → s.binaryIndex = 28 → s.cmd < 65536 →
      parse_commands u binary (some l) fuel s = none := by
  intro fuel
  induction fuel with
  | zero => intro s _ _ _; rfl
  | succ fuel ih =>
    intro s hm hb hcmd
    have hlt : s.cmd < read32 s.w.mem (binary + 16) := by rw [hm]; omega
    have hpc : parse_command u binary (some l) { s with cmd := (s.cmd + 1) % 65536 } =
        some { s with cmd := (s.cmd + 1) % 65536 } :=
      parse_command_ignored u binary l _ (by simp only [hm, hb]; exact hc)
    rw [parse_commands, if_pos hlt, hpc]
    simp only
    apply ih
    · exact hm
    · simp only [hm, hb, hs]
    · exact Nat.mod_lt _ (by decide)

set_option maxRecDepth 100000 in
theorem many_commands_facts :
    read32 many_commands_image 0x2000 = MH_MAGIC ∧
      read32 many_commands_image (0x2000 + 16) = 65536 ∧
      read32 many_commands_image ((0x2000 + 28) % 4294967296) &&& 0x7FFFFFFF = 0 ∧
      read32 many_commands_image ((0x2000 + 28) % 4294967296 + 4) = 0 := by
  refine ⟨?_, ?_, ?_, ?_⟩ <;> decide!

/-- C28, the code at the failing input. The header of the image announces
`0x10000` load commands (the rest of the image is zero, so every command is of
an ignored kind and of size 0). The load-command walk never ends, whatever the
fuel: its counter `cmd` is a `UInt16`, which wraps to 0 after 65535 and so stays
below `ncmds` for ever. -/
theorem parse_mach_walk_never_ends_with_65536_commands :
    read32 many_commands_image (0x2000 + 16) = 0x10000 ∧
    ∀ fuel : Nat, parse_mach fuel 0x2000 (some recording_loader) add_symbol
      (boot_world many_commands_image [] (fun _ => none)) = none := by
  refine ⟨many_commands_facts.2.1, ?_⟩
  intro fuel
  have hm : (boot_world many_commands_image [] (fun _ => none)).mem = many_commands_image := rfl
  have h := parse_commands_never_ends fuel 0x2000 recording_loader many_commands_image
    (by rw [many_commands_facts.2.1]) many_commands_facts.2.2.1 many_commands_facts.2.2.2 fuel
    { cmd := 0, binaryIndex := 28, symtabCommand := 0, dyldInfoCommand := 0,
      w := boot_world many_commands_image [] (fun _ => none) } rfl rfl (by decide)
  simp only [parse_mach, hm, many_commands_facts.1, if_true, h, Option.none_bind]

theorem parse_command_symtab (fuel binary : Nat) (l : Loader) (s : ParseState)
    (h : read32 s.w.mem ((binary + s.binaryIndex) % 4294967296) &&& 0x7FFFFFFF = LC_SYMTAB) :
    parse_command fuel binary (some l) s =
      some { s with symtabCommand := (binary + s.binaryIndex) % 4294967296 } := by
  simp [parse_command, h]

/-- The load-command walk of an image that announces 65536 commands or more and
whose first command is an `LC_SYMTAB` of 24 bytes followed by zero bytes: the
walk passes the `LC_SYMTAB` and then decodes the command at 52, of size 0, for
ever. -/
theorem parse_commands_never_ends_after_symtab (u binary : Nat) (l : Loader) (m : Mem)
    (hn : 65536 ≤ read32 m (binary + 16))
    (hc28 : read32 m ((binary + 28) % 4294967296) &&& 0x7FFFFFFF = LC_SYMTAB)
    (hs28 : read32 m ((binary + 28) % 4294967296 + 4) = 24)
    (hc52 : read32 m ((binary + 52) % 4294967296) &&& 0x7FFFFFFF = 0)
    (hs52 : read32 m ((binary + 52) % 4294967296 + 4) = 0) :
    ∀ (fuel : Nat) (s : ParseState), s.w.mem = m → s.binaryIndex = 28 ∨ s.binaryIndex = 52 →
      s.cmd < 65536 → parse_commands u binary (some l) fuel s = none := by
  intro fuel
  induction fuel with
  | zero => intro s _ _ _; rfl
  | succ fuel ih =>
    intro s hm hb hcmd
    have hlt : s.cmd < read32 s.w.mem (binary + 16) := by rw [hm]; omega
    rcases hb with hb | hb
    · have hpc : parse_command u binary (some l) { s with cmd := (s.cmd + 1) % 65536 } =
          some { s with cmd := (s.cmd + 1) % 65536,
                        symtabCommand := (binary + s.binaryIndex) % 4294967296 } :=
        parse_command_symtab u binary l _ (by simp only [hm, hb]; exact hc28)
      rw [parse_commands, if_pos hlt, hpc]
      simp only
      apply ih
      · exact hm
      · right; simp only [hm, hb, hs28]
      · exact Nat.mod_lt _ (by decide)
    · have hpc : parse_command u binary (some l) { s with cmd := (s.cmd + 1) % 65536 } =
          some { s with cmd := (s.cmd + 1) % 65536 } :=
        parse_command_ignored u binary l _ (by simp only [hm, hb]; exact hc52)
      rw [parse_commands, if_pos hlt, hpc]
      simp only
      apply ih
      · exact hm
      · right; simp only [hm, hb, hs52]
      · exact Nat.mod_lt _ (by decide)

set_option maxRecDepth 100000 in
theorem startless_image_facts :
    read32 (image_world startless_world startless_file).mem 0x2000 = MH_MAGIC ∧
      read32 (image_world startless_world startless_file).mem (0x2000 + 16) = 65536 ∧
      read32 (image_world startless_world startless_file).mem ((0x2000 + 28) % 4294967296) &&&
        0x7FFFFFFF = LC_SYMTAB ∧
      read32 (image_world startless_world startless_file).mem
        ((0x2000 + 28) % 4294967296 + 4) = 24 ∧
      read32 (image_world startless_world startless_file).mem ((0x2000 + 52) % 4294967296) &&&
        0x7FFFFFFF = 0 ∧
      read32 (image_world startless_world startless_file).mem
        ((0x2000 + 52) % 4294967296 + 4) = 0 := by
  refine ⟨?_, ?_, ?_, ?_, ?_, ?_⟩ <;> decide!

set_option maxRecDepth 100000 in
theorem startless_world_facts :
    is_module_loaded 0x7000 startless_world = some EFI_NOT_FOUND ∧
      strAt startless_world.mem 0x7000 = [109] ∧
      startless_world.files (MODULES_DIR ++ [109]) = some startless_file ∧
      (malloc startless_world).1 = 0x2000 := by
  refine ⟨?_, ?_, ?_, ?_⟩ <;> decide!

set_option maxRecDepth 100000 in
/-- C10, the code at the failing input. The file `"m"` is a readable 32-bit image
whose symbol table has the one entry `foo` (none named `start`: on it
`handle_symtable` returns the sentinel `0xFFFFFFFF`) and whose header announces
`0x10000` load commands. `load_module("m")` does not return `EFI_NOT_STARTED`: it
does not return at all, whatever the fuel and the code of the modules, because
the load-command walk of `parse_mach` never ends (its `UInt16` counter stays
below `ncmds`), so `handle_symtable` is never reached. -/
theorem load_module_without_start_never_returns :
    read32 (image_world startless_world startless_file).mem 0x2000 = MH_MAGIC ∧
      read32 (image_world startless_world startless_file).mem (0x2000 + 16) = 0x10000 ∧
      (handle_symtable 0x2000 0x201C add_symbol false
        (image_world startless_world startless_file)).1 = 0xFFFFFFFF ∧
      ∀ (run : Nat → World → World) (fuel : Nat),
        load_module run fuel 0x7000 startless_world = none := by
  refine ⟨startless_image_facts.1, startless_image_facts.2.1, by decide!, ?_⟩
  intro run fuel
  cases fuel with
  | zero => rfl
  | succ fuel =>
    have hwalk := parse_commands_never_ends_after_symtab fuel 0x2000 (load_module run fuel)
      (image_world startless_world startless_file).mem
      (by rw [startless_image_facts.2.1]) startless_image_facts.2.2.1
      startless_image_facts.2.2.2.1 startless_image_facts.2.2.2.2.1
      startless_image_facts.2.2.2.2.2 fuel
      { cmd := 0, binaryIndex := 28, symtabCommand := 0, dyldInfoCommand := 0,
        w := image_world startless_world startless_file } rfl (Or.inl rfl) (by decide)
    have hparse : parse_mach fuel 0x2000 (some (load_module run fuel)) add_symbol
        (image_world startless_world startless_file) = none := by
      simp only [parse_mach, startless_image_facts.1, if_true, hwalk, Option.none_bind]
    have hp2 : parse_mach fuel (malloc startless_world).1 (some (load_module run fuel))
        add_symbol
        { (malloc startless_world).2 with
          mem := writeBytes (malloc startless_world).2.mem (malloc startless_world).1
            (startless_file.data.take startless_file.size) } = none := by
      rw [startless_world_facts.2.2.2]
      exact hparse
    have hfit : ¬ 128 < MODULES_DIR.length + (strAt startless_world.mem 0x7000).length + 1 := by
      rw [startless_world_facts.2.1]; decide
    have hopen : startless_world.files (MODULES_DIR ++ strAt startless_world.mem 0x7000) =
        some startless_file := by
      rw [startless_world_facts.2.1]; exact startless_world_facts.2.2.1
    have hsz : startless_file.size ≠ 0 ∧
        min startless_file.data.length startless_file.size = startless_file.size := by
      decide
    simp only [load_module, startless_world_facts.1, if_neg hfit, hopen, hsz, hp2]
    simp [hsz.1]

end Modules
